import Mathlib

/-!
RSA key generation (`crypto/rsa/rsa_gen.c`).

A shallow embedding of `fips_check_rsa`, `fips_rsa_builtin_keygen` and
`rsa_builtin_keygen`.  BIGNUM values are mathematical integers (`Int`), the `RSA`
object is a record of optional BIGNUMs (`none` is a NULL pointer), and every
call into the big-integer library, the random source, the primality test, the
progress callback and the pairwise-test primitives is answered by an explicit
environment `Env`.  Loops that the C code does not bound (`for (;;)`,
`goto ploop`, `goto retry`) are run with a fuel argument; running out of fuel
is the result `none`.  The C `int`s `bits`, `pbits`, `i` and `n` are exact
integers: the code is read for sizes at which `5 * pbits` and `n++` stay in
range.
-/

set_option maxRecDepth 1000000
set_option maxHeartbeats 4000000

namespace RsaGen

/-! ## Data model -/

/-- Library part of an error-queue entry (`ERR_GET_LIB`). -/
inductive Lib
  | BN | RSA | FIPS
  deriving DecidableEq, Repr

/-- Function part of an error-queue entry. -/
inductive Func
  | BN_MOD_INVERSE
  | FIPS_CHECK_RSA
  | FIPS_RSA_BUILTIN_KEYGEN
  | RSA_BUILTIN_KEYGEN
  deriving DecidableEq, Repr

/-- Reason part of an error-queue entry (`ERR_GET_REASON`).  `ERR_LIB_BN` is
the value both key generators pass as the reason of their generic failure. -/
inductive Reason
  | BN_R_NO_INVERSE
  | BN_R_DIV_BY_ZERO
  | ERR_R_MALLOC_FAILURE
  | FIPS_R_FIPS_SELFTEST_FAILED
  | FIPS_R_KEY_TOO_SHORT
  | FIPS_R_INVALID_KEY_LENGTH
  | FIPS_R_PAIRWISE_TEST_FAILED
  | RSA_R_BAD_E_VALUE
  | RSA_R_KEY_SIZE_TOO_SMALL
  | ERR_LIB_BN
  deriving DecidableEq, Repr

/-- One entry of the thread's error queue. -/
structure Err where
  lib : Lib
  func : Func
  reason : Reason
  deriving DecidableEq, Repr

/-- The `RSA` key object: each component is a pointer to a BIGNUM, `none`
being NULL. -/
structure RSA where
  n : Option Int
  e : Option Int
  d : Option Int
  p : Option Int
  q : Option Int
  dmp1 : Option Int
  dmq1 : Option Int
  iqmp : Option Int
  deriving DecidableEq, Repr

/-- Observable calls made by the generators, newest first in `St.trace`. -/
inductive Event
  | draw (bits : Int) (x : Int)
  | test (x : Int) (checks : Int) (r : Int)
  | callback (a b : Int) (r : Bool)
  | pairwise (rsa : RSA) (ret : Int)
  deriving DecidableEq, Repr

/-- Answers of the pairwise-test primitives for one key. -/
structure PairwiseOracle where
  sig_pkcs1 : Bool
  sig_x931 : Bool
  sig_pss : Bool
  encrypt : Int × List Nat
  decrypt : Int × List Nat

/-- The world outside `rsa_gen.c`.  The k-th library call that can fail fails
when `fail k`; the k-th random draw, primality test and callback invocation
are answered by `rand`, `gen_prime`, `is_prime` and `cb`. -/
structure Env where
  fail : Nat → Bool
  rand : Nat → Nat
  gen_prime : Nat → Int → Nat
  is_prime : Nat → Int → Int → Int
  cb : Nat → Int → Int → Bool
  pairwise : RSA → PairwiseOracle
  /-- The macro `OPENSSL_RSA_FIPS_MIN_MODULUS_BITS` (its header is not part of
  the sources at hand). -/
  min_modulus_bits : Int
  /-- Whether `secure_getenv("OPENSSL_ENFORCE_MODULUS_BITS")` is non-NULL. -/
  enforce_modulus_bits : Bool

/-- Machine state threaded through a call: the key object, the error queue
(newest first), the FIPS self-test flag, and the counters and trace of the
calls answered by the environment. -/
structure St where
  rsa : RSA
  errs : List Err
  selftest_failed : Bool
  nops : Nat
  ndraw : Nat
  ntest : Nat
  ncb : Nat
  trace : List Event
  deriving DecidableEq, Repr

/-- The BN_CTX temporaries `r0` .. `r3`. -/
structure Regs where
  r0 : Int
  r1 : Int
  r2 : Int
  r3 : Int
  deriving DecidableEq, Repr

/-- Result of running a piece of code: fall through with a value, `goto err`
with the current value of `ok`, or out of fuel. -/
inductive Res (α : Type) where
  | next (a : α) (s : St)
  | jump (ok : Int) (s : St)
  | spin

/-- Code: a state transformer with an error exit. -/
def M (α : Type) : Type := St → Res α

/-- Continue with `f` when the result falls through. -/
def Res.andThen {α β : Type} (r : Res α) (f : α → St → Res β) : Res β :=
  match r with
  | Res.next a s1 => f a s1
  | Res.jump ok s1 => Res.jump ok s1
  | Res.spin => Res.spin

/-- Sequencing: the second piece runs only when the first falls through. -/
def M.bind {α β : Type} (m : M α) (f : α → M β) : M β := fun s => (m s).andThen f

instance : Monad M where
  pure := fun a s => Res.next a s
  bind := M.bind

/-- Transfer control to the label `err` with the given value of `ok`. -/
def goto_err {α : Type} (ok : Int) : M α := fun s => Res.jump ok s

/-- The loop ran out of fuel. -/
def out_of_fuel {α : Type} : M α := fun _ => Res.spin

/-- Read the state. -/
def get_st : M St := fun s => Res.next s s

/-- Update the key object. -/
def set_rsa (f : RSA → RSA) : M Unit := fun s => Res.next () { s with rsa := f s.rsa }

/-- Put an entry on the error queue (`RSAerr`, `FIPSerr`, `BNerr`). -/
def put_error (e : Err) : M Unit := fun s => Res.next () { s with errs := e :: s.errs }

/-- Restore the queue to a marked position (`ERR_pop_to_mark`). -/
def ERR_pop_to_mark (mark : List Err) : M Unit := fun s => Res.next () { s with errs := mark }

/-- Value behind a BIGNUM pointer that the code has made non-NULL. -/
def val (x : Option Int) : Int := x.getD 0

/-! ## The big-integer library, modelled -/

/-- Modelled from the spec: one call into the Big-Integer Facility (OpenSSL
`BN_*`, not among the sources).  It either fails, as the environment decides,
or succeeds; the caller tests the returned flag.  What the library itself
queues when it fails is not modelled (only `BN_mod_inverse` records its own
entry), so after a failed call the error queue of the model is that of the
code in its top entry, the one the label `err` adds, and says nothing about
the entries beneath it. -/
def lib_call (env : Env) : M Bool := fun s =>
  Res.next (!env.fail s.nops) { s with nops := s.nops + 1 }

/-- A library call whose failure is followed by `goto err` with `ok` still
-1. -/
def lib (env : Env) : M Unit := do
  let okc ← lib_call env
  if okc then pure () else goto_err (-1)

/-- Number of binary digits of `x`, by repeated halving. -/
def bit_length : Nat → Nat → Nat
  | 0, _ => 0
  | fuel + 1, x => if x = 0 then 0 else bit_length fuel (x / 2) + 1

/-- Modelled from the spec: `BN_num_bits`, the bit length of the magnitude. -/
def BN_num_bits (x : Int) : Int := (bit_length x.natAbs x.natAbs : Nat)

/-- Euclid's algorithm on the remainders `(r0, r1)` carrying the
coefficients `(t0, t1)` of the inverted value. -/
def inv_loop : Nat → Nat → Nat → Int → Int → Int
  | 0, _, _, t0, _ => t0
  | fuel + 1, r0, r1, t0, t1 =>
    if r1 = 0 then t0
    else inv_loop fuel r1 (r0 % r1) t1 (t0 - ((r0 / r1 : Nat) : Int) * t1)

/-- Modelled from the spec: the value `BN_mod_inverse` returns when the
inverse exists, the representative in `[0, |n|)` of `a⁻¹ mod |n|`. -/
def mod_inverse_val (a n : Int) : Int :=
  inv_loop (n.natAbs + 1) n.natAbs (a % (n.natAbs : Int)).toNat 0 1 % (n.natAbs : Int)

/-- What a call of `BN_mod_inverse` can report. -/
inductive InvResult
  | inv (x : Int)
  | no_inverse
  | failed
  deriving DecidableEq, Repr

/-- Modelled from the spec: `BN_mod_inverse(r, a, n, ctx)` of the Big-Integer
Facility.  A zero modulus or a resource failure is an error other than "no
inverse"; otherwise the inverse exists exactly when `gcd(a, n) = 1`.  The
error it queues is what the caller reads back with `ERR_peek_last_error`. -/
def BN_mod_inverse (env : Env) (a n : Int) : M InvResult := do
  let okc ← lib_call env
  if !okc then
    put_error ⟨Lib.BN, Func.BN_MOD_INVERSE, Reason.ERR_R_MALLOC_FAILURE⟩
    pure InvResult.failed
  else if n = 0 then
    put_error ⟨Lib.BN, Func.BN_MOD_INVERSE, Reason.BN_R_DIV_BY_ZERO⟩
    pure InvResult.failed
  else if Int.gcd a n = 1 then
    pure (InvResult.inv (mod_inverse_val a n))
  else
    put_error ⟨Lib.BN, Func.BN_MOD_INVERSE, Reason.BN_R_NO_INVERSE⟩
    pure InvResult.no_inverse

/-- Modelled from the spec: `BN_lshift(r, a, n)`; a negative shift count is
refused. -/
def BN_lshift (env : Env) (a : Int) (n : Int) : M Int := do
  let okc ← lib_call env
  if !okc || n < 0 then goto_err (-1) else pure (a * 2 ^ n.toNat)

/-- Modelled from the spec: `BN_div(dv, NULL, m, d, ctx)`, the quotient
truncated towards zero; division by zero fails. -/
def BN_div_quot (env : Env) (m d : Int) : M Int := do
  let okc ← lib_call env
  if !okc || d = 0 then goto_err (-1) else pure (Int.tdiv m d)

/-- Modelled from the spec: `BN_mod(rem, m, d, ctx)`, the remainder of the
truncated division; division by zero fails. -/
def BN_mod (env : Env) (m d : Int) : M Int := do
  let okc ← lib_call env
  if !okc || d = 0 then goto_err (-1) else pure (Int.tmod m d)

/-- Modelled from the spec: the Randomness Source, `BN_rand(rnd, bits, top,
bottom)`: `bits` random bits with the top bit set (`top = 0`), the top two
bits set (`top = 1`), and the lowest bit set when `bottom` is non-zero. -/
def BN_rand_val (raw : Nat) (bits : Int) (top : Int) (bottom : Int) : Int :=
  let b := bits.toNat
  let x := raw % 2 ^ b
  let x := if 0 ≤ top then x ||| 2 ^ (b - 1) else x
  let x := if 0 < top then x ||| 2 ^ (b - 2) else x
  let x := if bottom ≠ 0 then x ||| 1 else x
  (x : Int)

/-- `BN_rand(dst, bits, top, bottom)` followed by `goto err` on failure (a
resource failure, or a bit count too small for the requested shaping); the
value is handed to `store`. -/
def BN_rand (env : Env) (store : Int → RSA → RSA) (bits top bottom : Int) : M Unit := do
  lib env
  if bits < 0 ∨ (bits = 0 ∧ (top ≠ -1 ∨ bottom ≠ 0)) ∨ (bits = 1 ∧ 0 < top) then goto_err (-1)
  else fun s =>
    let x := BN_rand_val (env.rand s.ndraw) bits top bottom
    Res.next () { s with rsa := store x s.rsa, ndraw := s.ndraw + 1,
                         trace := Event.draw bits x :: s.trace }

/-- Modelled from the spec: `BN_generate_prime_ex(ret, bits, 0, NULL, NULL,
cb)`, the prime generator; a failure (which includes a callback abort inside
the generator) is followed by `goto err`. -/
def BN_generate_prime_ex (env : Env) (store : Int → RSA → RSA) (bits : Int) : M Unit := do
  lib env
  fun s =>
    let x : Int := (env.gen_prime s.ndraw bits : Int)
    Res.next () { s with rsa := store x s.rsa, ndraw := s.ndraw + 1,
                         trace := Event.draw bits x :: s.trace }

/-- Modelled from the spec: the Primality Oracle,
`BN_is_prime_fasttest_ex(x, checks, ctx, 0, cb)`: 1 probably prime, 0
composite, -1 error. -/
def BN_is_prime_fasttest_ex (env : Env) (x : Int) (checks : Int) : M Int := fun s =>
  let r := env.is_prime s.ntest x checks
  Res.next r { s with ntest := s.ntest + 1, trace := Event.test x checks r :: s.trace }

/-- `BN_GENCB_call(cb, a, b)`: the progress callback's answer. -/
def BN_GENCB_call (env : Env) (a b : Int) : M Bool := fun s =>
  let r := env.cb s.ncb a b
  Res.next r { s with ncb := s.ncb + 1, trace := Event.callback a b r :: s.trace }

/-- `if (!rsa->x && ((rsa->x = BN_new()) == NULL)) goto err;` -/
def ensure (env : Env) (get : RSA → Option Int) (set : RSA → RSA) : M Unit := do
  let s ← get_st
  if (get s.rsa).isNone then
    lib env
    set_rsa set
  else pure ()

/-- "We need the RSA components non-NULL": the eight allocations. -/
def alloc_components (env : Env) : M Unit := do
  ensure env (fun r => r.n) (fun r => { r with n := some 0 })
  ensure env (fun r => r.d) (fun r => { r with d := some 0 })
  ensure env (fun r => r.e) (fun r => { r with e := some 0 })
  ensure env (fun r => r.p) (fun r => { r with p := some 0 })
  ensure env (fun r => r.q) (fun r => { r with q := some 0 })
  ensure env (fun r => r.dmp1) (fun r => { r with dmp1 := some 0 })
  ensure env (fun r => r.dmq1) (fun r => { r with dmq1 := some 0 })
  ensure env (fun r => r.iqmp) (fun r => { r with iqmp := some 0 })

/-- `BN_CTX_new`, `BN_CTX_start` and the four `BN_CTX_get`; only the last
pointer is tested, and it is NULL as soon as one of the four requests
failed. -/
def ctx_setup (env : Env) : M Unit := do
  lib env
  let g0 ← lib_call env
  let g1 ← lib_call env
  let g2 ← lib_call env
  let g3 ← lib_call env
  if g0 && g1 && g2 && g3 then pure () else goto_err (-1)

/-- The swap `tmp = rsa->p; rsa->p = rsa->q; rsa->q = tmp;` guarded by
`BN_cmp(rsa->p, rsa->q) < 0`. -/
def swap_pq (r : RSA) : RSA :=
  if val r.p < val r.q then { r with p := r.q, q := r.p } else r

/-- Whether `ERR_peek_last_error()` shows library `ERR_LIB_BN` with reason
`BN_R_NO_INVERSE`. -/
def is_no_inverse (errs : List Err) : Bool :=
  match errs.head? with
  | some e => decide (e.lib = Lib.BN) && decide (e.reason = Reason.BN_R_NO_INVERSE)
  | none => false

/-- The label `err` of both generators: a generic failure is queued when `ok`
is still -1, and `ok` is returned. -/
def finish (f : Func) : Res Unit → Option (Int × St)
  | Res.next _ s => some (1, s)
  | Res.jump ok s =>
    if ok = -1 then some (0, { s with errs := ⟨Lib.RSA, f, Reason.ERR_LIB_BN⟩ :: s.errs })
    else some (ok, s)
  | Res.spin => none

/-! ## `fips_check_rsa` -/

/-- The test message `tbs`, without its terminating NUL. -/
def tbs : List Nat := "RSA Pairwise Check Data".toList.map Char.toNat

/-- Body of `fips_check_rsa` up to `ret = 1`; `goto_err` is its own label
`err`. -/
def fips_check_body (env : Env) : M Unit := do
  lib env
  let s ← get_st
  let o := env.pairwise s.rsa
  if !o.sig_pkcs1 || !o.sig_x931 || !o.sig_pss then goto_err 0
  else do
    lib env
    let len := o.encrypt.1
    let ctbuf := o.encrypt.2
    if len ≤ 0 then goto_err 0
    else if len = (tbs.length : Int) ∧ ctbuf.take tbs.length = tbs then goto_err 0
    else do
      lib env
      let len := o.decrypt.1
      let ptbuf := o.decrypt.2
      if len ≠ (tbs.length : Int) then goto_err 0
      else if ptbuf.take tbs.length ≠ tbs then goto_err 0
      else pure ()

/-- Pairwise consistency test `fips_check_rsa(rsa)`: returns 1 or 0; on 0 the
self-test flag is raised and `FIPS_R_PAIRWISE_TEST_FAILED` is queued. -/
def fips_check_rsa (env : Env) : M Int := fun s =>
  match fips_check_body env s with
  | Res.next _ s1 =>
    Res.next 1 { s1 with trace := Event.pairwise s.rsa 1 :: s1.trace }
  | Res.jump _ s1 =>
    Res.next 0 { s1 with
      selftest_failed := true
      errs := ⟨Lib.FIPS, Func.FIPS_CHECK_RSA, Reason.FIPS_R_PAIRWISE_TEST_FAILED⟩ :: s1.errs
      trace := Event.pairwise s.rsa 0 :: s1.trace }
  | Res.spin => Res.spin

/-! ## `rsa_builtin_keygen` -/

/-- First `for (;;)` of `rsa_builtin_keygen`: search for `p`; returns the
callback counter `n`. -/
def gen_p_loop (env : Env) (bitsp : Int) : Nat → Int → M Int
  | 0, _ => out_of_fuel
  | fuel + 1, n => do
    BN_generate_prime_ex env (fun x r => { r with p := some x }) bitsp
    lib env
    let s ← get_st
    let r2 := val s.rsa.p - 1
    let mark := s.errs
    let inv ← BN_mod_inverse env r2 (val s.rsa.e)
    match inv with
    | InvResult.inv _ => pure n
    | _ => do
      let s1 ← get_st
      if is_no_inverse s1.errs then
        ERR_pop_to_mark mark
        let c ← BN_GENCB_call env 2 n
        if c then gen_p_loop env bitsp fuel (n + 1) else goto_err (-1)
      else goto_err (-1)

/-- The inner `do { ... } while (BN_cmp(rsa->p, rsa->q) == 0)`. -/
def gen_q_distinct (env : Env) (bitsq : Int) : Nat → M Unit
  | 0 => out_of_fuel
  | fuel + 1 => do
    BN_generate_prime_ex env (fun x r => { r with q := some x }) bitsq
    let s ← get_st
    if val s.rsa.p = val s.rsa.q then gen_q_distinct env bitsq fuel else pure ()

/-- Second `for (;;)` of `rsa_builtin_keygen`: search for `q`. -/
def gen_q_loop (env : Env) (bitsq : Int) (lfuel : Nat) : Nat → Int → M Int
  | 0, _ => out_of_fuel
  | fuel + 1, n => do
    gen_q_distinct env bitsq lfuel
    lib env
    let s ← get_st
    let r2 := val s.rsa.q - 1
    let mark := s.errs
    let inv ← BN_mod_inverse env r2 (val s.rsa.e)
    match inv with
    | InvResult.inv _ => pure n
    | _ => do
      let s1 ← get_st
      if is_no_inverse s1.errs then
        ERR_pop_to_mark mark
        let c ← BN_GENCB_call env 2 n
        if c then gen_q_loop env bitsq lfuel fuel (n + 1) else goto_err (-1)
      else goto_err (-1)

/-- Lines 490-553 of `rsa_builtin_keygen`: the swap, `n`, `d` from
`(p-1)(q-1)`, and the CRT parameters. -/
def derive_general (env : Env) : M Unit := do
  set_rsa swap_pq
  lib env
  set_rsa (fun r => { r with n := some (val r.p * val r.q) })
  let s ← get_st
  lib env
  let r1 := val s.rsa.p - 1
  lib env
  let r2 := val s.rsa.q - 1
  lib env
  let r0 := r1 * r2
  lib env
  let inv ← BN_mod_inverse env (val s.rsa.e) r0
  match inv with
  | InvResult.inv d => do
    set_rsa (fun r => { r with d := some d })
    lib env
    let dmp1 ← BN_mod env d r1
    set_rsa (fun r => { r with dmp1 := some dmp1 })
    let dmq1 ← BN_mod env d r2
    set_rsa (fun r => { r with dmq1 := some dmq1 })
    lib env
    let inv2 ← BN_mod_inverse env (val s.rsa.q) (val s.rsa.p)
    match inv2 with
    | InvResult.inv x => set_rsa (fun r => { r with iqmp := some x })
    | _ => goto_err (-1)
  | _ => goto_err (-1)

/-- Body of `rsa_builtin_keygen` up to `ok = 1`. -/
def rsa_builtin_keygen_body (env : Env) (fuel : Nat) (bits : Int) (e_value : Int) :
    M Unit := do
  if bits < 16 then
    put_error ⟨Lib.RSA, Func.RSA_BUILTIN_KEYGEN, Reason.RSA_R_KEY_SIZE_TOO_SMALL⟩
    goto_err 0
  else do
    ctx_setup env
    let bitsp := Int.tdiv (bits + 1) 2
    let bitsq := bits - bitsp
    alloc_components env
    lib env
    set_rsa (fun r => { r with e := some e_value })
    let n ← gen_p_loop env bitsp fuel 0
    let c ← BN_GENCB_call env 3 0
    if !c then goto_err (-1)
    else do
      let _ ← gen_q_loop env bitsq fuel fuel n
      let c ← BN_GENCB_call env 3 1
      if !c then goto_err (-1)
      else derive_general env

/-- The function `rsa_builtin_keygen(rsa, bits, e_value, cb)`: the returned
`ok` and the final state, or `none` when the fuel does not suffice. -/
def rsa_builtin_keygen (env : Env) (fuel : Nat) (s : St) (bits : Int) (e_value : Int) :
    Option (Int × St) :=
  finish Func.RSA_BUILTIN_KEYGEN (rsa_builtin_keygen_body env fuel bits e_value s)

/-! ## `fips_rsa_builtin_keygen` -/

/-- Number of Miller-Rabin rounds, `pbits > 1024 ? 4 : 5`. -/
def checks_for (pbits : Int) : Int := if pbits > 1024 then 4 else 5

/-- Coprimality and primality test of one candidate `x`, lines 222-243 and
273-294: `BN_sub`, `BN_mod_inverse(r1, r2, rsa->e)`, then either the
primality test or the inspection of the queued error.  Returns whether the
loop is left by `break`. -/
def fips_candidate (env : Env) (test : Bool) (pbits : Int) (x : Int) (r : Regs) :
    M (Bool × Regs) := do
  lib env
  let r := { r with r2 := x - 1 }
  let s ← get_st
  let mark := s.errs
  let inv ← BN_mod_inverse env r.r2 (val s.rsa.e)
  match inv with
  | InvResult.inv y => do
    let r := { r with r1 := y }
    let res ← BN_is_prime_fasttest_ex env x (checks_for pbits)
    if res = -1 ∨ (test = true ∧ res ≤ 0) then goto_err (-1)
    else pure (decide (res > 0), r)
  | _ => do
    let s1 ← get_st
    if is_no_inverse s1.errs then
      ERR_pop_to_mark mark
      pure (false, r)
    else goto_err (-1)

/-- Body of the first `for` loop of `fips_rsa_builtin_keygen`, entered at the
label `ploop` with loop counter `i` and callback counter `n`; returns the
final `i`, `n` and temporaries. -/
def fips_ploop (env : Env) (test : Bool) (pbits : Int) :
    Nat → Int → Int → Regs → M (Int × Int × Regs)
  | 0, _, _, _ => out_of_fuel
  | fuel + 1, i, n, r => do
    if !test then BN_rand env (fun x k => { k with p := some x }) pbits 0 1
    let s ← get_st
    if val s.rsa.p < r.r0 then
      if test then goto_err (-1) else fips_ploop env test pbits fuel i n r
    else do
      let (brk, r) ← fips_candidate env test pbits (val s.rsa.p) r
      if brk then pure (i, n, r)
      else do
        let c ← BN_GENCB_call env 2 n
        if !c then goto_err (-1)
        else if i + 1 < 5 * pbits then fips_ploop env test pbits fuel (i + 1) (n + 1) r
        else pure (i + 1, n + 1, r)

/-- Body of the second `for` loop, entered at the label `qloop`. -/
def fips_qloop (env : Env) (test : Bool) (pbits : Int) :
    Nat → Int → Int → Regs → M (Int × Int × Regs)
  | 0, _, _, _ => out_of_fuel
  | fuel + 1, i, n, r => do
    if !test then BN_rand env (fun x k => { k with q := some x }) pbits 0 1
    let s ← get_st
    if val s.rsa.q < r.r0 then
      if test then goto_err (-1) else fips_qloop env test pbits fuel i n r
    else do
      lib env
      let r := { r with r2 := val s.rsa.q - val s.rsa.p }
      if r.r2.natAbs ≤ r.r3.natAbs then
        if test then goto_err (-1) else fips_qloop env test pbits fuel i n r
      else do
        let (brk, r) ← fips_candidate env test pbits (val s.rsa.q) r
        if brk then pure (i, n, r)
        else do
          let c ← BN_GENCB_call env 2 n
          if !c then goto_err (-1)
          else if i + 1 < 5 * pbits then fips_qloop env test pbits fuel (i + 1) (n + 1) r
          else pure (i + 1, n + 1, r)

/-- Lines 347-370: the CRT parameters and the pairwise consistency test. -/
def fips_crt (env : Env) (r : Regs) : M Unit := do
  lib env
  let s ← get_st
  let dmp1 ← BN_mod env (val s.rsa.d) r.r1
  set_rsa (fun k => { k with dmp1 := some dmp1 })
  let dmq1 ← BN_mod env (val s.rsa.d) r.r2
  set_rsa (fun k => { k with dmq1 := some dmq1 })
  let inv ← BN_mod_inverse env (val s.rsa.q) (val s.rsa.p)
  match inv with
  | InvResult.inv x => do
    set_rsa (fun k => { k with iqmp := some x })
    let c ← fips_check_rsa env
    if c = 0 then goto_err (-1) else pure ()
  | _ => goto_err (-1)

/-- Lines 313-342: the swap, `n`, and `d` as the inverse of `e` modulo
`((p-1) / gcd(p-1, q-1)) * (q-1)`; returns the temporaries, `r0` now holding
that modulus. -/
def fips_derive_d (env : Env) (r : Regs) : M Regs := do
  set_rsa swap_pq
  lib env
  set_rsa (fun k => { k with n := some (val k.p * val k.q) })
  let s ← get_st
  lib env
  let r := { r with r1 := val s.rsa.p - 1 }
  lib env
  let r := { r with r2 := val s.rsa.q - 1 }
  lib env
  let r := { r with r0 := (Int.gcd r.r1 r.r2 : Int) }
  let q0 ← BN_div_quot env r.r1 r.r0
  let r := { r with r0 := q0 }
  lib env
  let r := { r with r0 := r.r0 * r.r2 }
  let inv ← BN_mod_inverse env (val s.rsa.e) r.r0
  match inv with
  | InvResult.inv d => do
    set_rsa (fun k => { k with d := some d })
    pure r
  | _ => goto_err (-1)

/-- The code from the label `retry` to `ok = 1`; a too small `d` re-enters
it (`goto retry`) with the callback counter and the temporaries as they
are. -/
def fips_generate (env : Env) (test : Bool) (pbits : Int) (lfuel : Nat) :
    Nat → Int → Regs → M Unit
  | 0, _, _ => out_of_fuel
  | fuel + 1, n, r => do
    let (i, n, r) ← (if 0 < 5 * pbits then fips_ploop env test pbits lfuel 0 n r
      else pure (0, n, r))
    let c ← BN_GENCB_call env 3 0
    if !c then goto_err (-1)
    else if i ≥ 5 * pbits then goto_err (-1)
    else do
      let (i, n, r) ← (if 0 < 5 * pbits then fips_qloop env test pbits lfuel 0 n r
        else pure (0, n, r))
      let c ← BN_GENCB_call env 3 1
      if !c then goto_err (-1)
      else if i ≥ 5 * pbits then goto_err (-1)
      else if test then do
        set_rsa (fun k => { k with n := some 0 })
        goto_err 1
      else do
        let r ← fips_derive_d env r
        let s ← get_st
        if BN_num_bits (val s.rsa.d) < pbits then fips_generate env test pbits lfuel fuel n r
        else fips_crt env r

/-- Body of `fips_rsa_builtin_keygen` up to `ok = 1`. -/
def fips_rsa_builtin_keygen_body (env : Env) (fuel : Nat) (bits : Int) (e_value : Int) :
    M Unit := do
  let pbits := Int.tdiv bits 2
  let s ← get_st
  if s.selftest_failed then
    put_error ⟨Lib.FIPS, Func.FIPS_RSA_BUILTIN_KEYGEN, Reason.FIPS_R_FIPS_SELFTEST_FAILED⟩
    goto_err 0
  else if bits < env.min_modulus_bits ∨ (env.enforce_modulus_bits = true ∧ bits < 2048) then
    put_error ⟨Lib.FIPS, Func.FIPS_RSA_BUILTIN_KEYGEN, Reason.FIPS_R_KEY_TOO_SHORT⟩
    goto_err 0
  else if pbits % 256 ≠ 0 then
    put_error ⟨Lib.FIPS, Func.FIPS_RSA_BUILTIN_KEYGEN, Reason.FIPS_R_INVALID_KEY_LENGTH⟩
    goto_err 0
  else do
    ctx_setup env
    alloc_components env
    lib env
    let r0 : Int := 65537
    if e_value < r0 ∨ BN_num_bits e_value > 256 then
      put_error ⟨Lib.RSA, Func.FIPS_RSA_BUILTIN_KEYGEN, Reason.RSA_R_BAD_E_VALUE⟩
      goto_err 0
    else do
      lib env
      let r0 ← BN_lshift env 0xB504F334 (pbits - 32)
      lib env
      let r3 ← BN_lshift env 1 (pbits - 100)
      let copied ← lib_call env
      if copied then set_rsa (fun k => { k with e := some e_value })
      let s1 ← get_st
      let test : Bool := decide (val s1.rsa.p ≠ 0) && decide (val s1.rsa.q ≠ 0)
      fips_generate env test pbits fuel fuel 0 ⟨r0, 0, 0, r3⟩

/-- The function `fips_rsa_builtin_keygen(rsa, bits, e_value, cb)`: the
returned `ok` and the final state, or `none` when the fuel does not
suffice. -/
def fips_rsa_builtin_keygen (env : Env) (fuel : Nat) (s : St) (bits : Int)
    (e_value : Int) : Option (Int × St) :=
  finish Func.FIPS_RSA_BUILTIN_KEYGEN (fips_rsa_builtin_keygen_body env fuel bits e_value s)

/-! ## Predicates used in the statements -/

/-- The result satisfies `Q` when it falls through and `E` when it jumps to `err`. -/
def Res.sat {α : Type} (r : Res α) (Q : α → St → Prop) (E : Int → St → Prop) : Prop :=
  match r with
  | Res.next a s => Q a s
  | Res.jump ok s => E ok s
  | Res.spin => True

/-- The callback refuses to continue at its next invocation. -/
def cb_aborts (env : Env) (s : St) : Prop := ∀ a b, env.cb s.ncb a b = false

/-- Exactly one more callback invocation happened, it answered "abort", and
nothing was drawn, tested or called back after it. -/
def Cancelled (s s1 : St) : Prop :=
  s1.ncb = s.ncb + 1 ∧ ∃ a b, s1.trace.head? = some (Event.callback a b false)

/-- What the search for `p` guarantees when it falls through. -/
def PFound (env : Env) (C : Int → Prop) (e : Int) (s s1 : St) : Prop :=
  s1.rsa.e = s.rsa.e ∧ s1.rsa.q = s.rsa.q ∧
    (∃ p, s1.rsa.p = some p ∧ Int.gcd (p - 1) e = 1 ∧ C p) ∧
    s.ndraw < s1.ndraw ∧ (cb_aborts env s → s1.ncb = s.ncb)

/-- What the search for `p` guarantees when it leaves through `err`. -/
def PFailed (env : Env) (C : Int → Prop) (s : St) (ok : Int) (s1 : St) : Prop :=
  ok = -1 ∧ s1.rsa.e = s.rsa.e ∧ s1.rsa.q = s.rsa.q ∧
    ((s1.rsa.p = s.rsa.p ∧ s1.ndraw = s.ndraw) ∨ (∃ p, s1.rsa.p = some p ∧ C p) ∧ s.ndraw < s1.ndraw) ∧
    (cb_aborts env s → s1.ncb = s.ncb ∨ Cancelled s s1)

/-- What the search for `q` guarantees when it falls through. -/
def QFound (env : Env) (C : Int → Prop) (e p : Int) (s s1 : St) : Prop :=
  s1.rsa.e = s.rsa.e ∧ s1.rsa.p = s.rsa.p ∧
    (∃ q, s1.rsa.q = some q ∧ Int.gcd (q - 1) e = 1 ∧ C q ∧ q ≠ p) ∧
    s.ndraw < s1.ndraw ∧ (cb_aborts env s → s1.ncb = s.ncb)

/-- What the search for `q` guarantees when it leaves through `err`. -/
def QFailed (env : Env) (s : St) (ok : Int) (s1 : St) : Prop :=
  ok = -1 ∧ s1.rsa.e = s.rsa.e ∧ s1.rsa.p = s.rsa.p ∧ s.ndraw ≤ s1.ndraw ∧
    (cb_aborts env s → s1.ncb = s.ncb ∨ Cancelled s s1)

/-- The raw relations the derivation code establishes between the key
components, for the modulus `lam p q` used to invert `e`. -/
def Derived (lam : Int → Int → Int) (r : RSA) : Prop :=
  ∃ n e d p q dmp1 dmq1 iqmp,
    r.n = some n ∧ r.e = some e ∧ r.d = some d ∧ r.p = some p ∧ r.q = some q ∧
    r.dmp1 = some dmp1 ∧ r.dmq1 = some dmq1 ∧ r.iqmp = some iqmp ∧
    n = p * q ∧
    lam p q ≠ 0 ∧ Int.gcd e (lam p q) = 1 ∧ d = mod_inverse_val e (lam p q) ∧
    p - 1 ≠ 0 ∧ dmp1 = Int.tmod d (p - 1) ∧ q - 1 ≠ 0 ∧ dmq1 = Int.tmod d (q - 1) ∧
    p ≠ 0 ∧ Int.gcd q p = 1 ∧ iqmp = mod_inverse_val q p

/-- The pair `(p, q)` after the swap of the found pair `(p0, q0)`. -/
def Swapped (p0 q0 : Int) (r : RSA) : Prop :=
  r.p = some (if p0 < q0 then q0 else p0) ∧ r.q = some (if p0 < q0 then p0 else q0)

/-- Nothing observable happened between the two states: only library calls
and updates of the key object. -/
def Quiet (s s1 : St) : Prop :=
  s1.errs = s.errs ∧ s1.selftest_failed = s.selftest_failed ∧ s1.ndraw = s.ndraw ∧
    s1.ntest = s.ntest ∧ s1.ncb = s.ncb ∧ s1.trace = s.trace

/-- Every component is non-NULL and holds the value it held before, a fresh
Int being zero. -/
def Allocated (r r1 : RSA) : Prop :=
  r1.n = some (val r.n) ∧ r1.e = some (val r.e) ∧ r1.d = some (val r.d) ∧
    r1.p = some (val r.p) ∧ r1.q = some (val r.q) ∧ r1.dmp1 = some (val r.dmp1) ∧
    r1.dmq1 = some (val r.dmq1) ∧ r1.iqmp = some (val r.iqmp)

/-- Success facts of `rsa_builtin_keygen`. -/
def GenGood (C : Int → Prop) (e : Int) (r : RSA) : Prop :=
  Derived (fun p q => (p - 1) * (q - 1)) r ∧ r.e = some e ∧
    ∃ p q, r.p = some p ∧ r.q = some q ∧ q < p ∧ C p ∧ C q ∧
      Int.gcd (p - 1) e = 1 ∧ Int.gcd (q - 1) e = 1

/-- Facts on every `goto err` taken after the size check. -/
def GenBad (env : Env) (C : Int → Prop) (s : St) (ok : Int) (s1 : St) : Prop :=
  ok = -1 ∧ (s.ndraw < s1.ndraw → ∃ p, s1.rsa.p = some p ∧ C p) ∧
    (cb_aborts env s → s1.ncb = s.ncb ∨ Cancelled s s1)

/-- Either `p` is untouched and nothing was drawn, or candidates were drawn
and `p` holds a non-zero value. -/
def Drew (s s1 : St) : Prop :=
  (s1.rsa.p = s.rsa.p ∧ s1.ndraw = s.ndraw) ∨
    ((∃ p, s1.rsa.p = some p ∧ p ≠ 0) ∧ s.ndraw < s1.ndraw)

/-- Guarantees of the `p` loop of the compliance generator on falling through. -/
def FPNext (env : Env) (test : Bool) (pbits : Int) (e : Int) (r : Regs) (s : St)
    (a : Int × Int × Regs) (s1 : St) : Prop :=
  a.2.2.r0 = r.r0 ∧ a.2.2.r3 = r.r3 ∧ s1.rsa.e = s.rsa.e ∧ s1.rsa.q = s.rsa.q ∧ Drew s s1 ∧
    (test = false → s.ndraw < s1.ndraw) ∧
    (a.1 < 5 * pbits → ∃ p, s1.rsa.p = some p ∧ r.r0 ≤ p ∧ Int.gcd (p - 1) e = 1) ∧
    (cb_aborts env s → s1.ncb = s.ncb) ∧ (test = true → s1.rsa = s.rsa)

/-- Guarantees of the `p` loop of the compliance generator on `goto err`. -/
def FPJump (env : Env) (s : St) (ok : Int) (s1 : St) : Prop :=
  ok = -1 ∧ s1.rsa.e = s.rsa.e ∧ s1.rsa.q = s.rsa.q ∧ Drew s s1 ∧
    (cb_aborts env s → s1.ncb = s.ncb ∨ Cancelled s s1)

/-- Guarantees of the `q` loop of the compliance generator on falling through. -/
def FQNext (env : Env) (test : Bool) (pbits : Int) (e p : Int) (r : Regs) (s : St)
    (a : Int × Int × Regs) (s1 : St) : Prop :=
  a.2.2.r0 = r.r0 ∧ a.2.2.r3 = r.r3 ∧ s1.rsa.e = s.rsa.e ∧ s1.rsa.p = s.rsa.p ∧
    s.ndraw ≤ s1.ndraw ∧
    (a.1 < 5 * pbits → ∃ q, s1.rsa.q = some q ∧ r.r0 ≤ q ∧ r.r3.natAbs < (q - p).natAbs ∧
      Int.gcd (q - 1) e = 1) ∧
    (cb_aborts env s → s1.ncb = s.ncb) ∧ (test = true → s1.rsa = s.rsa)

/-- Guarantees of the `q` loop of the compliance generator on `goto err`. -/
def FQJump (env : Env) (s : St) (ok : Int) (s1 : St) : Prop :=
  ok = -1 ∧ s1.rsa.e = s.rsa.e ∧ s1.rsa.p = s.rsa.p ∧ s.ndraw ≤ s1.ndraw ∧
    (cb_aborts env s → s1.ncb = s.ncb ∨ Cancelled s s1)

/-- The modulus the compliance code inverts `e` by. -/
def lam_fips (p q : Int) : Int :=
  Int.tdiv (p - 1) (Int.gcd (p - 1) (q - 1) : Int) * (q - 1)

/-- The pairwise-test primitives all gave the answers `fips_check_rsa` accepts. -/
def PairwiseOK (o : PairwiseOracle) : Prop :=
  o.sig_pkcs1 = true ∧ o.sig_x931 = true ∧ o.sig_pss = true ∧ 0 < o.encrypt.1 ∧
    ¬ (o.encrypt.1 = (tbs.length : Int) ∧ o.encrypt.2.take tbs.length = tbs) ∧
    o.decrypt.1 = (tbs.length : Int) ∧ o.decrypt.2.take tbs.length = tbs

/-- Success of `fips_rsa_builtin_keygen` on a key given with non-zero `p`
and `q`: only `n` is cleared, the last event is the second milestone
callback. -/
def TestOnly (s s1 : St) : Prop :=
  s1.rsa = { s.rsa with n := some 0 } ∧ s1.trace.head? = some (Event.callback 3 1 true)

/-- Success facts of a full generation by `fips_rsa_builtin_keygen`. -/
def FipsGood (env : Env) (pbits : Int) (e : Int) (s1 : St) : Prop :=
  Derived lam_fips s1.rsa ∧ s1.rsa.e = some e ∧
    (∃ p q d, s1.rsa.p = some p ∧ s1.rsa.q = some q ∧ s1.rsa.d = some d ∧ q < p ∧ 2 ≤ q ∧
      Int.gcd (p - 1) e = 1 ∧ Int.gcd (q - 1) e = 1 ∧ pbits ≤ BN_num_bits d) ∧
    s1.trace.head? = some (Event.pairwise s1.rsa 1) ∧ PairwiseOK (env.pairwise s1.rsa)

/-- Facts on every `goto err` of the generation part of
`fips_rsa_builtin_keygen`. -/
def FipsBad (env : Env) (test : Bool) (s : St) (ok : Int) (s1 : St) : Prop :=
  (ok = -1 ∨ (ok = 1 ∧ test = true ∧ TestOnly s s1)) ∧ Drew s s1 ∧
    (cb_aborts env s → s1.ncb = s.ncb ∨ Cancelled s s1)

/-- The key after a successful run on a key that came with non-zero `p` and
`q`: `n` cleared, every other component as it was passed in (`e` possibly
replaced by the requested exponent). -/
def TestResult (e_value : Int) (r r1 : RSA) : Prop :=
  r1.n = some 0 ∧ r1.p = some (val r.p) ∧ r1.q = some (val r.q) ∧ r1.d = some (val r.d) ∧
    r1.dmp1 = some (val r.dmp1) ∧ r1.dmq1 = some (val r.dmq1) ∧
    r1.iqmp = some (val r.iqmp) ∧ (r1.e = some e_value ∨ r1.e = some (val r.e))

/-- A key is fresh when `p` or `q` is NULL or zero on entry. -/
def Fresh (r : RSA) : Prop := val r.p = 0 ∨ val r.q = 0

/-- Facts on every `goto err` and early `return 0` of
`fips_rsa_builtin_keygen`. -/
def FipsBodyBad (env : Env) (e_value : Int) (s : St) (ok : Int) (s1 : St) : Prop :=
  (ok = -1 ∨ (ok = 0 ∧ s1.ndraw = s.ndraw ∧ s1.ncb = s.ncb ∧ s1.ntest = s.ntest ∧
      s1.trace = s.trace) ∨
    (ok = 1 ∧ ¬ Fresh s.rsa ∧ TestResult e_value s.rsa s1.rsa ∧
      s1.trace.head? = some (Event.callback 3 1 true))) ∧
    (s.ndraw < s1.ndraw → ∃ p, s1.rsa.p = some p ∧ p ≠ 0) ∧
    (cb_aborts env s → s1.ncb = s.ncb ∨ Cancelled s s1)

/-- The arithmetic relations of a released key for the modulus `lam p q`. -/
def KeyRelations (lam : Int → Int → Int) (r : RSA) : Prop :=
  ∃ n e d p q dmp1 dmq1 iqmp,
    r.n = some n ∧ r.e = some e ∧ r.d = some d ∧ r.p = some p ∧ r.q = some q ∧
    r.dmp1 = some dmp1 ∧ r.dmq1 = some dmq1 ∧ r.iqmp = some iqmp ∧
    n = p * q ∧ p ≠ q ∧ q ≤ p ∧ 2 ≤ q ∧
    1 < lam p q ∧ (e * d) % lam p q = 1 ∧ 0 ≤ d ∧ d < lam p q ∧
    dmp1 = d % (p - 1) ∧ dmq1 = d % (q - 1) ∧ (iqmp * q) % p = 1 ∧
    Int.gcd e (p - 1) = 1 ∧ Int.gcd e (q - 1) = 1

/-- A pairwise oracle whose every answer is accepted by `fips_check_rsa`. -/
def accepting_oracle : PairwiseOracle :=
  ⟨true, true, true, (128, [0, 2, 7]), (23, tbs)⟩

/-- An environment in which nothing fails: the prime generator yields 241,
then 251; the random source yields the 512-bit primes `3 * 2^510 + 761`, then
`15 * 2^508 + 127`; every primality test answers "prime" and the callback
always continues.  The compliance floor is 1024 bits. -/
def calm_env : Env :=
  ⟨fun _ => false, fun k => if k = 0 then 3 * 2 ^ 510 + 761 else 15 * 2 ^ 508 + 127,
    fun k _ => if k = 0 then 241 else 251, fun _ _ _ => 1, fun _ _ _ => true,
    fun _ => accepting_oracle, 1024, false⟩

/-- The environment `calm_env` with a callback that always asks to abort. -/
def abort_env : Env := { calm_env with cb := fun _ _ _ => false }

/-- The environment `calm_env` in which the very first library call fails. -/
def failing_env : Env := { calm_env with fail := fun k => decide (k = 0) }

/-- A key object with every component NULL. -/
def null_rsa : RSA := ⟨none, none, none, none, none, none, none, none⟩

/-- A fresh call: NULL key, empty error queue, self-test flag clear. -/
def fresh_state : St := ⟨null_rsa, [], false, 0, 0, 0, 0, []⟩

/-- A call on a key that already carries two non-zero factors. -/
def given_pq_state : St :=
  { fresh_state with rsa := { null_rsa with p := some (15 * 2 ^ 508 + 127), q := some (3 * 2 ^ 510 + 761) } }

/-- Final state of `rsa_builtin_keygen calm_env` for 16 bits and `e = 7`. -/
def general_final : St := ((rsa_builtin_keygen calm_env 5 fresh_state 16 7).getD (0, fresh_state)).2

/-- Final state of `fips_rsa_builtin_keygen calm_env` for 1024 bits and
`e = 65537`. -/
def fips_final : St :=
  ((fips_rsa_builtin_keygen calm_env 5 fresh_state 1024 65537).getD (0, fresh_state)).2

/-- Final state of `rsa_builtin_keygen abort_env` for 16 bits and `e = 7`. -/
def general_abort_final : St :=
  ((rsa_builtin_keygen abort_env 5 fresh_state 16 7).getD (1, fresh_state)).2

/-- Final state of `fips_rsa_builtin_keygen abort_env` for 1024 bits and
`e = 65537`. -/
def fips_abort_final : St :=
  ((fips_rsa_builtin_keygen abort_env 5 fresh_state 1024 65537).getD (1, fresh_state)).2

/-- The generic error both generators queue at the label `err`. -/
def generic_error (f : Func) : Err := ⟨Lib.RSA, f, Reason.ERR_LIB_BN⟩

/-- The exponent check of the compliance generator fails:
`BN_cmp(e_value, RSA_F4) < 0 || BN_num_bits(e_value) > 256`. -/
def bad_exponent (e_value : Int) : Prop := e_value < 65537 ∨ BN_num_bits e_value > 256

/-- The three checks on the module state and on `bits` pass. -/
def size_checks_pass (env : Env) (s : St) (bits : Int) : Prop :=
  s.selftest_failed = false ∧
    ¬ (bits < env.min_modulus_bits ∨ (env.enforce_modulus_bits = true ∧ bits < 2048)) ∧
    Int.tdiv bits 2 % 256 = 0

/-- The error entry `RSA_R_BAD_E_VALUE` of the compliance generator. -/
def bad_e_error : Err := ⟨Lib.RSA, Func.FIPS_RSA_BUILTIN_KEYGEN, Reason.RSA_R_BAD_E_VALUE⟩

/-- The four exits of `fips_rsa_builtin_keygen` with `ok = 0`, each with the
condition under which it is taken and the entry it queues. -/
def ZeroExit (env : Env) (bits e_value : Int) (s s1 : St) : Prop :=
  (s.selftest_failed = true ∧ s1.errs =
      ⟨Lib.FIPS, Func.FIPS_RSA_BUILTIN_KEYGEN, Reason.FIPS_R_FIPS_SELFTEST_FAILED⟩ :: s.errs) ∨
    (s.selftest_failed = false ∧
      (bits < env.min_modulus_bits ∨ (env.enforce_modulus_bits = true ∧ bits < 2048)) ∧
      s1.errs = ⟨Lib.FIPS, Func.FIPS_RSA_BUILTIN_KEYGEN, Reason.FIPS_R_KEY_TOO_SHORT⟩ :: s.errs) ∨
    (s.selftest_failed = false ∧
      ¬ (bits < env.min_modulus_bits ∨ (env.enforce_modulus_bits = true ∧ bits < 2048)) ∧
      Int.tdiv bits 2 % 256 ≠ 0 ∧ s1.errs =
        ⟨Lib.FIPS, Func.FIPS_RSA_BUILTIN_KEYGEN, Reason.FIPS_R_INVALID_KEY_LENGTH⟩ :: s.errs) ∨
    (size_checks_pass env s bits ∧ bad_exponent e_value ∧ s1.errs = bad_e_error :: s.errs)

/-- Nothing was drawn, tested or called back. -/
def Untouched (s s1 : St) : Prop :=
  s1.ndraw = s.ndraw ∧ s1.ncb = s.ncb ∧ s1.ntest = s.ntest ∧ s1.trace = s.trace

/-- What the loops of the compliance generator add to `FPNext` and `FQNext`
on falling through: the candidate `x` left in the key satisfies `C`, the loop
counter `i` has not passed `5 * pbits`, and the callback was invoked once per
increment of `i`, with the running counter `n`. -/
def LoopMore (pbits : Int) (C : Int → Prop) (i n : Int) (s : St) (x : Int)
    (a : Int × Int × Regs) (s1 : St) : Prop :=
  C x ∧ i ≤ a.1 ∧ (i < 5 * pbits → a.1 ≤ 5 * pbits) ∧
    (s1.ncb : Int) = s.ncb + (a.1 - i) ∧ a.2.1 = n + (a.1 - i)

/-- Both factors are at least `B` and they differ by more than `|D|`. -/
def Bounded (B D : Int) (r : RSA) : Prop :=
  ∃ p q, r.p = some p ∧ r.q = some q ∧ B ≤ p ∧ B ≤ q ∧ D.natAbs < (q - p).natAbs

/-- Both factors are values drawn by `BN_rand(_, pbits, 0, 1)`. -/
def DrawnPair (pbits : Int) (r : RSA) : Prop :=
  ∃ a b, r.p = some (BN_rand_val a pbits 0 1) ∧ r.q = some (BN_rand_val b pbits 0 1)

/-- The "approximate minimum p and q" that `fips_rsa_builtin_keygen` prepares
in `r0`: `0xB504F334 << (pbits - 32)`. -/
def min_prime (pbits : Int) : Int := 0xB504F334 * 2 ^ (pbits - 32).toNat

/-- The "minimum p and q difference" that `fips_rsa_builtin_keygen` prepares
in `r3`: `1 << (pbits - 100)`. -/
def min_gap (pbits : Int) : Int := 1 * 2 ^ (pbits - 100).toNat

/-- The value and state a piece of code falls through with, if it does. -/
def Res.value {α : Type} : Res α → Option (α × St)
  | Res.next a s => some (a, s)
  | Res.jump _ _ => none
  | Res.spin => none

/-- Whether an event is a draw from the random source. -/
def is_draw : Event → Bool
  | Event.draw _ _ => true
  | _ => false

/-- The environment `calm_env` whose random source first yields 2561 times the
raw value 0 (the candidate `2^511 + 1`, below the minimum) and then the two
primes of `calm_env`. -/
def slow_env : Env :=
  { calm_env with rand := (fun k => if k < 2561 then 0 else if k = 2561 then 3 * 2 ^ 510 + 761
                                     else 15 * 2 ^ 508 + 127) }

/-- The environment `calm_env` whose primality test always answers
"composite". -/
def composite_env : Env := { calm_env with is_prime := fun _ _ _ => 0 }

/-- A key as the search loops of `fips_rsa_builtin_keygen` find it on a fresh
call for `e = 65537`: every component allocated, `e` copied. -/
def search_state : St :=
  { fresh_state with rsa := ⟨some 0, some 65537, some 0, some 0, some 0, some 0, some 0, some 0⟩ }

/-- The temporaries on entry to the search for 1024 bits. -/
def search_regs : Regs := ⟨min_prime 512, 0, 0, min_gap 512⟩

/-- A 512-bit prime `p` with `p - 1 = g * b`. -/
def small_d_p : Nat :=
  10043543235868120376945797431714833363414689027983637064832539322778709217022500156093341239608782919826899300683510579798177013089679929786649182037558041

/-- A 512-bit prime `q` with `q - 1 = g * a`, for the same `g`. -/
def small_d_q : Nat :=
  10887949292098400262644596878557141762386341985650369641822033573521624271479529688811665766537662297782871316665777560619220380924276733218796486457300939

/-- A 256-bit exponent whose inverse modulo `lcm(small_d_p - 1, small_d_q - 1)`
has 510 bits. -/
def small_d_e : Int := 2 ^ 255 + 1

/-- The environment `calm_env` whose random source yields `small_d_p` and
`small_d_q` in turn, and in which every library call from the 61st on
fails. -/
def retry_env : Env :=
  { calm_env with rand := (fun k => if k % 2 = 0 then small_d_p else small_d_q),
                  fail := (fun k => decide (60 ≤ k)) }

/-- The key after the search found `small_d_p` and `small_d_q` for
`small_d_e`. -/
def found_state : St :=
  { fresh_state with rsa := ⟨some 0, some small_d_e, some 0, some small_d_p, some small_d_q,
                              some 0, some 0, some 0⟩ }

/-- Temporaries and state after `fips_derive_d` on `found_state`. -/
def after_derive : Regs × St :=
  ((fips_derive_d calm_env search_regs found_state).value).getD (search_regs, found_state)

/-- The environment `calm_env` whose primality test answers "prime" once and
"composite" ever after. -/
def one_prime_env : Env := { calm_env with is_prime := fun k _ _ => if k = 0 then 1 else 0 }

/-- Temporaries of a search for 4-bit candidates: minimum 9, gap 1. -/
def toy_regs : Regs := ⟨9, 0, 0, 1⟩

/-- Result of the first search loop for 4-bit candidates in `composite_env`. -/
def exhausted_p : (Int × Int × Regs) × St :=
  ((fips_ploop composite_env false 4 30 0 0 toy_regs search_state).value).getD
    ((0, 0, toy_regs), search_state)

/-- Result of the first search loop for 4-bit candidates in `one_prime_env`. -/
def found_p : (Int × Int × Regs) × St :=
  ((fips_ploop one_prime_env false 4 30 0 0 toy_regs search_state).value).getD
    ((0, 0, toy_regs), search_state)

/-- The state `found_p.2` after the callback of the first milestone. -/
def found_p_called : St :=
  { found_p.2 with ncb := found_p.2.ncb + 1,
                   trace := Event.callback 3 0 true :: found_p.2.trace }

/-- Result of the second search loop for 4-bit candidates in `one_prime_env`. -/
def exhausted_q : (Int × Int × Regs) × St :=
  ((fips_qloop one_prime_env false 4 30 0 found_p.1.2.1 found_p.1.2.2 found_p_called).value).getD
    ((0, 0, toy_regs), search_state)

/-- The environment `calm_env` whose callback continues three times and then
asks to abort. -/
def late_abort_env : Env := { calm_env with cb := fun k _ _ => decide (k < 3) }

/-- Final state of `rsa_builtin_keygen late_abort_env` for 16 bits and
`e = 6`. -/
def even_e_final : St :=
  ((rsa_builtin_keygen late_abort_env 9 fresh_state 16 6).getD (1, fresh_state)).2

/-- A key that holds the factors 251 and 241 and the exponent 7. -/
def pair_state : St :=
  { fresh_state with rsa := ⟨some 0, some 7, some 0, some 251, some 241, some 0, some 0, some 0⟩ }

/-- The key `pair_state` after `derive_general`. -/
def pair_general : St :=
  (((derive_general calm_env pair_state).value).getD ((), pair_state)).2

/-- Temporaries and key after `fips_derive_d` on `pair_state`. -/
def pair_fips_d : Regs × St :=
  ((fips_derive_d calm_env toy_regs pair_state).value).getD (toy_regs, pair_state)

/-- The key `pair_state` after `fips_derive_d` and `fips_crt`. -/
def pair_fips : St :=
  (((fips_crt calm_env pair_fips_d.1 pair_fips_d.2).value).getD ((), pair_state)).2

/-! ## Runs that end, and the states of the candidate checks -/

/-- Total variant of `Res.sat`: the run ends within its fuel, and the result
satisfies `Q` when it falls through and `E` when it jumps to `err`. -/
def Res.ends {α : Type} (r : Res α) (Q : α → St → Prop) (E : Int → St → Prop) : Prop :=
  match r with
  | Res.next a s => Q a s
  | Res.jump ok s => E ok s
  | Res.spin => False

/-- A key as the search loops of `rsa_builtin_keygen` find it on a fresh call
for `e = 7`: every component allocated, `e` copied. -/
def gen_state : St :=
  { fresh_state with rsa := ⟨some 0, some 7, some 0, some 0, some 0, some 0, some 0, some 0⟩ }

/-- Result of the first loop of `rsa_builtin_keygen` on `gen_state`. -/
def gen_found_p : Int × St :=
  ((gen_p_loop calm_env 8 5 0 gen_state).value).getD (0, gen_state)

/-- Result of the second loop of `rsa_builtin_keygen` after `gen_found_p`. -/
def gen_found_q : Int × St :=
  ((gen_q_loop calm_env 8 5 5 gen_found_p.1 gen_found_p.2).value).getD (0, gen_state)

/-- Result of the candidate check on `3 * 2^510 + 761` in `calm_env`. -/
def checked_candidate : (Bool × Regs) × St :=
  ((fips_candidate calm_env false 512 (3 * 2 ^ 510 + 761) search_regs search_state).value).getD
    ((false, search_regs), search_state)

/-- The key `search_state` with the 4-bit candidate 9 in `p`. -/
def toy_p_state : St :=
  { fresh_state with rsa := ⟨some 0, some 65537, some 0, some 9, some 0, some 0, some 0, some 0⟩ }

/-- Result of the second search loop for 4-bit candidates on `toy_p_state`. -/
def toy_found_q : (Int × Int × Regs) × St :=
  ((fips_qloop calm_env false 4 30 0 0 toy_regs toy_p_state).value).getD
    ((0, 0, toy_regs), toy_p_state)

/-! ## Theorems -/

theorem inv_loop_spec (a : Int) (m : Nat) :
    ∀ (fuel r0 r1 : Nat) (t0 t1 : Int), r1 < fuel →
      t0 * a ≡ (r0 : Int) [ZMOD m] → t1 * a ≡ (r1 : Int) [ZMOD m] →
      inv_loop fuel r0 r1 t0 t1 * a ≡ (Nat.gcd r0 r1 : Int) [ZMOD m] := by
  intro fuel
  induction fuel with
  | zero => intro r0 r1 t0 t1 h; omega
  | succ k ih =>
    intro r0 r1 t0 t1 hlt h0 h1
    unfold inv_loop
    by_cases hr : r1 = 0
    · simp [hr, h0]
    · rw [if_neg hr]
      have hpos : 0 < r1 := Nat.pos_of_ne_zero hr
      have hlt2 : r0 % r1 < k := by
        have := Nat.mod_lt r0 hpos
        omega
      have key := ih r1 (r0 % r1) t1 (t0 - ((r0 / r1 : Nat) : Int) * t1) hlt2 h1 (by
        have e1 : ((r0 % r1 : Nat) : Int) = (r0 : Int) - ((r0 / r1 : Nat) : Int) * (r1 : Int) := by
          push_cast
          rw [Int.emod_def]
          ring
        rw [e1, sub_mul, mul_assoc]
        exact Int.ModEq.sub h0 (Int.ModEq.mul_left _ h1))
      have hg : Nat.gcd r1 (r0 % r1) = Nat.gcd r0 r1 := by
        rw [Nat.gcd_comm r1, ← Nat.gcd_rec, Nat.gcd_comm]
      rw [hg] at key
      exact key

theorem mod_inverse_val_spec (a n : Int) (hn : n ≠ 0) (hg : Int.gcd a n = 1) :
    0 ≤ mod_inverse_val a n ∧ mod_inverse_val a n < (n.natAbs : Int) ∧
      a * mod_inverse_val a n ≡ 1 [ZMOD (n.natAbs : Int)] := by
  have hm : (n.natAbs : Int) ≠ 0 := by
    simpa using hn
  have hmpos : (0 : Int) < (n.natAbs : Int) := by
    have := Int.natAbs_pos.mpr hn
    exact_mod_cast this
  have hr1 : (0 : Int) ≤ a % (n.natAbs : Int) := Int.emod_nonneg _ hm
  have hr1lt : a % (n.natAbs : Int) < (n.natAbs : Int) := Int.emod_lt_of_pos _ hmpos
  have hcast : (((a % (n.natAbs : Int)).toNat : Nat) : Int) = a % (n.natAbs : Int) :=
    Int.toNat_of_nonneg hr1
  have hcop : Nat.gcd n.natAbs (a % (n.natAbs : Int)).toNat = 1 := by
    have h1 : IsCoprime a (n.natAbs : Int) := by
      rw [Int.isCoprime_iff_gcd_eq_one]
      show Nat.gcd a.natAbs (n.natAbs : Int).natAbs = 1
      rw [Int.natAbs_ofNat]
      exact hg
    have h2 : IsCoprime (a % (n.natAbs : Int)) (n.natAbs : Int) := by
      have : a % (n.natAbs : Int) = a + (n.natAbs : Int) * (-(a / (n.natAbs : Int))) := by
        rw [Int.emod_def]; ring
      rw [this]
      exact h1.add_mul_left_left _
    rw [Int.isCoprime_iff_gcd_eq_one] at h2
    rw [Int.gcd_comm] at h2
    have h4 : Nat.gcd (n.natAbs : Int).natAbs (a % (n.natAbs : Int)).natAbs = 1 := h2
    rw [Int.natAbs_ofNat] at h4
    have h5 : (a % (n.natAbs : Int)).natAbs = (a % (n.natAbs : Int)).toNat := by
      omega
    rw [h5] at h4
    exact h4
  have key := inv_loop_spec a n.natAbs (n.natAbs + 1) n.natAbs (a % (n.natAbs : Int)).toNat 0 1
    (by
      have : (a % (n.natAbs : Int)).toNat < n.natAbs := by
        have := hr1lt
        omega
      omega)
    (by simp [Int.ModEq]) (by rw [hcast, one_mul]; exact (Int.mod_modEq a _).symm)
  rw [hcop] at key
  refine ⟨Int.emod_nonneg _ hm, Int.emod_lt_of_pos _ hmpos, ?_⟩
  unfold mod_inverse_val
  have h3 : inv_loop (n.natAbs + 1) n.natAbs (a % (n.natAbs : Int)).toNat 0 1 % (n.natAbs : Int)
      ≡ inv_loop (n.natAbs + 1) n.natAbs (a % (n.natAbs : Int)).toNat 0 1 [ZMOD (n.natAbs : Int)] :=
    Int.mod_modEq _ _
  calc a * (inv_loop (n.natAbs + 1) n.natAbs (a % (n.natAbs : Int)).toNat 0 1 % (n.natAbs : Int))
      ≡ a * inv_loop (n.natAbs + 1) n.natAbs (a % (n.natAbs : Int)).toNat 0 1 [ZMOD (n.natAbs : Int)] :=
        Int.ModEq.mul_left _ h3
    _ = inv_loop (n.natAbs + 1) n.natAbs (a % (n.natAbs : Int)).toNat 0 1 * a := by ring
    _ ≡ 1 [ZMOD (n.natAbs : Int)] := by simpa using key

@[simp]
theorem sat_next {α : Type} (a : α) (s : St) (Q : α → St → Prop) (E : Int → St → Prop) :
    (Res.next a s).sat Q E ↔ Q a s := Iff.rfl

@[simp]
theorem sat_jump {α : Type} (ok : Int) (s : St) (Q : α → St → Prop) (E : Int → St → Prop) :
    (Res.jump ok s : Res α).sat Q E ↔ E ok s := Iff.rfl

@[simp]
theorem sat_spin {α : Type} (Q : α → St → Prop) (E : Int → St → Prop) :
    (Res.spin : Res α).sat Q E ↔ True := Iff.rfl

theorem sat_andThen {α β : Type} {r : Res α} {f : α → St → Res β}
    {Q1 : α → St → Prop} {Q : β → St → Prop} {E1 E : Int → St → Prop}
    (h1 : r.sat Q1 E1) (h2 : ∀ a s1, Q1 a s1 → (f a s1).sat Q E) (h3 : ∀ ok s1, E1 ok s1 → E ok s1) :
    (r.andThen f).sat Q E := by
  cases r with
  | next a s1 => exact h2 a s1 h1
  | jump ok s1 => exact h3 ok s1 h1
  | spin => trivial

theorem sat_mono {α : Type} {r : Res α} {Q1 Q : α → St → Prop} {E1 E : Int → St → Prop}
    (h1 : r.sat Q1 E1) (h2 : ∀ a s1, Q1 a s1 → Q a s1) (h3 : ∀ ok s1, E1 ok s1 → E ok s1) :
    r.sat Q E := by
  cases r with
  | next a s1 => exact h2 a s1 h1
  | jump ok s1 => exact h3 ok s1 h1
  | spin => trivial

theorem sat_ite {α : Type} {c : Prop} [Decidable c] {x y : Res α} {Q : α → St → Prop}
    {E : Int → St → Prop} (h1 : c → x.sat Q E) (h2 : ¬ c → y.sat Q E) :
    (if c then x else y).sat Q E := by
  split
  · exact h1 ‹_›
  · exact h2 ‹_›

@[simp]
theorem andThen_next {α β : Type} (a : α) (s : St) (f : α → St → Res β) :
    (Res.next a s).andThen f = f a s := rfl

@[simp]
theorem andThen_jump {α β : Type} (ok : Int) (s : St) (f : α → St → Res β) :
    (Res.jump ok s : Res α).andThen f = Res.jump ok s := rfl

@[simp]
theorem andThen_spin {α β : Type} (f : α → St → Res β) :
    (Res.spin : Res α).andThen f = Res.spin := rfl

@[simp]
theorem andThen_ite {α β : Type} (c : Prop) [Decidable c] (x y : Res α) (f : α → St → Res β) :
    (if c then x else y).andThen f = if c then x.andThen f else y.andThen f := by
  split <;> rfl

@[simp]
theorem bind_apply {α β : Type} (m : M α) (f : α → M β) (s : St) :
    (m >>= f) s = (m s).andThen f := rfl

@[simp]
theorem pure_apply {α : Type} (a : α) (s : St) : (pure a : M α) s = Res.next a s := rfl

@[simp]
theorem M_ite_apply {α : Type} (c : Prop) [Decidable c] (x y : M α) (s : St) :
    (if c then x else y) s = if c then x s else y s := by
  split <;> rfl

@[simp]
theorem goto_err_apply {α : Type} (ok : Int) (s : St) :
    (goto_err ok : M α) s = Res.jump ok s := rfl

@[simp]
theorem out_of_fuel_apply {α : Type} (s : St) : (out_of_fuel : M α) s = Res.spin := rfl

@[simp]
theorem get_st_apply (s : St) : get_st s = Res.next s s := rfl

@[simp]
theorem set_rsa_apply (f : RSA → RSA) (s : St) :
    set_rsa f s = Res.next () { s with rsa := f s.rsa } := rfl

@[simp]
theorem put_error_apply (e : Err) (s : St) :
    put_error e s = Res.next () { s with errs := e :: s.errs } := rfl

@[simp]
theorem pop_to_mark_apply (mark : List Err) (s : St) :
    ERR_pop_to_mark mark s = Res.next () { s with errs := mark } := rfl

@[simp]
theorem lib_call_apply (env : Env) (s : St) :
    lib_call env s = Res.next (!env.fail s.nops) { s with nops := s.nops + 1 } := rfl

@[simp]
theorem lib_apply (env : Env) (s : St) :
    lib env s = if env.fail s.nops = true then Res.jump (-1) { s with nops := s.nops + 1 }
      else Res.next () { s with nops := s.nops + 1 } := by
  simp only [lib, bind_apply, lib_call_apply, andThen_next]
  cases env.fail s.nops <;> simp

theorem BN_mod_inverse_apply (env : Env) (a n : Int) (s : St) :
    BN_mod_inverse env a n s =
      if env.fail s.nops = true then
        Res.next InvResult.failed { s with nops := s.nops + 1, errs := ⟨Lib.BN, Func.BN_MOD_INVERSE, Reason.ERR_R_MALLOC_FAILURE⟩ :: s.errs }
      else if n = 0 then
        Res.next InvResult.failed { s with nops := s.nops + 1, errs := ⟨Lib.BN, Func.BN_MOD_INVERSE, Reason.BN_R_DIV_BY_ZERO⟩ :: s.errs }
      else if Int.gcd a n = 1 then
        Res.next (InvResult.inv (mod_inverse_val a n)) { s with nops := s.nops + 1 }
      else
        Res.next InvResult.no_inverse { s with nops := s.nops + 1, errs := ⟨Lib.BN, Func.BN_MOD_INVERSE, Reason.BN_R_NO_INVERSE⟩ :: s.errs } := by
  simp only [BN_mod_inverse, bind_apply, lib_call_apply, andThen_next]
  cases env.fail s.nops <;> simp

theorem BN_generate_prime_ex_apply (env : Env) (store : Int → RSA → RSA) (bits : Int) (s : St) :
    BN_generate_prime_ex env store bits s =
      if env.fail s.nops = true then Res.jump (-1) { s with nops := s.nops + 1 }
      else Res.next () { s with nops := s.nops + 1, rsa := store (env.gen_prime s.ndraw bits : Int) s.rsa, ndraw := s.ndraw + 1, trace := Event.draw bits (env.gen_prime s.ndraw bits : Int) :: s.trace } := by
  simp only [BN_generate_prime_ex, bind_apply, lib_apply]
  split_ifs <;> simp

@[simp]
theorem BN_GENCB_call_apply (env : Env) (a b : Int) (s : St) :
    BN_GENCB_call env a b s = Res.next (env.cb s.ncb a b)
      { s with ncb := s.ncb + 1, trace := Event.callback a b (env.cb s.ncb a b) :: s.trace } := rfl

theorem gen_p_loop_spec (env : Env) (bitsp : Int) (e : Int) (C : Int → Prop)
    (hC : ∀ k, C (env.gen_prime k bitsp : Int)) :
    ∀ (fuel : Nat) (n : Int) (s : St), s.rsa.e = some e →
      (gen_p_loop env bitsp fuel n s).sat (fun _ s1 => PFound env C e s s1)
        (fun ok s1 => PFailed env C s ok s1) := by
  intro fuel
  induction fuel with
  | zero => intro n s _; simp [gen_p_loop]
  | succ k ih =>
    intro n s he
    simp only [gen_p_loop, bind_apply, BN_generate_prime_ex_apply, lib_apply, get_st_apply,
      BN_mod_inverse_apply, andThen_ite, andThen_next, andThen_jump, BN_GENCB_call_apply,
      M_ite_apply, pop_to_mark_apply, goto_err_apply, pure_apply]
    have hrec : env.cb s.ncb 2 n = true → ∀ s2 : St, s2.rsa.e = s.rsa.e → s2.rsa.q = s.rsa.q →
        s2.rsa.p = some (env.gen_prime s.ndraw bitsp : Int) → s2.ndraw = s.ndraw + 1 →
        (gen_p_loop env bitsp k (n + 1) s2).sat (fun _ s1 => PFound env C e s s1)
          (fun ok s1 => PFailed env C s ok s1) := by
      intro hcb s2 hre hrq hrp hd
      have hna : ¬ cb_aborts env s := fun hab => by
        have h6 := hab 2 n
        rw [hcb] at h6
        exact Bool.noConfusion h6
      refine sat_mono (ih (n + 1) s2 (by rw [hre]; exact he)) ?_ ?_
      · rintro _ s1 ⟨h1, h2, h3, h4, _⟩
        exact ⟨by rw [h1, hre], by rw [h2, hrq], h3, by omega, fun hab => absurd hab hna⟩
      · rintro ok s1 ⟨h0, h1, h2, h3, _⟩
        refine ⟨h0, by rw [h1, hre], by rw [h2, hrq], Or.inr ?_, fun hab => absurd hab hna⟩
        rcases h3 with ⟨h3, h4⟩ | ⟨h3, h4⟩
        · exact ⟨⟨_, by rw [h3, hrp], hC _⟩, by omega⟩
        · exact ⟨h3, by omega⟩
    split_ifs
    all_goals first
      | exact hrec ‹_› _ rfl rfl rfl rfl
      | skip
    all_goals clear ih hrec
    all_goals simp [PFound, PFailed, Cancelled, cb_aborts, hC, val]
    all_goals first
      | (intro h; exact h _ _)
      | (rename_i h; simpa [val, he] using h)

theorem gen_q_distinct_spec (env : Env) (bitsq : Int) (p : Int) (C : Int → Prop)
    (hC : ∀ k, C (env.gen_prime k bitsq : Int)) :
    ∀ (fuel : Nat) (s : St), s.rsa.p = some p →
      (gen_q_distinct env bitsq fuel s).sat
        (fun _ s1 => s1.rsa.e = s.rsa.e ∧ s1.rsa.p = s.rsa.p ∧
          (∃ q, s1.rsa.q = some q ∧ C q ∧ q ≠ p) ∧ s.ndraw < s1.ndraw ∧ s1.ncb = s.ncb)
        (fun ok s1 => ok = -1 ∧ s1.rsa.e = s.rsa.e ∧ s1.rsa.p = s.rsa.p ∧ s.ndraw ≤ s1.ndraw ∧
          s1.ncb = s.ncb) := by
  intro fuel
  induction fuel with
  | zero => intro s _; simp [gen_q_distinct]
  | succ k ih =>
    intro s hp
    simp only [gen_q_distinct, bind_apply, BN_generate_prime_ex_apply, get_st_apply,
      andThen_ite, andThen_next, andThen_jump, M_ite_apply, pure_apply]
    have hrec : ∀ s2 : St, s2.rsa.e = s.rsa.e → s2.rsa.p = s.rsa.p → s2.ndraw = s.ndraw + 1 →
        s2.ncb = s.ncb →
        (gen_q_distinct env bitsq k s2).sat
        (fun _ s1 => s1.rsa.e = s.rsa.e ∧ s1.rsa.p = s.rsa.p ∧
          (∃ q, s1.rsa.q = some q ∧ C q ∧ q ≠ p) ∧ s.ndraw < s1.ndraw ∧ s1.ncb = s.ncb)
        (fun ok s1 => ok = -1 ∧ s1.rsa.e = s.rsa.e ∧ s1.rsa.p = s.rsa.p ∧ s.ndraw ≤ s1.ndraw ∧
          s1.ncb = s.ncb) := by
      intro s2 hre hrp hd hc
      refine sat_mono (ih s2 (by rw [hrp]; exact hp)) ?_ ?_
      · rintro _ s1 ⟨h1, h2, h3, h4, h5⟩
        exact ⟨by rw [h1, hre], by rw [h2, hrp], h3, by omega, by rw [h5, hc]⟩
      · rintro ok s1 ⟨h0, h1, h2, h4, h5⟩
        exact ⟨h0, by rw [h1, hre], by rw [h2, hrp], by omega, by rw [h5, hc]⟩
    split_ifs
    all_goals first
      | exact hrec _ rfl rfl rfl rfl
      | skip
    all_goals clear ih hrec
    all_goals simp [hC, val]
    rename_i h1 h2
    simp [val, hp] at h2
    exact fun h => h2 h.symm

theorem gen_q_loop_spec (env : Env) (bitsq : Int) (lfuel : Nat) (e p : Int)
    (C : Int → Prop) (hC : ∀ k, C (env.gen_prime k bitsq : Int)) :
    ∀ (fuel : Nat) (n : Int) (s : St), s.rsa.e = some e → s.rsa.p = some p →
      (gen_q_loop env bitsq lfuel fuel n s).sat (fun _ s1 => QFound env C e p s s1)
        (fun ok s1 => QFailed env s ok s1) := by
  intro fuel
  induction fuel with
  | zero => intro n s _ _; simp [gen_q_loop]
  | succ k ih =>
    intro n s he hp
    simp only [gen_q_loop, bind_apply]
    refine sat_andThen (gen_q_distinct_spec env bitsq p C hC lfuel s hp) ?_ ?_
    · rintro _ s1 ⟨h1, h2, ⟨q, hq, hCq, hne⟩, h4, h5⟩
      simp only [bind_apply, lib_apply, get_st_apply,
        BN_mod_inverse_apply, andThen_ite, andThen_next, andThen_jump, BN_GENCB_call_apply,
        M_ite_apply, pop_to_mark_apply, goto_err_apply, pure_apply]
      have hrec : env.cb s1.ncb 2 n = true → ∀ s2 : St, s2.rsa.e = s1.rsa.e →
          s2.rsa.p = s1.rsa.p → s2.ndraw = s1.ndraw →
          (gen_q_loop env bitsq lfuel k (n + 1) s2).sat (fun _ s3 => QFound env C e p s s3)
            (fun ok s3 => QFailed env s ok s3) := by
        intro hcb s2 hre hrp hd
        have hna : ¬ cb_aborts env s := fun hab => by
          have h6 := hab 2 n
          rw [← h5, hcb] at h6
          exact Bool.noConfusion h6
        refine sat_mono (ih (n + 1) s2 (by rw [hre, h1]; exact he) (by rw [hrp, h2]; exact hp))
          ?_ ?_
        · rintro _ s3 ⟨g1, g2, g3, g4, _⟩
          exact ⟨by rw [g1, hre, h1], by rw [g2, hrp, h2], g3, by omega,
            fun hab => absurd hab hna⟩
        · rintro ok s3 ⟨g0, g1, g2, g4, _⟩
          exact ⟨g0, by rw [g1, hre, h1], by rw [g2, hrp, h2], by omega,
            fun hab => absurd hab hna⟩
      split_ifs
      all_goals first
        | exact hrec ‹_› _ rfl rfl rfl
        | skip
      all_goals clear ih hrec
      all_goals simp [QFound, QFailed, Cancelled, cb_aborts, hC, val, h1, h2, h5, hq, hCq, hne]
      all_goals first
        | omega
        | (refine ⟨by omega, ?_⟩; intro h; exact h _ _)
        | (rename_i h; refine ⟨?_, by omega⟩; simpa [val, he, hq, h1] using h)
    · rintro ok s1 ⟨h0, h1, h2, h4, h5⟩
      exact ⟨h0, h1, h2, h4, fun _ => Or.inl h5⟩

theorem BN_mod_apply (env : Env) (m d : Int) (s : St) :
    BN_mod env m d s =
      if env.fail s.nops = true then Res.jump (-1) { s with nops := s.nops + 1 }
      else if d = 0 then Res.jump (-1) { s with nops := s.nops + 1 }
      else Res.next (Int.tmod m d) { s with nops := s.nops + 1 } := by
  simp only [BN_mod, bind_apply, lib_call_apply, andThen_next]
  cases env.fail s.nops <;> simp

theorem BN_div_quot_apply (env : Env) (m d : Int) (s : St) :
    BN_div_quot env m d s =
      if env.fail s.nops = true then Res.jump (-1) { s with nops := s.nops + 1 }
      else if d = 0 then Res.jump (-1) { s with nops := s.nops + 1 }
      else Res.next (Int.tdiv m d) { s with nops := s.nops + 1 } := by
  simp only [BN_div_quot, bind_apply, lib_call_apply, andThen_next]
  cases env.fail s.nops <;> simp

theorem BN_lshift_apply (env : Env) (a : Int) (n : Int) (s : St) :
    BN_lshift env a n s =
      if env.fail s.nops = true then Res.jump (-1) { s with nops := s.nops + 1 }
      else if n < 0 then Res.jump (-1) { s with nops := s.nops + 1 }
      else Res.next (a * 2 ^ n.toNat) { s with nops := s.nops + 1 } := by
  simp only [BN_lshift, bind_apply, lib_call_apply, andThen_next]
  cases env.fail s.nops <;> simp

theorem swap_pq_swapped (r : RSA) (p0 q0 : Int) (hp : r.p = some p0) (hq : r.q = some q0) :
    Swapped p0 q0 (swap_pq r) ∧ (swap_pq r).e = r.e := by
  unfold swap_pq Swapped
  simp only [val, hp, hq, Option.getD_some]
  split_ifs <;> simp [hp, hq]

theorem derive_general_spec (env : Env) (e p0 q0 : Int) (s : St)
    (he : s.rsa.e = some e) (hp : s.rsa.p = some p0) (hq : s.rsa.q = some q0) :
    (derive_general env s).sat
      (fun _ s1 => Derived (fun p q => (p - 1) * (q - 1)) s1.rsa ∧ Swapped p0 q0 s1.rsa ∧
        s1.rsa.e = some e)
      (fun ok s1 => ok = -1 ∧ Swapped p0 q0 s1.rsa ∧ s1.ndraw = s.ndraw ∧ s1.ncb = s.ncb) := by
  obtain ⟨⟨hP, hQ⟩, hE⟩ := swap_pq_swapped s.rsa p0 q0 hp hq
  rw [he] at hE
  unfold Swapped
  unfold derive_general
  simp only [bind_apply, set_rsa_apply, andThen_next]
  generalize swap_pq s.rsa = r at hP hQ hE ⊢
  generalize (if p0 < q0 then q0 else p0) = P at hP ⊢
  generalize (if p0 < q0 then p0 else q0) = Q at hQ ⊢
  simp only [bind_apply, lib_apply, get_st_apply, set_rsa_apply,
    BN_mod_inverse_apply, BN_mod_apply, andThen_ite, andThen_next, andThen_jump,
    M_ite_apply, goto_err_apply, pure_apply, hP, hQ, hE, val, Option.getD_some]
  repeat' refine sat_ite (fun _ => ?_) (fun _ => ?_)
  all_goals simp only [sat_jump, sat_next]
  all_goals simp [Derived, hP, hQ, hE]
  refine ⟨⟨?_, ?_⟩, ?_, ?_, ?_, ?_, ?_⟩ <;> assumption

theorem Quiet.refl_quiet (s : St) : Quiet s s := ⟨rfl, rfl, rfl, rfl, rfl, rfl⟩

theorem Quiet.trans_quiet {s s1 s2 : St} (h1 : Quiet s s1) (h2 : Quiet s1 s2) : Quiet s s2 := by
  unfold Quiet at h1 h2 ⊢
  exact ⟨h2.1.trans h1.1, h2.2.1.trans h1.2.1, h2.2.2.1.trans h1.2.2.1,
    h2.2.2.2.1.trans h1.2.2.2.1, h2.2.2.2.2.1.trans h1.2.2.2.2.1,
    h2.2.2.2.2.2.trans h1.2.2.2.2.2⟩

theorem ensure_spec (env : Env) (get : RSA → Option Int) (set upd : RSA → RSA)
    (hupd : ∀ r, (if (get r).isNone = true then set r else r) = upd r) (s : St) :
    (ensure env get set s).sat (fun _ s1 => Quiet s s1 ∧ s1.rsa = upd s.rsa)
      (fun ok s1 => ok = -1 ∧ Quiet s s1) := by
  have h := hupd s.rsa
  simp only [ensure, bind_apply, get_st_apply, andThen_next, M_ite_apply, lib_apply,
    andThen_ite, andThen_jump, set_rsa_apply, pure_apply]
  by_cases hn : (get s.rsa).isNone = true
  · rw [if_pos hn] at h
    rw [if_pos hn]
    refine sat_ite (fun _ => ?_) (fun _ => ?_)
    · exact ⟨rfl, rfl, rfl, rfl, rfl, rfl, rfl⟩
    · exact ⟨⟨rfl, rfl, rfl, rfl, rfl, rfl⟩, h⟩
  · rw [if_neg hn] at h
    rw [if_neg hn]
    exact ⟨⟨rfl, rfl, rfl, rfl, rfl, rfl⟩, h⟩

theorem alloc_components_spec (env : Env) (s : St) :
    (alloc_components env s).sat (fun _ s1 => Quiet s s1 ∧ Allocated s.rsa s1.rsa)
      (fun ok s1 => ok = -1 ∧ Quiet s s1) := by
  unfold alloc_components
  simp only [bind_apply]
  refine sat_andThen (ensure_spec env _ _ (fun r => { r with n := some (val r.n) })
    (by intro r; cases r with | mk n e d p q a b c => cases n <;> simp [val]) s) ?_
    (fun _ _ h => h)
  rintro _ s1 ⟨q1, e1⟩
  refine sat_andThen (ensure_spec env _ _ (fun r => { r with d := some (val r.d) })
    (by intro r; cases r with | mk n e d p q a b c => cases d <;> simp [val]) s1) ?_
    (fun _ _ h => ⟨h.1, q1.trans_quiet h.2⟩)
  rintro _ s2 ⟨q2, e2⟩
  refine sat_andThen (ensure_spec env _ _ (fun r => { r with e := some (val r.e) })
    (by intro r; cases r with | mk n e d p q a b c => cases e <;> simp [val]) s2) ?_
    (fun _ _ h => ⟨h.1, (q1.trans_quiet q2).trans_quiet h.2⟩)
  rintro _ s3 ⟨q3, e3⟩
  refine sat_andThen (ensure_spec env _ _ (fun r => { r with p := some (val r.p) })
    (by intro r; cases r with | mk n e d p q a b c => cases p <;> simp [val]) s3) ?_
    (fun _ _ h => ⟨h.1, ((q1.trans_quiet q2).trans_quiet q3).trans_quiet h.2⟩)
  rintro _ s4 ⟨q4, e4⟩
  refine sat_andThen (ensure_spec env _ _ (fun r => { r with q := some (val r.q) })
    (by intro r; cases r with | mk n e d p q a b c => cases q <;> simp [val]) s4) ?_
    (fun _ _ h => ⟨h.1, (((q1.trans_quiet q2).trans_quiet q3).trans_quiet q4).trans_quiet h.2⟩)
  rintro _ s5 ⟨q5, e5⟩
  refine sat_andThen (ensure_spec env _ _ (fun r => { r with dmp1 := some (val r.dmp1) })
    (by intro r; cases r with | mk n e d p q a b c => cases a <;> simp [val]) s5) ?_
    (fun _ _ h => ⟨h.1, ((((q1.trans_quiet q2).trans_quiet q3).trans_quiet q4).trans_quiet q5).trans_quiet h.2⟩)
  rintro _ s6 ⟨q6, e6⟩
  refine sat_andThen (ensure_spec env _ _ (fun r => { r with dmq1 := some (val r.dmq1) })
    (by intro r; cases r with | mk n e d p q a b c => cases b <;> simp [val]) s6) ?_
    (fun _ _ h => ⟨h.1, (((((q1.trans_quiet q2).trans_quiet q3).trans_quiet q4).trans_quiet q5).trans_quiet q6).trans_quiet h.2⟩)
  rintro _ s7 ⟨q7, e7⟩
  refine sat_mono (ensure_spec env _ _ (fun r => { r with iqmp := some (val r.iqmp) })
    (by intro r; cases r with | mk n e d p q a b c => cases c <;> simp [val]) s7) ?_
    (fun _ _ h => ⟨h.1, ((((((q1.trans_quiet q2).trans_quiet q3).trans_quiet q4).trans_quiet q5).trans_quiet q6).trans_quiet
      q7).trans_quiet h.2⟩)
  rintro _ s8 ⟨q8, e8⟩
  refine ⟨((((((q1.trans_quiet q2).trans_quiet q3).trans_quiet q4).trans_quiet q5).trans_quiet q6).trans_quiet q7).trans_quiet q8, ?_⟩
  unfold Allocated
  simp only [e8, e7, e6, e5, e4, e3, e2, e1, val, Option.getD_some, and_self]

theorem ctx_setup_spec (env : Env) (s : St) :
    (ctx_setup env s).sat (fun _ s1 => Quiet s s1 ∧ s1.rsa = s.rsa)
      (fun ok s1 => ok = -1 ∧ Quiet s s1 ∧ s1.rsa = s.rsa) := by
  simp only [ctx_setup, bind_apply, lib_apply, lib_call_apply, andThen_ite, andThen_next,
    andThen_jump, M_ite_apply, pure_apply, goto_err_apply]
  repeat' refine sat_ite (fun _ => ?_) (fun _ => ?_)
  all_goals simp [Quiet]

theorem split_bits (bits : Int) (h : ¬ bits < 16) :
    8 ≤ Int.tdiv (bits + 1) 2 ∧ 8 ≤ bits - Int.tdiv (bits + 1) 2 := by
  have h1 : Int.tdiv (bits + 1) 2 = (bits + 1) / 2 :=
    Int.tdiv_eq_ediv (by omega) (by omega)
  rw [h1]
  omega

theorem rsa_builtin_keygen_body_spec (env : Env) (fuel : Nat) (bits : Int) (e_value : Int)
    (C : Int → Prop) (hC : ∀ k (b : Int), 8 ≤ b → C (env.gen_prime k b : Int))
    (hbits : ¬ bits < 16) (s : St) :
    (rsa_builtin_keygen_body env fuel bits e_value s).sat
      (fun _ s1 => GenGood C e_value s1.rsa ∧ ¬ cb_aborts env s)
      (fun ok s1 => GenBad env C s ok s1) := by
  obtain ⟨hb1, hb2⟩ := split_bits bits hbits
  simp only [rsa_builtin_keygen_body, if_neg hbits, bind_apply]
  refine sat_andThen (ctx_setup_spec env s) ?_ ?_
  swap
  · rintro ok s1 ⟨h0, hq, _⟩
    exact ⟨h0, fun h => by rw [hq.2.2.1] at h; omega, fun _ => Or.inl hq.2.2.2.2.1⟩
  rintro _ s1 ⟨q1, _⟩
  refine sat_andThen (alloc_components_spec env s1) ?_ ?_
  swap
  · rintro ok s2 ⟨h0, hq⟩
    have hq := q1.trans_quiet hq
    exact ⟨h0, fun h => by rw [hq.2.2.1] at h; omega, fun _ => Or.inl hq.2.2.2.2.1⟩
  rintro _ s2 ⟨q2, _⟩
  have q2 := q1.trans_quiet q2
  simp only [bind_apply, lib_apply, andThen_ite, andThen_jump, andThen_next, set_rsa_apply]
  refine sat_ite (fun _ => ?_) (fun _ => ?_)
  · exact ⟨rfl, fun h => by simp [q2.2.2.1] at h, fun _ => Or.inl q2.2.2.2.2.1⟩
  have hab : ∀ s3 : St, s3.ncb = s.ncb → (cb_aborts env s ↔ cb_aborts env s3) := by
    intro s3 h3
    unfold cb_aborts
    rw [h3]
  refine sat_andThen (gen_p_loop_spec env _ e_value C (fun k => hC k _ hb1) fuel 0 _ rfl) ?_ ?_
  swap
  · rintro ok s3 ⟨h0, -, -, h3, h4⟩
    refine ⟨h0, fun _ => ?_, fun ha => ?_⟩
    · rcases h3 with ⟨h3, h5⟩ | ⟨h3, h5⟩
      · simp [q2.2.2.1] at h5
        omega
      · exact h3
    · have := h4 ((hab _ (by simp [q2.2.2.2.2.1])).mp ha)
      simpa [Cancelled, q2.2.2.2.2.1] using this
  rintro n s3 ⟨h1, h2, ⟨p, hp, hgp, hCp⟩, h4, h5⟩
  obtain ⟨-, -, qd, -, qc, -⟩ := q2
  have he3 : s3.rsa.e = some e_value := h1
  have hd3 : s.ndraw < s3.ndraw := by
    have h6 : s2.ndraw < s3.ndraw := h4
    omega
  have hc3 : cb_aborts env s → s3.ncb = s.ncb := fun ha => by
    have h6 : s3.ncb = s2.ncb := h5 ((hab _ qc).mp ha)
    omega
  clear h1 h2 h4 h5
  simp only [bind_apply, BN_GENCB_call_apply, andThen_next, M_ite_apply, goto_err_apply]
  refine sat_ite (fun hcb => ?_) (fun hcb => ?_)
  · refine ⟨rfl, fun _ => ⟨p, hp, hCp⟩, fun ha => Or.inr ?_⟩
    have h6 := hc3 ha
    have h7 := ha 3 0
    rw [← h6] at h7
    exact ⟨by simp [h6], 3, 0, by simp [h7]⟩
  have hna : ¬ cb_aborts env s := fun ha => by
    have h6 := hc3 ha
    have h7 := ha 3 0
    rw [← h6] at h7
    simp [h7] at hcb
  refine sat_andThen (gen_q_loop_spec env _ fuel e_value p C (fun k => hC k _ hb2) fuel n _
    he3 hp) ?_ ?_
  swap
  · rintro ok s4 ⟨h0, -, h2, -, -⟩
    exact ⟨h0, fun _ => ⟨p, by rw [h2]; exact hp, hCp⟩, fun ha => absurd ha hna⟩
  rintro _ s4 ⟨h1, h2, ⟨q, hq, hgq, hCq, hne⟩, h4, -⟩
  have he4 : s4.rsa.e = some e_value := by rw [h1]; exact he3
  have hp4 : s4.rsa.p = some p := by rw [h2]; exact hp
  have hd4 : s.ndraw < s4.ndraw := by
    have h6 : s3.ndraw < s4.ndraw := h4
    omega
  clear h1 h2 h4
  simp only [bind_apply, BN_GENCB_call_apply, andThen_next, M_ite_apply, goto_err_apply]
  refine sat_ite (fun _ => ?_) (fun _ => ?_)
  · exact ⟨rfl, fun _ => ⟨p, hp4, hCp⟩, fun ha => absurd ha hna⟩
  refine sat_mono (derive_general_spec env e_value p q _ he4 hp4 hq) ?_ ?_
  · rintro _ s5 ⟨h1, ⟨h2, h3⟩, h4⟩
    refine ⟨⟨h1, h4, _, _, h2, h3, ?_⟩, hna⟩
    · have hlt : p < q ∨ q < p := lt_or_gt_of_ne (Ne.symm hne)
      by_cases hpq : p < q
      · simp only [if_pos hpq]
        exact ⟨hpq, hCq, hCp, hgq, hgp⟩
      · simp only [if_neg hpq]
        exact ⟨hlt.resolve_left hpq, hCp, hCq, hgp, hgq⟩
  · rintro ok s5 ⟨h0, ⟨h2, -⟩, -, -⟩
    refine ⟨h0, fun _ => ⟨_, h2, ?_⟩, fun ha => absurd ha hna⟩
    split
    · exact hCq
    · exact hCp

theorem BN_rand_apply (env : Env) (store : Int → RSA → RSA) (bits top bottom : Int) (s : St) :
    BN_rand env store bits top bottom s =
      if env.fail s.nops = true then Res.jump (-1) { s with nops := s.nops + 1 }
      else if bits < 0 ∨ (bits = 0 ∧ (top ≠ -1 ∨ bottom ≠ 0)) ∨ (bits = 1 ∧ 0 < top) then
        Res.jump (-1) { s with nops := s.nops + 1 }
      else Res.next () { s with nops := s.nops + 1, rsa := store (BN_rand_val (env.rand s.ndraw) bits top bottom) s.rsa, ndraw := s.ndraw + 1, trace := Event.draw bits (BN_rand_val (env.rand s.ndraw) bits top bottom) :: s.trace } := by
  simp only [BN_rand, bind_apply, lib_apply, andThen_ite, andThen_jump, andThen_next, M_ite_apply,
    goto_err_apply]

@[simp]
theorem BN_is_prime_apply (env : Env) (x : Int) (checks : Int) (s : St) :
    BN_is_prime_fasttest_ex env x checks s = Res.next (env.is_prime s.ntest x checks)
      { s with ntest := s.ntest + 1, trace := Event.test x checks (env.is_prime s.ntest x checks) :: s.trace } := rfl

theorem BN_rand_val_odd_ne_zero (raw : Nat) (bits top : Int) : BN_rand_val raw bits top 1 ≠ 0 := by
  unfold BN_rand_val
  simp only [ne_eq, one_ne_zero, not_false_eq_true, if_true]
  intro h
  have h2 := Int.natCast_eq_zero.mp h
  have h3 := congrArg (fun n => n.testBit 0) h2
  simp [Nat.testBit_or] at h3

theorem fips_candidate_spec (env : Env) (test : Bool) (pbits : Int) (x e : Int) (r : Regs)
    (s : St) (he : s.rsa.e = some e) :
    (fips_candidate env test pbits x r s).sat
      (fun a s1 => a.2.r0 = r.r0 ∧ a.2.r3 = r.r3 ∧ s1.rsa = s.rsa ∧ s1.ndraw = s.ndraw ∧
        s1.ncb = s.ncb ∧ (a.1 = true → Int.gcd (x - 1) e = 1))
      (fun ok s1 => ok = -1 ∧ s1.rsa = s.rsa ∧ s1.ndraw = s.ndraw ∧ s1.ncb = s.ncb) := by
  simp only [fips_candidate, bind_apply, lib_apply, get_st_apply,
    BN_mod_inverse_apply, andThen_ite, andThen_next, andThen_jump, BN_is_prime_apply,
    M_ite_apply, pop_to_mark_apply, goto_err_apply, pure_apply, val, he, Option.getD_some]
  repeat' refine sat_ite (fun _ => ?_) (fun _ => ?_)
  all_goals simp only [sat_jump, sat_next]
  all_goals simp
  intro _
  assumption

theorem Drew.trans_drew {s s1 s2 : St} (h1 : Drew s s1) (h2 : Drew s1 s2) : Drew s s2 := by
  rcases h1 with ⟨a1, a2⟩ | ⟨a1, a2⟩ <;> rcases h2 with ⟨b1, b2⟩ | ⟨b1, b2⟩
  · exact Or.inl ⟨b1.trans a1, b2.trans a2⟩
  · exact Or.inr ⟨b1, by omega⟩
  · exact Or.inr ⟨by rw [b1]; exact a1, by omega⟩
  · exact Or.inr ⟨b1, by omega⟩

theorem cb_aborts_congr (env : Env) {s s2 : St} (h : s2.ncb = s.ncb) :
    cb_aborts env s2 ↔ cb_aborts env s := by
  unfold cb_aborts
  rw [h]

theorem Cancelled_congr {s s2 s1 : St} (h : s2.ncb = s.ncb) (hc : Cancelled s2 s1) :
    Cancelled s s1 := by
  unfold Cancelled at *
  rw [← h]
  exact hc

theorem FPNext_of (env : Env) (test : Bool) (pbits : Int) (e : Int) {r r2 : Regs}
    {s s2 : St} (h1 : s2.rsa.e = s.rsa.e) (h2 : s2.rsa.q = s.rsa.q) (h3 : Drew s s2)
    (h5 : s2.ncb = s.ncb ∨ ¬ cb_aborts env s) (h6 : test = true → s2.rsa = s.rsa)
    (hr0 : r2.r0 = r.r0) (hr3 : r2.r3 = r.r3)
    (a : Int × Int × Regs) (s1 : St) (h : FPNext env test pbits e r2 s2 a s1) :
    FPNext env test pbits e r s a s1 := by
  obtain ⟨g1, g2, g3, g4, g5, g6, g7, g8, g9⟩ := h
  refine ⟨g1.trans hr0, g2.trans hr3, g3.trans h1, g4.trans h2, h3.trans_drew g5, fun ht => ?_, ?_,
    fun ha => ?_, fun ht => (g9 ht).trans (h6 ht)⟩
  · have := g6 ht
    rcases h3 with ⟨_, b⟩ | ⟨_, b⟩ <;> omega
  · rw [← hr0]
    exact g7
  · rcases h5 with h5 | h5
    · rw [g8 ((cb_aborts_congr env h5).mpr ha), h5]
    · exact absurd ha h5

theorem FPJump_of (env : Env) {s s2 : St} (h1 : s2.rsa.e = s.rsa.e) (h2 : s2.rsa.q = s.rsa.q)
    (h3 : Drew s s2) (h5 : s2.ncb = s.ncb ∨ ¬ cb_aborts env s)
    (ok : Int) (s1 : St) (h : FPJump env s2 ok s1) : FPJump env s ok s1 := by
  obtain ⟨g0, g3, g4, g5, g8⟩ := h
  refine ⟨g0, g3.trans h1, g4.trans h2, h3.trans_drew g5, fun ha => ?_⟩
  rcases h5 with h5 | h5
  · rcases g8 ((cb_aborts_congr env h5).mpr ha) with g | g
    · exact Or.inl (g.trans h5)
    · exact Or.inr (Cancelled_congr h5 g)
  · exact absurd ha h5

theorem fips_ploop_tail (env : Env) (test : Bool) (pbits : Int) (e : Int) (k : Nat)
    (ih : ∀ (i n : Int) (r : Regs) (s : St), s.rsa.e = some e → (∃ p, s.rsa.p = some p) →
      (fips_ploop env test pbits k i n r s).sat (FPNext env test pbits e r s) (FPJump env s))
    (i n : Int) (r : Regs) (s s2 : St) (he : s.rsa.e = some e)
    (h1 : s2.rsa.e = s.rsa.e) (h2 : s2.rsa.q = s.rsa.q) (h3 : Drew s s2)
    (h4 : test = false → s.ndraw < s2.ndraw) (h5 : s2.ncb = s.ncb)
    (h6 : test = true → s2.rsa = s.rsa) (hsome : ∃ p, s2.rsa.p = some p) :
    (if val s2.rsa.p < r.r0 then
        (if test = true then Res.jump (-1) s2 else fips_ploop env test pbits k i n r s2)
      else (fips_candidate env test pbits (val s2.rsa.p) r s2).andThen fun d =>
        if d.1 = true then (pure (i, n, d.2) : M (Int × Int × Regs))
        else (BN_GENCB_call env 2 n >>= fun c =>
          if (!c) = true then goto_err (-1)
          else if i + 1 < 5 * pbits then fips_ploop env test pbits k (i + 1) (n + 1) d.2
          else pure (i + 1, n + 1, d.2))).sat
      (FPNext env test pbits e r s) (FPJump env s) := by
  have he2 : s2.rsa.e = some e := h1.trans he
  refine sat_ite (fun hlt => ?_) (fun hge => ?_)
  · refine sat_ite (fun _ => ?_) (fun _ => ?_)
    · exact ⟨rfl, h1, h2, h3, fun _ => Or.inl h5⟩
    · exact sat_mono (ih i n r s2 he2 hsome)
        (FPNext_of env test pbits e h1 h2 h3 (Or.inl h5) h6 rfl rfl)
        (FPJump_of env h1 h2 h3 (Or.inl h5))
  · refine sat_andThen (fips_candidate_spec env test pbits _ e r s2 he2) ?_ ?_
    swap
    · rintro ok s3 ⟨g0, g1, g2, g3⟩
      refine ⟨g0, by rw [g1]; exact h1, by rw [g1]; exact h2, ?_, fun _ => Or.inl (g3.trans h5)⟩
      exact h3.trans_drew (Or.inl ⟨by rw [g1], g2⟩)
    rintro ⟨brk, r3⟩ s3 ⟨g1, g2, g3, g4, g5, g6⟩
    have hd : Drew s s3 := h3.trans_drew (Or.inl ⟨by rw [g3], g4⟩)
    have he3 : s3.rsa.e = s.rsa.e := by rw [g3]; exact h1
    have hq3 : s3.rsa.q = s.rsa.q := by rw [g3]; exact h2
    simp only [bind_apply, BN_GENCB_call_apply, andThen_next, M_ite_apply, ite_apply, pure_apply,
      goto_err_apply]
    refine sat_ite (fun hb => ?_) (fun _ => ?_)
    · refine ⟨g1, g2, he3, hq3, hd, fun ht => by have := h4 ht; omega, fun _ => ?_,
        fun _ => by omega, fun ht => g3.trans (h6 ht)⟩
      obtain ⟨p, hp⟩ := hsome
      have hv : val s2.rsa.p = p := by simp [val, hp]
      rw [hv] at hge g6
      exact ⟨p, by rw [g3]; exact hp, not_lt.mp hge, g6 hb⟩
    · have hc3 : s3.ncb = s.ncb := g5.trans h5
      refine sat_ite (fun hcb => ?_) (fun hcb => ?_)
      · refine ⟨rfl, he3, hq3, Or.inl ⟨rfl, rfl⟩ |> hd.trans_drew, fun ha => Or.inr ?_⟩
        have h7 := ha 2 n
        rw [← hc3] at h7
        exact ⟨by simp [hc3], 2, n, by simp [h7]⟩
      · have hna : ¬ cb_aborts env s := fun ha => by
          have h7 := ha 2 n
          rw [← hc3] at h7
          simp [h7] at hcb
        refine sat_ite (fun _ => ?_) (fun hex => ?_)
        · exact sat_mono (ih (i + 1) (n + 1) r3 _ (he3.trans he)
            (by obtain ⟨p, hp⟩ := hsome; exact ⟨p, by rw [g3]; exact hp⟩))
            (FPNext_of env test pbits e he3 hq3 (hd.trans_drew (Or.inl ⟨rfl, rfl⟩)) (Or.inr hna)
              (fun ht => g3.trans (h6 ht)) g1 g2)
            (FPJump_of env he3 hq3 (hd.trans_drew (Or.inl ⟨rfl, rfl⟩)) (Or.inr hna))
        · exact ⟨g1, g2, he3, hq3, hd.trans_drew (Or.inl ⟨rfl, rfl⟩),
            fun ht => by show s.ndraw < s3.ndraw; rw [g4]; exact h4 ht,
            fun h => absurd h hex, fun ha => absurd ha hna, fun ht => g3.trans (h6 ht)⟩

theorem fips_ploop_spec (env : Env) (test : Bool) (pbits : Int) (e : Int) :
    ∀ (fuel : Nat) (i n : Int) (r : Regs) (s : St), s.rsa.e = some e →
      (∃ p, s.rsa.p = some p) →
      (fips_ploop env test pbits fuel i n r s).sat (FPNext env test pbits e r s) (FPJump env s) := by
  intro fuel
  induction fuel with
  | zero => intro i n r s _ _; simp [fips_ploop]
  | succ k ih =>
    intro i n r s he hsome
    simp only [fips_ploop, bind_apply, BN_rand_apply, get_st_apply, andThen_ite, andThen_next,
      andThen_jump, M_ite_apply, pure_apply, goto_err_apply]
    refine sat_ite (fun hnt => ?_) (fun _ => ?_)
    · refine sat_ite (fun _ => ?_) (fun _ => ?_)
      · exact ⟨rfl, rfl, rfl, Or.inl ⟨rfl, rfl⟩, fun _ => Or.inl rfl⟩
      refine sat_ite (fun _ => ?_) (fun _ => ?_)
      · exact ⟨rfl, rfl, rfl, Or.inl ⟨rfl, rfl⟩, fun _ => Or.inl rfl⟩
      refine fips_ploop_tail env test pbits e k ih i n r s
        { s with nops := s.nops + 1, rsa := { s.rsa with p := some (BN_rand_val (env.rand s.ndraw) pbits 0 1) }, ndraw := s.ndraw + 1, trace := Event.draw pbits (BN_rand_val (env.rand s.ndraw) pbits 0 1) :: s.trace }
        he ?_ ?_ ?_ ?_ ?_ ?_ ?_
      · rfl
      · rfl
      · exact Or.inr ⟨⟨_, rfl, BN_rand_val_odd_ne_zero _ _ _⟩, Nat.lt_succ_self _⟩
      · exact fun _ => Nat.lt_succ_self _
      · rfl
      · intro ht
        rw [ht] at hnt
        exact absurd hnt (by decide)
      · exact ⟨_, rfl⟩
    · exact fips_ploop_tail env test pbits e k ih i n r s s he rfl rfl (Or.inl ⟨rfl, rfl⟩)
        (fun ht => by simp_all) rfl (fun _ => rfl) hsome

theorem FQNext_of (env : Env) (test : Bool) (pbits : Int) (e p : Int) {r r2 : Regs}
    {s s2 : St} (h1 : s2.rsa.e = s.rsa.e) (h2 : s2.rsa.p = s.rsa.p) (h3 : s.ndraw ≤ s2.ndraw)
    (h5 : s2.ncb = s.ncb ∨ ¬ cb_aborts env s) (h6 : test = true → s2.rsa = s.rsa)
    (hr0 : r2.r0 = r.r0) (hr3 : r2.r3 = r.r3)
    (a : Int × Int × Regs) (s1 : St) (h : FQNext env test pbits e p r2 s2 a s1) :
    FQNext env test pbits e p r s a s1 := by
  obtain ⟨g1, g2, g3, g4, g5, g7, g8, g9⟩ := h
  refine ⟨g1.trans hr0, g2.trans hr3, g3.trans h1, g4.trans h2, by omega, ?_, fun ha => ?_,
    fun ht => (g9 ht).trans (h6 ht)⟩
  · rw [← hr0, ← hr3]
    exact g7
  · rcases h5 with h5 | h5
    · rw [g8 ((cb_aborts_congr env h5).mpr ha), h5]
    · exact absurd ha h5

theorem FQJump_of (env : Env) {s s2 : St} (h1 : s2.rsa.e = s.rsa.e) (h2 : s2.rsa.p = s.rsa.p)
    (h3 : s.ndraw ≤ s2.ndraw) (h5 : s2.ncb = s.ncb ∨ ¬ cb_aborts env s)
    (ok : Int) (s1 : St) (h : FQJump env s2 ok s1) : FQJump env s ok s1 := by
  obtain ⟨g0, g3, g4, g5, g8⟩ := h
  refine ⟨g0, g3.trans h1, g4.trans h2, by omega, fun ha => ?_⟩
  rcases h5 with h5 | h5
  · rcases g8 ((cb_aborts_congr env h5).mpr ha) with g | g
    · exact Or.inl (g.trans h5)
    · exact Or.inr (Cancelled_congr h5 g)
  · exact absurd ha h5

theorem fips_qloop_tail (env : Env) (test : Bool) (pbits : Int) (e p : Int) (k : Nat)
    (ih : ∀ (i n : Int) (r : Regs) (s : St), s.rsa.e = some e → s.rsa.p = some p →
      (∃ q, s.rsa.q = some q) →
      (fips_qloop env test pbits k i n r s).sat (FQNext env test pbits e p r s) (FQJump env s))
    (i n : Int) (r : Regs) (s s2 : St) (he : s.rsa.e = some e) (hp : s.rsa.p = some p)
    (h1 : s2.rsa.e = s.rsa.e) (h2 : s2.rsa.p = s.rsa.p) (h3 : s.ndraw ≤ s2.ndraw)
    (h5 : s2.ncb = s.ncb) (h6 : test = true → s2.rsa = s.rsa)
    (hsome : ∃ q, s2.rsa.q = some q) :
    (if val s2.rsa.q < r.r0 then
        (if test = true then Res.jump (-1) s2 else fips_qloop env test pbits k i n r s2)
      else if env.fail s2.nops = true then Res.jump (-1) { s2 with nops := s2.nops + 1 }
      else if Int.natAbs (val s2.rsa.q - val s2.rsa.p) ≤ Int.natAbs r.r3 then
        (if test = true then Res.jump (-1) { s2 with nops := s2.nops + 1 }
          else fips_qloop env test pbits k i n { r with r2 := val s2.rsa.q - val s2.rsa.p }
            { s2 with nops := s2.nops + 1 })
      else (fips_candidate env test pbits (val s2.rsa.q)
          { r with r2 := val s2.rsa.q - val s2.rsa.p } { s2 with nops := s2.nops + 1 }).andThen
        fun d =>
        if d.1 = true then (pure (i, n, d.2) : M (Int × Int × Regs))
        else (BN_GENCB_call env 2 n >>= fun c =>
          if (!c) = true then goto_err (-1)
          else if i + 1 < 5 * pbits then fips_qloop env test pbits k (i + 1) (n + 1) d.2
          else pure (i + 1, n + 1, d.2))).sat
      (FQNext env test pbits e p r s) (FQJump env s) := by
  have he2 : s2.rsa.e = some e := h1.trans he
  have hp2 : s2.rsa.p = some p := h2.trans hp
  obtain ⟨q, hq⟩ := hsome
  have hvq : val s2.rsa.q = q := by simp [val, hq]
  have hvp : val s2.rsa.p = p := by simp [val, hp2]
  rw [hvq, hvp]
  refine sat_ite (fun hlt => ?_) (fun hge => ?_)
  · refine sat_ite (fun _ => ?_) (fun _ => ?_)
    · exact ⟨rfl, h1, h2, h3, fun _ => Or.inl h5⟩
    · exact sat_mono (ih i n r s2 he2 hp2 ⟨q, hq⟩)
        (FQNext_of env test pbits e p h1 h2 h3 (Or.inl h5) h6 rfl rfl)
        (FQJump_of env h1 h2 h3 (Or.inl h5))
  refine sat_ite (fun _ => ?_) (fun _ => ?_)
  · exact ⟨rfl, h1, h2, h3, fun _ => Or.inl h5⟩
  refine sat_ite (fun hsep => ?_) (fun hsep => ?_)
  · refine sat_ite (fun _ => ?_) (fun _ => ?_)
    · exact ⟨rfl, h1, h2, h3, fun _ => Or.inl h5⟩
    · exact sat_mono (ih i n _ _ he2 hp2 ⟨q, hq⟩)
        (FQNext_of env test pbits e p h1 h2 h3 (Or.inl h5) h6 rfl rfl)
        (FQJump_of env h1 h2 h3 (Or.inl h5))
  refine sat_andThen (fips_candidate_spec env test pbits _ e _ _ he2) ?_ ?_
  swap
  · rintro ok s3 ⟨g0, g1, g2, g3⟩
    refine ⟨g0, by rw [g1]; exact h1, by rw [g1]; exact h2, ?_, fun _ => Or.inl (g3.trans h5)⟩
    have g2 : s3.ndraw = s2.ndraw := g2
    omega
  rintro ⟨brk, r3⟩ s3 ⟨g1, g2, g3, g4, g5, g6⟩
  have g1 : r3.r0 = r.r0 := g1
  have g2 : r3.r3 = r.r3 := g2
  have g3 : s3.rsa = s2.rsa := g3
  have g4 : s3.ndraw = s2.ndraw := g4
  have g5 : s3.ncb = s2.ncb := g5
  have hd : s.ndraw ≤ s3.ndraw := by omega
  have he3 : s3.rsa.e = s.rsa.e := by rw [g3]; exact h1
  have hp3 : s3.rsa.p = s.rsa.p := by rw [g3]; exact h2
  simp only [bind_apply, BN_GENCB_call_apply, andThen_next, M_ite_apply, ite_apply, pure_apply,
    goto_err_apply]
  refine sat_ite (fun hb => ?_) (fun _ => ?_)
  · exact ⟨g1, g2, he3, hp3, hd, fun _ => ⟨q, by rw [g3]; exact hq, not_lt.mp hge,
      not_le.mp hsep, g6 hb⟩, fun _ => g5.trans h5, fun ht => g3.trans (h6 ht)⟩
  · have hc3 : s3.ncb = s.ncb := g5.trans h5
    refine sat_ite (fun hcb => ?_) (fun hcb => ?_)
    · refine ⟨rfl, he3, hp3, hd, fun ha => Or.inr ?_⟩
      have h7 := ha 2 n
      rw [← hc3] at h7
      exact ⟨by simp [hc3], 2, n, by simp [h7]⟩
    · have hna : ¬ cb_aborts env s := fun ha => by
        have h7 := ha 2 n
        rw [← hc3] at h7
        simp [h7] at hcb
      refine sat_ite (fun _ => ?_) (fun hex => ?_)
      · exact sat_mono (ih (i + 1) (n + 1) r3 _ (he3.trans he) (hp3.trans hp)
            ⟨q, by rw [g3]; exact hq⟩)
          (FQNext_of env test pbits e p he3 hp3 hd (Or.inr hna) (fun ht => g3.trans (h6 ht))
            g1 g2)
          (FQJump_of env he3 hp3 hd (Or.inr hna))
      · exact ⟨g1, g2, he3, hp3, hd, fun h => absurd h hex, fun ha => absurd ha hna,
          fun ht => g3.trans (h6 ht)⟩

theorem fips_qloop_spec (env : Env) (test : Bool) (pbits : Int) (e p : Int) :
    ∀ (fuel : Nat) (i n : Int) (r : Regs) (s : St), s.rsa.e = some e → s.rsa.p = some p →
      (∃ q, s.rsa.q = some q) →
      (fips_qloop env test pbits fuel i n r s).sat (FQNext env test pbits e p r s) (FQJump env s) := by
  intro fuel
  induction fuel with
  | zero => intro i n r s _ _ _; simp [fips_qloop]
  | succ k ih =>
    intro i n r s he hp hsome
    simp only [fips_qloop, bind_apply, BN_rand_apply, get_st_apply, andThen_ite, andThen_next,
      andThen_jump, M_ite_apply, pure_apply, goto_err_apply, lib_apply]
    refine sat_ite (fun hnt => ?_) (fun _ => ?_)
    · refine sat_ite (fun _ => ?_) (fun _ => ?_)
      · exact ⟨rfl, rfl, rfl, Nat.le_refl _, fun _ => Or.inl rfl⟩
      refine sat_ite (fun _ => ?_) (fun _ => ?_)
      · exact ⟨rfl, rfl, rfl, Nat.le_refl _, fun _ => Or.inl rfl⟩
      refine fips_qloop_tail env test pbits e p k ih i n r s
        { s with nops := s.nops + 1, rsa := { s.rsa with q := some (BN_rand_val (env.rand s.ndraw) pbits 0 1) }, ndraw := s.ndraw + 1, trace := Event.draw pbits (BN_rand_val (env.rand s.ndraw) pbits 0 1) :: s.trace }
        he hp ?_ ?_ ?_ ?_ ?_ ?_
      · rfl
      · rfl
      · exact Nat.le_succ _
      · rfl
      · intro ht
        rw [ht] at hnt
        exact absurd hnt (by decide)
      · exact ⟨_, rfl⟩
    · exact fips_qloop_tail env test pbits e p k ih i n r s s he hp rfl rfl (Nat.le_refl _) rfl
        (fun _ => rfl) hsome

theorem fips_check_rsa_spec (env : Env) (s : St) :
    (fips_check_rsa env s).sat
      (fun c s1 => s1.rsa = s.rsa ∧ s1.ndraw = s.ndraw ∧ s1.ncb = s.ncb ∧
        (c ≠ 0 → s1.trace = Event.pairwise s.rsa 1 :: s.trace ∧ PairwiseOK (env.pairwise s.rsa)
          ∧ s1.errs = s.errs ∧ s1.selftest_failed = s.selftest_failed))
      (fun _ _ => False) := by
  unfold fips_check_rsa
  have hb : (fips_check_body env s).sat
      (fun _ s1 => s1.rsa = s.rsa ∧ s1.ndraw = s.ndraw ∧ s1.ncb = s.ncb ∧ s1.trace = s.trace ∧
        PairwiseOK (env.pairwise s.rsa) ∧ s1.errs = s.errs ∧
        s1.selftest_failed = s.selftest_failed)
      (fun _ s1 => s1.rsa = s.rsa ∧ s1.ndraw = s.ndraw ∧ s1.ncb = s.ncb) := by
    simp only [fips_check_body, bind_apply, lib_apply, get_st_apply, andThen_ite, andThen_next,
      andThen_jump, M_ite_apply, ite_apply, pure_apply, goto_err_apply]
    repeat' refine sat_ite (fun _ => ?_) (fun _ => ?_)
    all_goals simp only [sat_jump, sat_next, and_self, true_and]
    simp_all [PairwiseOK]
  cases hr : fips_check_body env s with
  | next a s1 =>
    rw [hr] at hb
    obtain ⟨h1, h2, h3, h4, h5, h6, h7⟩ := hb
    exact ⟨h1, h2, h3, fun _ => ⟨by simp [h4], h5, h6, h7⟩⟩
  | jump ok s1 =>
    rw [hr] at hb
    obtain ⟨h1, h2, h3⟩ := hb
    exact ⟨h1, h2, h3, fun h => absurd rfl h⟩
  | spin => trivial

theorem fips_derive_d_spec (env : Env) (e p0 q0 : Int) (r : Regs) (s : St)
    (he : s.rsa.e = some e) (hp : s.rsa.p = some p0) (hq : s.rsa.q = some q0) :
    (fips_derive_d env r s).sat
      (fun r1 s1 => ∃ P Q, Swapped p0 q0 s1.rsa ∧ s1.rsa.p = some P ∧ s1.rsa.q = some Q ∧
        r1.r3 = r.r3 ∧ r1.r1 = P - 1 ∧ r1.r2 = Q - 1 ∧ r1.r0 = lam_fips P Q ∧
        s1.rsa.n = some (P * Q) ∧ s1.rsa.e = some e ∧
        s1.rsa.d = some (mod_inverse_val e (lam_fips P Q)) ∧
        lam_fips P Q ≠ 0 ∧ Int.gcd e (lam_fips P Q) = 1 ∧
        s1.ndraw = s.ndraw ∧ s1.ncb = s.ncb)
      (fun ok s1 => ok = -1 ∧ Swapped p0 q0 s1.rsa ∧ s1.ndraw = s.ndraw ∧ s1.ncb = s.ncb) := by
  obtain ⟨⟨hP, hQ⟩, hE⟩ := swap_pq_swapped s.rsa p0 q0 hp hq
  rw [he] at hE
  unfold Swapped
  unfold fips_derive_d
  simp only [bind_apply, set_rsa_apply, andThen_next]
  generalize swap_pq s.rsa = k at hP hQ hE ⊢
  generalize (if p0 < q0 then q0 else p0) = P at hP ⊢
  generalize (if p0 < q0 then p0 else q0) = Q at hQ ⊢
  simp only [bind_apply, lib_apply, get_st_apply, set_rsa_apply,
    BN_mod_inverse_apply, BN_div_quot_apply, andThen_ite, andThen_next, andThen_jump,
    M_ite_apply, ite_apply, goto_err_apply, pure_apply, hP, hQ, hE, val, Option.getD_some]
  repeat' refine sat_ite (fun _ => ?_) (fun _ => ?_)
  all_goals simp only [sat_jump, sat_next]
  all_goals simp [hP, hQ, hE, lam_fips]
  rename_i h1 h2
  exact ⟨not_or.mp (fun h => h1 (mul_eq_zero.mpr h)), h2⟩

theorem fips_crt_spec (env : Env) (d p q : Int) (r : Regs) (s : St)
    (hd : s.rsa.d = some d) (hp : s.rsa.p = some p) (hq : s.rsa.q = some q) :
    (fips_crt env r s).sat
      (fun _ s1 => s1.rsa.n = s.rsa.n ∧ s1.rsa.e = s.rsa.e ∧ s1.rsa.d = some d ∧
        s1.rsa.p = some p ∧ s1.rsa.q = some q ∧
        r.r1 ≠ 0 ∧ s1.rsa.dmp1 = some (Int.tmod d r.r1) ∧
        r.r2 ≠ 0 ∧ s1.rsa.dmq1 = some (Int.tmod d r.r2) ∧
        p ≠ 0 ∧ Int.gcd q p = 1 ∧ s1.rsa.iqmp = some (mod_inverse_val q p) ∧
        s1.trace.head? = some (Event.pairwise s1.rsa 1) ∧ PairwiseOK (env.pairwise s1.rsa) ∧
        s1.ndraw = s.ndraw ∧ s1.ncb = s.ncb)
      (fun ok s1 => ok = -1 ∧ s1.rsa.p = s.rsa.p ∧ s1.ndraw = s.ndraw ∧ s1.ncb = s.ncb) := by
  unfold fips_crt
  simp only [bind_apply, lib_apply, get_st_apply, set_rsa_apply,
    BN_mod_inverse_apply, BN_mod_apply, andThen_ite, andThen_next, andThen_jump,
    M_ite_apply, ite_apply, goto_err_apply, pure_apply, hd, hp, hq, val, Option.getD_some]
  refine sat_ite (fun _ => ?_) (fun _ => ?_)
  · exact ⟨rfl, hp, rfl, rfl⟩
  refine sat_ite (fun _ => ?_) (fun _ => ?_)
  · exact ⟨rfl, hp, rfl, rfl⟩
  refine sat_ite (fun _ => ?_) (fun h1 => ?_)
  · exact ⟨rfl, hp, rfl, rfl⟩
  refine sat_ite (fun _ => ?_) (fun _ => ?_)
  · first | exact ⟨rfl, hp, rfl, rfl⟩ | exact ⟨rfl, rfl, rfl, rfl⟩
  refine sat_ite (fun _ => ?_) (fun h2 => ?_)
  · first | exact ⟨rfl, hp, rfl, rfl⟩ | exact ⟨rfl, rfl, rfl, rfl⟩
  refine sat_ite (fun _ => ?_) (fun _ => ?_)
  · first | exact ⟨rfl, hp, rfl, rfl⟩ | exact ⟨rfl, rfl, rfl, rfl⟩
  refine sat_ite (fun _ => ?_) (fun h3 => ?_)
  · first | exact ⟨rfl, hp, rfl, rfl⟩ | exact ⟨rfl, rfl, rfl, rfl⟩
  refine sat_ite (fun h4 => ?_) (fun _ => ?_)
  swap
  · first | exact ⟨rfl, hp, rfl, rfl⟩ | exact ⟨rfl, rfl, rfl, rfl⟩
  refine sat_andThen (fips_check_rsa_spec env _) ?_ (fun _ _ h => absurd h id)
  rintro c s1 ⟨g1, g2, g3, g4⟩
  simp only [M_ite_apply, ite_apply, goto_err_apply, pure_apply]
  refine sat_ite (fun _ => ?_) (fun hc => ?_)
  · exact ⟨rfl, by rw [g1], g2, g3⟩
  obtain ⟨g5, g6, -, -⟩ := g4 hc
  simp only [sat_next]
  rw [g1]
  refine ⟨rfl, rfl, rfl, rfl, rfl, h1, rfl, h2, rfl, h3, h4, rfl, ?_, g6, g2, g3⟩
  rw [g5]
  rfl

theorem lam_fips_eq_lcm (P Q : Int) (hP : 0 < P - 1) (hQ : 0 < Q - 1) :
    lam_fips P Q = (Int.lcm (P - 1) (Q - 1) : Int) := by
  unfold lam_fips
  obtain ⟨a, ha⟩ := Int.eq_ofNat_of_zero_le (le_of_lt hP)
  obtain ⟨b, hb⟩ := Int.eq_ofNat_of_zero_le (le_of_lt hQ)
  rw [ha, hb]
  have hg : Int.gcd (a : Int) (b : Int) = Nat.gcd a b := by
    simp [Int.gcd]
  have hl : Int.lcm (a : Int) (b : Int) = Nat.lcm a b := by
    simp [Int.lcm]
  rw [hg, hl, Int.tdiv_eq_ediv (by positivity) (by positivity)]
  norm_cast
  unfold Nat.lcm
  have hgpos : 0 < Nat.gcd a b := by
    apply Nat.gcd_pos_of_pos_left
    omega
  generalize hgd : Nat.gcd a b = g at hgpos ⊢
  obtain ⟨c, hc⟩ : g ∣ a := hgd ▸ Nat.gcd_dvd_left a b
  rw [hc, Nat.mul_div_cancel_left _ hgpos, Nat.mul_assoc, Nat.mul_div_cancel_left _ hgpos]

theorem lam_fips_ge (P Q : Int) (hQ : 2 ≤ Q) (hPQ : Q < P) : 2 ≤ lam_fips P Q := by
  rw [lam_fips_eq_lcm P Q (by omega) (by omega)]
  have h1 : (P - 1) ∣ (Int.lcm (P - 1) (Q - 1) : Int) := Int.dvd_lcm_left
  have h2 : Int.lcm (P - 1) (Q - 1) ≠ 0 := Int.lcm_ne_zero (by omega) (by omega)
  have h3 : P - 1 ≤ (Int.lcm (P - 1) (Q - 1) : Int) := Int.le_of_dvd (by omega) h1
  have h4 : (2 : Int) ≤ P - 1 := by omega
  exact le_trans h4 h3

theorem fips_generate_spec (env : Env) (test : Bool) (pbits : Int) (lfuel : Nat) (e : Int) :
    ∀ (fuel : Nat) (n : Int) (r : Regs) (s : St), s.rsa.e = some e →
      (∃ p, s.rsa.p = some p) → (∃ q, s.rsa.q = some q) → 2 ≤ r.r0 → r.r3 ≠ 0 →
      (fips_generate env test pbits lfuel fuel n r s).sat
        (fun _ s1 => FipsGood env pbits e s1 ∧ test = false ∧ ¬ cb_aborts env s)
        (FipsBad env test s) := by
  intro fuel
  induction fuel with
  | zero => intro n r s _ _ _ _ _; simp [fips_generate]
  | succ k ih =>
    intro n r s he hps hqs hr0 hr3
    simp only [fips_generate, bind_apply, M_ite_apply, andThen_ite]
    refine sat_ite (fun hpos => ?_) (fun hneg => ?_)
    swap
    · simp only [pure_apply, andThen_next, bind_apply, BN_GENCB_call_apply, M_ite_apply,
        ite_apply, goto_err_apply]
      refine sat_ite (fun hcb => ?_) (fun hcb => ?_)
      · refine ⟨Or.inl rfl, Or.inl ⟨rfl, rfl⟩, fun ha => Or.inr ⟨rfl, 3, 0, ?_⟩⟩
        simp [ha 3 0]
      · have hna : ¬ cb_aborts env s := fun ha => by simp [ha 3 0] at hcb
        rw [if_pos (by omega)]
        exact ⟨Or.inl rfl, Or.inl ⟨rfl, rfl⟩, fun ha => absurd ha hna⟩
    refine sat_andThen (fips_ploop_spec env test pbits e lfuel 0 n r s he hps) ?_ ?_
    swap
    · rintro ok s1 ⟨g0, -, -, g3, g4⟩
      exact ⟨Or.inl g0, g3, g4⟩
    rintro ⟨i1, n1, r1⟩ s1 ⟨g1, g2, g3, g4, g5, g6, g7, g8, g9⟩
    have g1 : r1.r0 = r.r0 := g1
    have g2 : r1.r3 = r.r3 := g2
    simp only [bind_apply, BN_GENCB_call_apply, andThen_next, M_ite_apply,
        ite_apply, goto_err_apply]
    refine sat_ite (fun hcb => ?_) (fun hcb => ?_)
    · refine ⟨Or.inl rfl, g5.trans_drew (Or.inl ⟨rfl, rfl⟩), fun ha => Or.inr ?_⟩
      have h6 := g8 ha
      have h7 := ha 3 0
      rw [← h6] at h7
      exact ⟨by simp [h6], 3, 0, by simp [h7]⟩
    have hna : ¬ cb_aborts env s := fun ha => by
      have h6 := g8 ha
      have h7 := ha 3 0
      rw [← h6] at h7
      simp [h7] at hcb
    refine sat_ite (fun _ => ?_) (fun hi => ?_)
    · exact ⟨Or.inl rfl, g5.trans_drew (Or.inl ⟨rfl, rfl⟩), fun ha => absurd ha hna⟩
    obtain ⟨p, hp, hpr, hgp⟩ := g7 (not_le.mp hi)
    rw [if_pos hpos]
    obtain ⟨q0, hq0⟩ := hqs
    refine sat_andThen (fips_qloop_spec env test pbits e p lfuel 0 n1 r1 _ (g3.trans he) hp
      ⟨q0, g4.trans hq0⟩) ?_ ?_
    swap
    · rintro ok s2 ⟨f0, -, f2, f3, -⟩
      refine ⟨Or.inl f0, ?_, fun ha => absurd ha hna⟩
      refine g5.trans_drew ?_
      have f3 : s1.ndraw ≤ s2.ndraw := f3
      have f2 : s2.rsa.p = s1.rsa.p := f2
      rcases Nat.eq_or_lt_of_le f3 with h | h
      · exact Or.inl ⟨f2, h.symm⟩
      · exact Or.inr ⟨⟨p, f2.trans hp, by omega⟩, h⟩
    rintro ⟨i2, n2, r2⟩ s2 ⟨f1, f2, f3, f4, f5, f7, -, f9⟩
    have f1 : r2.r0 = r1.r0 := f1
    have f2 : r2.r3 = r1.r3 := f2
    have f3 : s2.rsa.e = s1.rsa.e := f3
    have f4 : s2.rsa.p = s1.rsa.p := f4
    have f5 : s1.ndraw ≤ s2.ndraw := f5
    have f9 : test = true → s2.rsa = s1.rsa := f9
    have hd2 : Drew s s2 := by
      refine g5.trans_drew ?_
      rcases Nat.eq_or_lt_of_le f5 with h | h
      · exact Or.inl ⟨f4, h.symm⟩
      · exact Or.inr ⟨⟨p, f4.trans hp, by omega⟩, h⟩
    simp only [bind_apply, BN_GENCB_call_apply, andThen_next, M_ite_apply,
        ite_apply, goto_err_apply, set_rsa_apply, andThen_jump]
    refine sat_ite (fun _ => ?_) (fun hcb2 => ?_)
    · exact ⟨Or.inl rfl, hd2.trans_drew (Or.inl ⟨rfl, rfl⟩), fun ha => absurd ha hna⟩
    refine sat_ite (fun _ => ?_) (fun hi2 => ?_)
    · exact ⟨Or.inl rfl, hd2.trans_drew (Or.inl ⟨rfl, rfl⟩), fun ha => absurd ha hna⟩
    obtain ⟨q, hq, hqr, hsep, hgq⟩ := f7 (not_le.mp hi2)
    refine sat_ite (fun ht => ?_) (fun ht => ?_)
    · refine ⟨Or.inr ⟨rfl, ht, ?_, ?_⟩, ?_, fun ha => absurd ha hna⟩
      · show _ = _
        simp only [f9 ht, g9 ht]
      · have : env.cb s2.ncb 3 1 = true := by simpa using hcb2
        simp [this]
      · refine hd2.trans_drew (Or.inl ⟨rfl, rfl⟩)
    have htf : test = false := by simpa using ht
    have hne : p ≠ q := by
      intro h
      rw [h] at hsep
      simp at hsep
    have hp2 : 2 ≤ p := by omega
    have hq2 : 2 ≤ q := by omega
    have hdr : s.ndraw < s2.ndraw := by
      have := g6 htf
      omega
    refine sat_andThen (fips_derive_d_spec env e p q r2 _ (f3.trans (g3.trans he))
      (f4.trans hp) hq) ?_ ?_
    swap
    · rintro ok s3 ⟨e0, ⟨e1, -⟩, e2, -⟩
      have e2 : s3.ndraw = s2.ndraw := e2
      refine ⟨Or.inl e0, Or.inr ⟨⟨_, e1, ?_⟩, by omega⟩, fun ha => absurd ha hna⟩
      split <;> omega
    rintro r3 s3 ⟨P, Q, ⟨e1, e2⟩, hP, hQ, e3, e4, e5, e6, e7, e8, e9, e10, e11, e12, -⟩
    have e12 : s3.ndraw = s2.ndraw := e12
    have hPQ : Q < P ∧ 2 ≤ Q ∧ Int.gcd (P - 1) e = 1 ∧ Int.gcd (Q - 1) e = 1 := by
      have h1 := hP.symm.trans e1
      have h2 := hQ.symm.trans e2
      simp only [Option.some.injEq] at h1 h2
      by_cases hlt : p < q
      · rw [if_pos hlt] at h1 h2
        subst h1 h2
        exact ⟨hlt, hp2, hgq, hgp⟩
      · rw [if_neg hlt] at h1 h2
        subst h1 h2
        exact ⟨by omega, hq2, hgp, hgq⟩
    obtain ⟨hlt, hQ2, hgP, hgQ⟩ := hPQ
    have hd3 : Drew s s3 := Or.inr ⟨⟨P, hP, by omega⟩, by omega⟩
    simp only [bind_apply, get_st_apply, andThen_next, M_ite_apply, ite_apply, val, e9,
      Option.getD_some]
    refine sat_ite (fun _ => ?_) (fun hbits => ?_)
    · refine sat_mono (ih n2 r3 s3 e8 ⟨P, hP⟩ ⟨Q, hQ⟩ (by rw [e6]; exact lam_fips_ge P Q hQ2 hlt)
        (by rw [e3, f2, g2]; exact hr3)) ?_ ?_
      · rintro _ s4 ⟨c1, c2, -⟩
        exact ⟨c1, c2, hna⟩
      · rintro ok s4 ⟨c1, c2, -⟩
        refine ⟨Or.inl ?_, hd3.trans_drew c2, fun ha => absurd ha hna⟩
        rcases c1 with c1 | ⟨-, c1, -⟩
        · exact c1
        · rw [htf] at c1
          exact absurd c1 (by decide)
    · refine sat_mono (fips_crt_spec env _ P Q r3 s3 e9 hP hQ) ?_ ?_
      · rintro _ s4 ⟨c1, c2, c3, c4, c5, c6, c7, c8, c9, c10, c11, c12, c13, c14, -, -⟩
        rw [e4] at c6 c7
        rw [e5] at c8 c9
        refine ⟨⟨⟨_, _, _, _, _, _, _, _, c1.trans e7, c2.trans e8, c3, c4, c5, c7, c9, c12, rfl,
          e10, e11, rfl, c6, rfl, c8, rfl, c10, c11, rfl⟩, c2.trans e8,
          ⟨P, Q, _, c4, c5, c3, hlt, hQ2, hgP, hgQ, not_lt.mp hbits⟩, c13, c14⟩, htf, hna⟩
      · rintro ok s4 ⟨c0, c1, c2, -⟩
        have c2 : s4.ndraw = s3.ndraw := c2
        exact ⟨Or.inl c0, Or.inr ⟨⟨P, c1.trans hP, by omega⟩, by omega⟩,
          fun ha => absurd ha hna⟩

theorem fips_generate_entry (env : Env) (fuel : Nat) (pbits : Int) (e_value e0 : Int)
    (s s3 : St) (r : Regs) (h1 : s3.ndraw = s.ndraw) (h2 : s3.ncb = s.ncb)
    (he : s3.rsa.e = some e0) (ha : Allocated s.rsa { s3.rsa with n := s3.rsa.n, e := some (val s.rsa.e) })
    (hee : e0 = e_value ∨ e0 = val s.rsa.e) (hr0 : 2 ≤ r.r0) (hr3 : r.r3 ≠ 0) :
    (fips_generate env (decide (val s3.rsa.p ≠ 0) && decide (val s3.rsa.q ≠ 0)) pbits fuel fuel
        0 r s3).sat
      (fun _ s1 => (∃ e, FipsGood env pbits e s1) ∧ Fresh s.rsa ∧ ¬ cb_aborts env s)
      (FipsBodyBad env e_value s) := by
  obtain ⟨a1, -, a3, a4, a5, a6, a7, a8⟩ := ha
  have a4 : s3.rsa.p = some (val s.rsa.p) := a4
  have a5 : s3.rsa.q = some (val s.rsa.q) := a5
  have hvp : val s3.rsa.p = val s.rsa.p := by rw [a4]; rfl
  have hvq : val s3.rsa.q = val s.rsa.q := by rw [a5]; rfl
  rw [hvp, hvq]
  refine sat_mono (fips_generate_spec env _ pbits fuel e0 fuel 0 r s3 he ⟨_, a4⟩ ⟨_, a5⟩ hr0 hr3)
    ?_ ?_
  · rintro _ s4 ⟨c1, c2, c3⟩
    refine ⟨⟨e0, c1⟩, ?_, fun h => c3 ((cb_aborts_congr env h2).mpr h)⟩
    unfold Fresh
    simp only [ne_eq, Bool.and_eq_false_imp, decide_eq_true_eq, decide_eq_false_iff_not,
      not_not] at c2
    by_cases hp0 : val s.rsa.p = 0
    · exact Or.inl hp0
    · exact Or.inr (c2 hp0)
  · rintro ok s4 ⟨c1, c2, c3⟩
    refine ⟨?_, fun h => ?_, fun h => ?_⟩
    · rcases c1 with c1 | ⟨c0, c1, c4, c5⟩
      · exact Or.inl c1
      · refine Or.inr (Or.inr ⟨c0, ?_, ?_, c5⟩)
        · simp only [ne_eq, Bool.and_eq_true, decide_eq_true_eq] at c1
          unfold Fresh
          tauto
        · rw [c4]
          refine ⟨rfl, a4, a5, a3, a6, a7, a8, ?_⟩
          rcases hee with h | h
          · exact Or.inl (by rw [← h]; exact he)
          · exact Or.inr (by rw [← h]; exact he)
    · rcases c2 with ⟨_, c2⟩ | ⟨c2, _⟩
      · omega
      · exact c2
    · rcases c3 ((cb_aborts_congr env h2).mpr h) with c | c
      · exact Or.inl (c.trans h2)
      · exact Or.inr (Cancelled_congr h2 c)

theorem fips_body_spec (env : Env) (fuel : Nat) (bits : Int) (e_value : Int) (s : St) :
    (fips_rsa_builtin_keygen_body env fuel bits e_value s).sat
      (fun _ s1 => (∃ e, FipsGood env (Int.tdiv bits 2) e s1) ∧ Fresh s.rsa ∧ ¬ cb_aborts env s)
      (FipsBodyBad env e_value s) := by
  simp only [fips_rsa_builtin_keygen_body, bind_apply, get_st_apply, andThen_next, M_ite_apply,
    put_error_apply, goto_err_apply]
  have early : ∀ s1 : St, s1.ndraw = s.ndraw → s1.ncb = s.ncb → s1.ntest = s.ntest →
      s1.trace = s.trace → FipsBodyBad env e_value s 0 s1 := by
    intro s1 h1 h2 h3 h4
    exact ⟨Or.inr (Or.inl ⟨rfl, h1, h2, h3, h4⟩), fun h => by omega, fun _ => Or.inl h2⟩
  have quiet : ∀ s1 : St, Quiet s s1 → FipsBodyBad env e_value s (-1) s1 := by
    rintro s1 ⟨-, -, h1, -, h2, -⟩
    exact ⟨Or.inl rfl, fun h => by omega, fun _ => Or.inl h2⟩
  refine sat_ite (fun _ => early _ rfl rfl rfl rfl) (fun _ => ?_)
  refine sat_ite (fun _ => early _ rfl rfl rfl rfl) (fun _ => ?_)
  refine sat_ite (fun _ => early _ rfl rfl rfl rfl) (fun _ => ?_)
  refine sat_andThen (ctx_setup_spec env s) ?_ ?_
  swap
  · rintro ok s1 ⟨h0, hq, _⟩
    rw [h0]
    exact quiet s1 hq
  rintro _ s1 ⟨q1, hr1⟩
  refine sat_andThen (alloc_components_spec env s1) ?_ ?_
  swap
  · rintro ok s2 ⟨h0, hq⟩
    rw [h0]
    exact quiet s2 (q1.trans_quiet hq)
  rintro _ s2 ⟨q2, ha⟩
  rw [hr1] at ha
  have q2 := q1.trans_quiet q2
  simp only [bind_apply, lib_apply, andThen_ite, andThen_jump, andThen_next, put_error_apply,
    M_ite_apply, ite_apply, goto_err_apply, BN_lshift_apply, lib_call_apply, set_rsa_apply,
    pure_apply, get_st_apply]
  obtain ⟨-, -, qd, qt, qc, qtr⟩ := q2
  have jm : ∀ s3 : St, s3.ndraw = s2.ndraw → s3.ncb = s2.ncb →
      FipsBodyBad env e_value s (-1) s3 := by
    intro s3 h1 h2
    exact ⟨Or.inl rfl, fun h => by omega, fun _ => Or.inl (h2.trans qc)⟩
  have hr0 : ∀ k : Nat, (2 : Int) ≤ 3037000500 * 2 ^ k := by
    intro k
    have : (1 : Int) ≤ 2 ^ k := one_le_pow₀ (by norm_num)
    nlinarith
  have hr3 : ∀ k : Nat, (1 : Int) * 2 ^ k ≠ 0 := by
    intro k
    positivity
  refine sat_ite (fun _ => jm _ rfl rfl) (fun _ => ?_)
  refine sat_ite (fun _ => early _ qd qc qt qtr) (fun _ => ?_)
  refine sat_ite (fun _ => jm _ rfl rfl) (fun _ => ?_)
  refine sat_ite (fun _ => jm _ rfl rfl) (fun _ => ?_)
  refine sat_ite (fun _ => jm _ rfl rfl) (fun _ => ?_)
  refine sat_ite (fun _ => jm _ rfl rfl) (fun _ => ?_)
  refine sat_ite (fun _ => jm _ rfl rfl) (fun _ => ?_)
  refine sat_ite (fun _ => jm _ rfl rfl) (fun _ => ?_)
  obtain ⟨a1, a2, a3, a4, a5, a6, a7, a8⟩ := ha
  refine sat_ite (fun _ => ?_) (fun _ => ?_)
  · exact fips_generate_entry env fuel _ e_value e_value s
      { s2 with rsa := { s2.rsa with e := some e_value }, nops := s2.nops + 1 + 1 + 1 + 1 + 1 + 1 }
      ⟨3037000500 * 2 ^ (Int.tdiv bits 2 - 32).toNat, 0, 0, 1 * 2 ^ (Int.tdiv bits 2 - 100).toNat⟩
      qd qc rfl ⟨a1, rfl, a3, a4, a5, a6, a7, a8⟩ (Or.inl rfl) (hr0 _) (hr3 _)
  · exact fips_generate_entry env fuel _ e_value (val s.rsa.e) s
      { s2 with nops := s2.nops + 1 + 1 + 1 + 1 + 1 + 1 }
      ⟨3037000500 * 2 ^ (Int.tdiv bits 2 - 32).toNat, 0, 0, 1 * 2 ^ (Int.tdiv bits 2 - 100).toNat⟩
      qd qc a2 ⟨a1, rfl, a3, a4, a5, a6, a7, a8⟩ (Or.inr rfl) (hr0 _) (hr3 _)

theorem finish_cases (f : Func) (r : Res Unit) (ret : Int) (s1 : St)
    (h : finish f r = some (ret, s1)) :
    (ret = 1 ∧ r = Res.next () s1) ∨
      (∃ s2, r = Res.jump (-1) s2 ∧ ret = 0 ∧
        s1 = { s2 with errs := ⟨Lib.RSA, f, Reason.ERR_LIB_BN⟩ :: s2.errs }) ∨
      (∃ ok, ok ≠ -1 ∧ r = Res.jump ok s1 ∧ ret = ok) := by
  cases r with
  | next a s2 =>
    simp only [finish, Option.some.injEq, Prod.mk.injEq] at h
    exact Or.inl ⟨h.1.symm, by rw [h.2]⟩
  | jump ok s2 =>
    simp only [finish] at h
    by_cases hok : ok = -1
    · rw [if_pos hok] at h
      simp only [Option.some.injEq, Prod.mk.injEq] at h
      exact Or.inr (Or.inl ⟨s2, by rw [hok], h.1.symm, h.2.symm⟩)
    · rw [if_neg hok] at h
      simp only [Option.some.injEq, Prod.mk.injEq] at h
      exact Or.inr (Or.inr ⟨ok, hok, by rw [h.2], h.1.symm⟩)
  | spin => simp [finish] at h

theorem inverse_facts (a n : Int) (hn : 1 < n) (hg : Int.gcd a n = 1) :
    0 ≤ mod_inverse_val a n ∧ mod_inverse_val a n < n ∧ (a * mod_inverse_val a n) % n = 1 := by
  obtain ⟨h1, h2, h3⟩ := mod_inverse_val_spec a n (by omega) hg
  have habs : (n.natAbs : Int) = n := Int.natAbs_of_nonneg (by omega)
  rw [habs] at h2 h3
  refine ⟨h1, h2, ?_⟩
  have h4 : (a * mod_inverse_val a n) % n = 1 % n := h3
  rw [h4]
  exact Int.emod_eq_of_lt (by omega) hn

theorem key_relations_of_derived (lam : Int → Int → Int) (r : RSA) (e0 : Int)
    (hd : Derived lam r) (he : r.e = some e0)
    (hpq : ∃ p q, r.p = some p ∧ r.q = some q ∧ q < p ∧ 2 ≤ q ∧
      Int.gcd (p - 1) e0 = 1 ∧ Int.gcd (q - 1) e0 = 1)
    (hlam : ∀ p q : Int, 2 ≤ q → q < p → 1 < lam p q) : KeyRelations lam r := by
  obtain ⟨n, e, d, p, q, dmp1, dmq1, iqmp, h1, h2, h3, h4, h5, h6, h7, h8, h9, h10, h11, h12,
    h13, h14, h15, h16, h17, h18, h19⟩ := hd
  obtain ⟨p', q', g1, g2, g3, g4, g5, g6⟩ := hpq
  have ep : p' = p := by rw [h4] at g1; exact (Option.some.inj g1).symm
  have eq : q' = q := by rw [h5] at g2; exact (Option.some.inj g2).symm
  have ee : e0 = e := by rw [h2] at he; exact (Option.some.inj he).symm
  subst ep eq ee
  have hl := hlam p' q' g4 g3
  obtain ⟨d1, d2, d3⟩ := inverse_facts e0 (lam p' q') hl h11
  obtain ⟨i1, i2, i3⟩ := inverse_facts q' p' (by omega) h18
  rw [← h12] at d1 d2 d3
  rw [← h19] at i3
  refine ⟨n, e0, d, p', q', dmp1, dmq1, iqmp, h1, h2, h3, h4, h5, h6, h7, h8, h9, by omega,
    by omega, g4, hl, d3, d1, d2, ?_, ?_, ?_, ?_, ?_⟩
  · rw [h14]; exact Int.tmod_eq_emod d1 (by omega)
  · rw [h16]; exact Int.tmod_eq_emod d1 (by omega)
  · rw [mul_comm]; exact i3
  · rw [Int.gcd_comm]; exact g5
  · rw [Int.gcd_comm]; exact g6

theorem lam_general_gt (p q : Int) (hq : 2 ≤ q) (hpq : q < p) : 1 < (p - 1) * (q - 1) := by
  have h1 : 2 ≤ p - 1 := by omega
  have h2 : 1 ≤ q - 1 := by omega
  nlinarith

theorem rsa_builtin_keygen_success (env : Env) (fuel : Nat) (s : St) (bits e_value : Int)
    (s1 : St) (h : rsa_builtin_keygen env fuel s bits e_value = some (1, s1)) :
    KeyRelations (fun p q => (p - 1) * (q - 1)) s1.rsa ∧ s1.rsa.e = some e_value ∧
      ¬ cb_aborts env s ∧ ¬ bits < 16 := by
  unfold rsa_builtin_keygen at h
  by_cases hbits : bits < 16
  · simp [rsa_builtin_keygen_body, hbits, finish] at h
  have hs := rsa_builtin_keygen_body_spec env fuel bits e_value (fun x => 0 ≤ x)
    (fun k b _ => Int.ofNat_nonneg _) hbits s
  rcases finish_cases _ _ _ _ h with ⟨-, hr⟩ | ⟨s2, hr, h0, -⟩ | ⟨ok, hok, hr, h1⟩
  · rw [hr] at hs
    obtain ⟨⟨g1, g2, p, q, g3, g4, g5, g6, g7, g8, g9⟩, g10⟩ := hs
    have hq2 : 2 ≤ q := by
      obtain ⟨n, e, d, p', q', dmp1, dmq1, iqmp, h1, h2, h3, h4, h5, h6, h7, h8, h9, h10, h11,
        h12, h13, h14, h15, h16, h17, h18, h19⟩ := g1
      have eq : q' = q := by rw [h5] at g4; exact Option.some.inj g4
      have ep : p' = p := by rw [h4] at g3; exact Option.some.inj g3
      subst eq ep
      have hq0 : q' ≠ 0 := by
        intro h0
        rw [h0, Int.gcd_zero_left] at h18
        omega
      have g7 : 0 ≤ q' := g7
      omega
    exact ⟨key_relations_of_derived _ _ e_value g1 g2 ⟨p, q, g3, g4, g5, hq2, g8, g9⟩
      lam_general_gt, g2, g10, hbits⟩
  · omega
  · rw [hr] at hs
    obtain ⟨g0, -⟩ := hs
    exact absurd g0 hok

theorem fips_keygen_success (env : Env) (fuel : Nat) (s : St) (bits e_value : Int)
    (s1 : St) (h : fips_rsa_builtin_keygen env fuel s bits e_value = some (1, s1)) :
    (Fresh s.rsa ∧ KeyRelations lam_fips s1.rsa ∧
        (∃ d, s1.rsa.d = some d ∧ Int.tdiv bits 2 ≤ BN_num_bits d) ∧
        s1.trace.head? = some (Event.pairwise s1.rsa 1) ∧ PairwiseOK (env.pairwise s1.rsa)) ∨
      (¬ Fresh s.rsa ∧ TestResult e_value s.rsa s1.rsa ∧
        s1.trace.head? = some (Event.callback 3 1 true)) := by
  unfold fips_rsa_builtin_keygen at h
  have hs := fips_body_spec env fuel bits e_value s
  rcases finish_cases _ _ _ _ h with ⟨-, hr⟩ | ⟨s2, hr, h0, -⟩ | ⟨ok, hok, hr, h1⟩
  · rw [hr] at hs
    obtain ⟨⟨e, g1, g2, ⟨p, q, d, g3, g4, g5, g6, g7, g8, g9, g10⟩, g11, g12⟩, g13, -⟩ := hs
    exact Or.inl ⟨g13, key_relations_of_derived _ _ e g1 g2 ⟨p, q, g3, g4, g6, g7, g8, g9⟩
      (fun p q h1 h2 => by have := lam_fips_ge p q h1 h2; omega), ⟨d, g5, g10⟩, g11, g12⟩
  · omega
  · rw [hr] at hs
    obtain ⟨g0, -, -⟩ := hs
    rcases g0 with g0 | ⟨g0, -⟩ | ⟨-, g1, g2, g3⟩
    · exact absurd g0 hok
    · omega
    · exact Or.inr ⟨g1, g2, g3⟩

theorem general_run : rsa_builtin_keygen calm_env 5 fresh_state 16 7 = some (1, general_final) := by
  decide!

theorem fips_run :
    fips_rsa_builtin_keygen calm_env 5 fresh_state 1024 65537 = some (1, fips_final) := by
  decide!

theorem fresh_state_fresh : Fresh fresh_state.rsa := by
  unfold Fresh
  decide

theorem general_abort_run :
    rsa_builtin_keygen abort_env 5 fresh_state 16 7 = some (0, general_abort_final) := by
  decide!

theorem fips_abort_run :
    fips_rsa_builtin_keygen abort_env 5 fresh_state 1024 65537 = some (0, fips_abort_final) := by
  decide!

theorem abort_env_aborts : cb_aborts abort_env fresh_state := fun _ _ => rfl

/-- C1: on every successful return of `rsa_builtin_keygen`, and of
`fips_rsa_builtin_keygen` started on a fresh key (`p` or `q` zero), the key
satisfies `n = p * q` and `p ≠ q`. -/
theorem C1_modulus_is_product_of_distinct_factors (env : Env) (fuel : Nat) (s : St)
    (bits e_value : Int) (s1 : St) :
    (rsa_builtin_keygen env fuel s bits e_value = some (1, s1) →
      ∃ n p q, s1.rsa.n = some n ∧ s1.rsa.p = some p ∧ s1.rsa.q = some q ∧
        n = p * q ∧ p ≠ q) ∧
    (Fresh s.rsa → fips_rsa_builtin_keygen env fuel s bits e_value = some (1, s1) →
      ∃ n p q, s1.rsa.n = some n ∧ s1.rsa.p = some p ∧ s1.rsa.q = some q ∧
        n = p * q ∧ p ≠ q) := by
  constructor
  · intro h
    obtain ⟨⟨n, e, d, p, q, dmp1, dmq1, iqmp, h1, h2, h3, h4, h5, h6, h7, h8, h9, h10, -⟩, -⟩ :=
      rsa_builtin_keygen_success env fuel s bits e_value s1 h
    exact ⟨n, p, q, h1, h4, h5, h9, h10⟩
  · intro hf h
    rcases fips_keygen_success env fuel s bits e_value s1 h with
      ⟨-, ⟨n, e, d, p, q, dmp1, dmq1, iqmp, h1, h2, h3, h4, h5, h6, h7, h8, h9, h10, -⟩, -⟩ |
      ⟨hn, -⟩
    · exact ⟨n, p, q, h1, h4, h5, h9, h10⟩
    · exact absurd hf hn

/-- Witness for C1: both generators succeed on a fresh key in `calm_env`. -/
theorem C1_witness :
    rsa_builtin_keygen calm_env 5 fresh_state 16 7 = some (1, general_final) ∧
    (∃ n p q, general_final.rsa.n = some n ∧ general_final.rsa.p = some p ∧
      general_final.rsa.q = some q ∧ n = p * q ∧ p ≠ q) ∧
    Fresh fresh_state.rsa ∧
    fips_rsa_builtin_keygen calm_env 5 fresh_state 1024 65537 = some (1, fips_final) ∧
    (∃ n p q, fips_final.rsa.n = some n ∧ fips_final.rsa.p = some p ∧
      fips_final.rsa.q = some q ∧ n = p * q ∧ p ≠ q) :=
  ⟨general_run,
    (C1_modulus_is_product_of_distinct_factors calm_env 5 fresh_state 16 7 general_final).1
      general_run,
    fresh_state_fresh, fips_run,
    (C1_modulus_is_product_of_distinct_factors calm_env 5 fresh_state 1024 65537 fips_final).2
      fresh_state_fresh fips_run⟩

/-- C2: on every successful return of `rsa_builtin_keygen`, and of
`fips_rsa_builtin_keygen` on a fresh key, `e * d mod λ = 1` and `0 ≤ d < λ`,
with `λ = (p-1)(q-1)` in `rsa_builtin_keygen` and `λ = lcm(p-1, q-1)` in
`fips_rsa_builtin_keygen`, where the value the compliance code computes,
`((p-1) / gcd(p-1, q-1)) * (q-1)`, equals `lcm(p-1, q-1)`. -/
theorem C2_private_exponent_inverts_e (env : Env) (fuel : Nat) (s : St)
    (bits e_value : Int) (s1 : St) :
    (rsa_builtin_keygen env fuel s bits e_value = some (1, s1) →
      ∃ e d p q, s1.rsa.e = some e ∧ s1.rsa.d = some d ∧ s1.rsa.p = some p ∧
        s1.rsa.q = some q ∧ (e * d) % ((p - 1) * (q - 1)) = 1 ∧ 0 ≤ d ∧
        d < (p - 1) * (q - 1)) ∧
    (Fresh s.rsa → fips_rsa_builtin_keygen env fuel s bits e_value = some (1, s1) →
      ∃ e d p q, s1.rsa.e = some e ∧ s1.rsa.d = some d ∧ s1.rsa.p = some p ∧
        s1.rsa.q = some q ∧
        Int.tdiv (p - 1) (Int.gcd (p - 1) (q - 1) : Int) * (q - 1) =
          (Int.lcm (p - 1) (q - 1) : Int) ∧
        (e * d) % (Int.lcm (p - 1) (q - 1) : Int) = 1 ∧ 0 ≤ d ∧
        d < (Int.lcm (p - 1) (q - 1) : Int)) := by
  constructor
  · intro h
    obtain ⟨⟨n, e, d, p, q, dmp1, dmq1, iqmp, h1, h2, h3, h4, h5, h6, h7, h8, h9, h10, h11, h12,
      h13, h14, h15, h16, -⟩, -⟩ := rsa_builtin_keygen_success env fuel s bits e_value s1 h
    exact ⟨e, d, p, q, h2, h3, h4, h5, h14, h15, h16⟩
  · intro hf h
    rcases fips_keygen_success env fuel s bits e_value s1 h with
      ⟨-, ⟨n, e, d, p, q, dmp1, dmq1, iqmp, h1, h2, h3, h4, h5, h6, h7, h8, h9, h10, h11, h12,
        h13, h14, h15, h16, -⟩, -⟩ | ⟨hn, -⟩
    · have hl : lam_fips p q = (Int.lcm (p - 1) (q - 1) : Int) :=
        lam_fips_eq_lcm p q (by omega) (by omega)
      rw [hl] at h14 h16
      exact ⟨e, d, p, q, h2, h3, h4, h5, hl, h14, h15, h16⟩
    · exact absurd hf hn

/-- Witness for C2: both generators succeed on a fresh key in `calm_env`. -/
theorem C2_witness :
    rsa_builtin_keygen calm_env 5 fresh_state 16 7 = some (1, general_final) ∧
    (∃ e d p q, general_final.rsa.e = some e ∧ general_final.rsa.d = some d ∧
      general_final.rsa.p = some p ∧ general_final.rsa.q = some q ∧
      (e * d) % ((p - 1) * (q - 1)) = 1 ∧ 0 ≤ d ∧ d < (p - 1) * (q - 1)) ∧
    Fresh fresh_state.rsa ∧
    fips_rsa_builtin_keygen calm_env 5 fresh_state 1024 65537 = some (1, fips_final) ∧
    (∃ e d p q, fips_final.rsa.e = some e ∧ fips_final.rsa.d = some d ∧
      fips_final.rsa.p = some p ∧ fips_final.rsa.q = some q ∧
      Int.tdiv (p - 1) (Int.gcd (p - 1) (q - 1) : Int) * (q - 1) =
        (Int.lcm (p - 1) (q - 1) : Int) ∧
      (e * d) % (Int.lcm (p - 1) (q - 1) : Int) = 1 ∧ 0 ≤ d ∧
      d < (Int.lcm (p - 1) (q - 1) : Int)) :=
  ⟨general_run,
    (C2_private_exponent_inverts_e calm_env 5 fresh_state 16 7 general_final).1 general_run,
    fresh_state_fresh, fips_run,
    (C2_private_exponent_inverts_e calm_env 5 fresh_state 1024 65537 fips_final).2
      fresh_state_fresh fips_run⟩

/-- C3: on every successful return of `rsa_builtin_keygen`, and of
`fips_rsa_builtin_keygen` on a fresh key, `dmp1 = d mod (p-1)`,
`dmq1 = d mod (q-1)` and `(iqmp * q) mod p = 1` for the factors as stored
after the swap. -/
theorem C3_crt_parameters (env : Env) (fuel : Nat) (s : St) (bits e_value : Int) (s1 : St) :
    (rsa_builtin_keygen env fuel s bits e_value = some (1, s1) →
      ∃ d p q dmp1 dmq1 iqmp, s1.rsa.d = some d ∧ s1.rsa.p = some p ∧ s1.rsa.q = some q ∧
        s1.rsa.dmp1 = some dmp1 ∧ s1.rsa.dmq1 = some dmq1 ∧ s1.rsa.iqmp = some iqmp ∧
        dmp1 = d % (p - 1) ∧ dmq1 = d % (q - 1) ∧ (iqmp * q) % p = 1) ∧
    (Fresh s.rsa → fips_rsa_builtin_keygen env fuel s bits e_value = some (1, s1) →
      ∃ d p q dmp1 dmq1 iqmp, s1.rsa.d = some d ∧ s1.rsa.p = some p ∧ s1.rsa.q = some q ∧
        s1.rsa.dmp1 = some dmp1 ∧ s1.rsa.dmq1 = some dmq1 ∧ s1.rsa.iqmp = some iqmp ∧
        dmp1 = d % (p - 1) ∧ dmq1 = d % (q - 1) ∧ (iqmp * q) % p = 1) := by
  constructor
  · intro h
    obtain ⟨⟨n, e, d, p, q, dmp1, dmq1, iqmp, h1, h2, h3, h4, h5, h6, h7, h8, h9, h10, h11, h12,
      h13, h14, h15, h16, h17, h18, h19, -⟩, -⟩ :=
      rsa_builtin_keygen_success env fuel s bits e_value s1 h
    exact ⟨d, p, q, dmp1, dmq1, iqmp, h3, h4, h5, h6, h7, h8, h17, h18, h19⟩
  · intro hf h
    rcases fips_keygen_success env fuel s bits e_value s1 h with
      ⟨-, ⟨n, e, d, p, q, dmp1, dmq1, iqmp, h1, h2, h3, h4, h5, h6, h7, h8, h9, h10, h11, h12,
        h13, h14, h15, h16, h17, h18, h19, -⟩, -⟩ | ⟨hn, -⟩
    · exact ⟨d, p, q, dmp1, dmq1, iqmp, h3, h4, h5, h6, h7, h8, h17, h18, h19⟩
    · exact absurd hf hn

/-- Witness for C3: both generators succeed on a fresh key in `calm_env`. -/
theorem C3_witness :
    rsa_builtin_keygen calm_env 5 fresh_state 16 7 = some (1, general_final) ∧
    (∃ d p q dmp1 dmq1 iqmp, general_final.rsa.d = some d ∧ general_final.rsa.p = some p ∧
      general_final.rsa.q = some q ∧ general_final.rsa.dmp1 = some dmp1 ∧
      general_final.rsa.dmq1 = some dmq1 ∧ general_final.rsa.iqmp = some iqmp ∧
      dmp1 = d % (p - 1) ∧ dmq1 = d % (q - 1) ∧ (iqmp * q) % p = 1) ∧
    Fresh fresh_state.rsa ∧
    fips_rsa_builtin_keygen calm_env 5 fresh_state 1024 65537 = some (1, fips_final) ∧
    (∃ d p q dmp1 dmq1 iqmp, fips_final.rsa.d = some d ∧ fips_final.rsa.p = some p ∧
      fips_final.rsa.q = some q ∧ fips_final.rsa.dmp1 = some dmp1 ∧
      fips_final.rsa.dmq1 = some dmq1 ∧ fips_final.rsa.iqmp = some iqmp ∧
      dmp1 = d % (p - 1) ∧ dmq1 = d % (q - 1) ∧ (iqmp * q) % p = 1) :=
  ⟨general_run, (C3_crt_parameters calm_env 5 fresh_state 16 7 general_final).1 general_run,
    fresh_state_fresh, fips_run,
    (C3_crt_parameters calm_env 5 fresh_state 1024 65537 fips_final).2 fresh_state_fresh
      fips_run⟩

/-- C5: on every successful return of `rsa_builtin_keygen`, and of
`fips_rsa_builtin_keygen` on a fresh key, the stored factors satisfy `p ≥ q`;
the swap step `swap_pq` that both run between the search and the derivation
exchanges `p` and `q` exactly when the first is smaller than the second and
otherwise leaves the key as it is, so the pair of values is preserved. -/
theorem C5_factors_ordered (env : Env) (fuel : Nat) (s : St) (bits e_value : Int) (s1 : St)
    (r : RSA) (a b : Int) :
    (rsa_builtin_keygen env fuel s bits e_value = some (1, s1) →
      ∃ p q, s1.rsa.p = some p ∧ s1.rsa.q = some q ∧ p ≥ q) ∧
    (Fresh s.rsa → fips_rsa_builtin_keygen env fuel s bits e_value = some (1, s1) →
      ∃ p q, s1.rsa.p = some p ∧ s1.rsa.q = some q ∧ p ≥ q) ∧
    (r.p = some a → r.q = some b →
      (a < b → swap_pq r = { r with p := some b, q := some a }) ∧
      (¬ a < b → swap_pq r = r)) := by
  refine ⟨?_, ?_, ?_⟩
  · intro h
    obtain ⟨⟨n, e, d, p, q, dmp1, dmq1, iqmp, h1, h2, h3, h4, h5, h6, h7, h8, h9, h10, h11,
      -⟩, -⟩ := rsa_builtin_keygen_success env fuel s bits e_value s1 h
    exact ⟨p, q, h4, h5, h11⟩
  · intro hf h
    rcases fips_keygen_success env fuel s bits e_value s1 h with
      ⟨-, ⟨n, e, d, p, q, dmp1, dmq1, iqmp, h1, h2, h3, h4, h5, h6, h7, h8, h9, h10, h11,
        -⟩, -⟩ | ⟨hn, -⟩
    · exact ⟨p, q, h4, h5, h11⟩
    · exact absurd hf hn
  · intro hp hq
    unfold swap_pq
    simp only [val, hp, hq, Option.getD_some]
    constructor
    · intro h
      rw [if_pos h]
    · intro h
      rw [if_neg h]

/-- Witness for C5: both generators succeed on a fresh key in `calm_env`, and
the swap is applied to a key holding 241 and 251. -/
theorem C5_witness :
    rsa_builtin_keygen calm_env 5 fresh_state 16 7 = some (1, general_final) ∧
    (∃ p q, general_final.rsa.p = some p ∧ general_final.rsa.q = some q ∧ p ≥ q) ∧
    Fresh fresh_state.rsa ∧
    fips_rsa_builtin_keygen calm_env 5 fresh_state 1024 65537 = some (1, fips_final) ∧
    (∃ p q, fips_final.rsa.p = some p ∧ fips_final.rsa.q = some q ∧ p ≥ q) ∧
    ({ null_rsa with p := some 241, q := some 251 } : RSA).p = some 241 ∧
    ({ null_rsa with p := some 241, q := some 251 } : RSA).q = some 251 ∧
    (((241 : Int) < 251 → swap_pq { null_rsa with p := some 241, q := some 251 } =
        { ({ null_rsa with p := some 241, q := some 251 } : RSA) with
          p := some 251, q := some 241 }) ∧
      (¬ (241 : Int) < 251 → swap_pq { null_rsa with p := some 241, q := some 251 } =
        { null_rsa with p := some 241, q := some 251 })) :=
  ⟨general_run,
    (C5_factors_ordered calm_env 5 fresh_state 16 7 general_final null_rsa 0 0).1 general_run,
    fresh_state_fresh, fips_run,
    (C5_factors_ordered calm_env 5 fresh_state 1024 65537 fips_final null_rsa 0 0).2.1
      fresh_state_fresh fips_run,
    rfl, rfl,
    (C5_factors_ordered calm_env 5 fresh_state 16 7 general_final
      { null_rsa with p := some 241, q := some 251 } 241 251).2.2 rfl rfl⟩

/-- C6, counterexample: started on a key that carries non-zero `p` and `q`,
`fips_rsa_builtin_keygen` returns success with `n` cleared to zero (not
`p * q`), with `d`, `dmp1`, `dmq1` and `iqmp` still the zeros of their
allocation, and without any call of `fips_check_rsa` in the trace. -/
theorem C6_counterexample :
    (fips_rsa_builtin_keygen calm_env 5 given_pq_state 1024 65537).map
        (fun r => (r.1, r.2.rsa.n, r.2.rsa.p, r.2.rsa.q)) =
      some (1, some 0, some (15 * 2 ^ 508 + 127), some (3 * 2 ^ 510 + 761)) ∧
    (fips_rsa_builtin_keygen calm_env 5 given_pq_state 1024 65537).map
        (fun r => (r.2.rsa.d, r.2.rsa.dmp1, r.2.rsa.dmq1, r.2.rsa.iqmp)) =
      some (some 0, some 0, some 0, some 0) ∧
    (fips_rsa_builtin_keygen calm_env 5 given_pq_state 1024 65537).map (fun r => r.2.trace) =
      some [Event.callback 3 1 true, Event.test (3 * 2 ^ 510 + 761) 5 1,
        Event.callback 3 0 true, Event.test (15 * 2 ^ 508 + 127) 5 1] ∧
    (0 : Int) ≠ (15 * 2 ^ 508 + 127) * (3 * 2 ^ 510 + 761) := by
  refine ⟨?_, ?_, ?_, ?_⟩
  · decide!
  · decide!
  · decide!
  · decide!

/-- C6, amended: when `fips_rsa_builtin_keygen` returns success on a fresh
key (`p` or `q` zero on entry), `n`, `d`, `dmp1`, `dmq1` and `iqmp` have been
computed from the returned `p` and `q`, and `fips_check_rsa` was the last
call made, on that very key, and accepted it; when it returns success on a
key that came with non-zero `p` and `q`, only `n` has been cleared, the other
components are as passed in, and the last call made is the second milestone
callback, not the validator. -/
theorem C6_success_is_full_or_check_only (env : Env) (fuel : Nat) (s : St)
    (bits e_value : Int) (s1 : St)
    (h : fips_rsa_builtin_keygen env fuel s bits e_value = some (1, s1)) :
    (Fresh s.rsa ∧ KeyRelations lam_fips s1.rsa ∧
        s1.trace.head? = some (Event.pairwise s1.rsa 1) ∧ PairwiseOK (env.pairwise s1.rsa)) ∨
      (¬ Fresh s.rsa ∧ TestResult e_value s.rsa s1.rsa ∧
        s1.trace.head? = some (Event.callback 3 1 true)) := by
  rcases fips_keygen_success env fuel s bits e_value s1 h with ⟨h1, h2, -, h3, h4⟩ | h5
  · exact Or.inl ⟨h1, h2, h3, h4⟩
  · exact Or.inr h5

/-- Witness for C6 (amended): the successful fresh run in `calm_env`. -/
theorem C6_witness :
    fips_rsa_builtin_keygen calm_env 5 fresh_state 1024 65537 = some (1, fips_final) ∧
    ((Fresh fresh_state.rsa ∧ KeyRelations lam_fips fips_final.rsa ∧
        fips_final.trace.head? = some (Event.pairwise fips_final.rsa 1) ∧
        PairwiseOK (calm_env.pairwise fips_final.rsa)) ∨
      (¬ Fresh fresh_state.rsa ∧ TestResult 65537 fresh_state.rsa fips_final.rsa ∧
        fips_final.trace.head? = some (Event.callback 3 1 true))) :=
  ⟨fips_run, C6_success_is_full_or_check_only calm_env 5 fresh_state 1024 65537 fips_final
    fips_run⟩

/-- C9, counterexample: with a floor of 1024 bits, the odd length 1025 is not
rejected: its half 512 is a multiple of 256, and the run on a fresh key
returns success after drawing two candidates. -/
theorem C9_counterexample :
    (fips_rsa_builtin_keygen calm_env 5 fresh_state 1025 65537).map
        (fun r => (r.1, r.2.errs, r.2.ndraw)) = some (1, [], 2) ∧
    (1025 : Int) % 2 = 1 ∧ ¬ (1025 : Int) < calm_env.min_modulus_bits := by
  refine ⟨?_, ?_, ?_⟩
  · decide!
  · decide
  · decide

/-- C9, amended: `fips_rsa_builtin_keygen` tests the half `bits / 2`, not the
parity of `bits`: for every `bits` that passes the size floor and whose half
is not a multiple of 256, with the self-test flag clear, it returns 0 with
`FIPS_R_INVALID_KEY_LENGTH` queued and nothing else changed (no draw, no
callback, the key untouched). -/
theorem C9_half_not_multiple_of_256_rejected (env : Env) (fuel : Nat) (s : St)
    (bits e_value : Int) (hst : s.selftest_failed = false)
    (hsize : ¬ (bits < env.min_modulus_bits ∨ (env.enforce_modulus_bits = true ∧ bits < 2048)))
    (hhalf : Int.tdiv bits 2 % 256 ≠ 0) :
    fips_rsa_builtin_keygen env fuel s bits e_value =
      some (0, { s with errs := ⟨Lib.FIPS, Func.FIPS_RSA_BUILTIN_KEYGEN,
        Reason.FIPS_R_INVALID_KEY_LENGTH⟩ :: s.errs }) := by
  unfold fips_rsa_builtin_keygen
  simp only [fips_rsa_builtin_keygen_body, bind_apply, get_st_apply, andThen_next, M_ite_apply,
    put_error_apply, goto_err_apply, hst, if_neg hsize, if_pos hhalf, finish]
  simp

/-- Witness for C9 (amended): 1027 bits on a fresh state in `calm_env`. -/
theorem C9_witness :
    fresh_state.selftest_failed = false ∧
    ¬ ((1027 : Int) < calm_env.min_modulus_bits ∨
      (calm_env.enforce_modulus_bits = true ∧ (1027 : Int) < 2048)) ∧
    Int.tdiv 1027 2 % 256 ≠ 0 ∧
    fips_rsa_builtin_keygen calm_env 5 fresh_state 1027 65537 =
      some (0, { fresh_state with errs := ⟨Lib.FIPS, Func.FIPS_RSA_BUILTIN_KEYGEN,
        Reason.FIPS_R_INVALID_KEY_LENGTH⟩ :: fresh_state.errs }) :=
  ⟨rfl, by decide, by decide,
    C9_half_not_multiple_of_256_rejected calm_env 5 fresh_state 1027 65537 rfl (by decide)
      (by decide)⟩

/-- C10: `rsa_builtin_keygen` returns the "key size too small" error if and
only if `bits < 16`; when it does, the only change to the state is that
error on the queue: nothing is drawn, no callback is invoked and the key
object is unchanged. -/
theorem C10_key_too_small_iff_below_16 (env : Env) (fuel : Nat) (s : St)
    (bits e_value : Int) (s1 : St) :
    (bits < 16 →
      rsa_builtin_keygen env fuel s bits e_value =
        some (0, { s with errs := ⟨Lib.RSA, Func.RSA_BUILTIN_KEYGEN,
          Reason.RSA_R_KEY_SIZE_TOO_SMALL⟩ :: s.errs })) ∧
    (rsa_builtin_keygen env fuel s bits e_value = some (0, s1) →
      s1.errs.head? = some ⟨Lib.RSA, Func.RSA_BUILTIN_KEYGEN, Reason.RSA_R_KEY_SIZE_TOO_SMALL⟩ →
      bits < 16) := by
  constructor
  · intro hbits
    unfold rsa_builtin_keygen
    simp only [rsa_builtin_keygen_body, if_pos hbits, bind_apply, put_error_apply,
      andThen_next, goto_err_apply, finish]
    simp
  · intro h hhead
    by_contra hbits
    unfold rsa_builtin_keygen at h
    have hs := rsa_builtin_keygen_body_spec env fuel bits e_value (fun _ => True)
      (fun _ _ _ => trivial) hbits s
    rcases finish_cases _ _ _ _ h with ⟨h1, -⟩ | ⟨s2, hr, h0, hs1⟩ | ⟨ok, hok, hr, -⟩
    · omega
    · rw [hs1] at hhead
      simp at hhead
    · rw [hr] at hs
      exact absurd hs.1 hok

/-- Witness for C10: 15 bits on a fresh state in `calm_env`. -/
theorem C10_witness :
    (15 : Int) < 16 ∧
    rsa_builtin_keygen calm_env 5 fresh_state 15 7 =
      some (0, { fresh_state with errs := ⟨Lib.RSA, Func.RSA_BUILTIN_KEYGEN,
        Reason.RSA_R_KEY_SIZE_TOO_SMALL⟩ :: fresh_state.errs }) ∧
    ({ fresh_state with errs := ⟨Lib.RSA, Func.RSA_BUILTIN_KEYGEN,
        Reason.RSA_R_KEY_SIZE_TOO_SMALL⟩ :: fresh_state.errs } : St).errs.head? =
      some ⟨Lib.RSA, Func.RSA_BUILTIN_KEYGEN, Reason.RSA_R_KEY_SIZE_TOO_SMALL⟩ ∧
    (15 : Int) < 16 :=
  ⟨by decide,
    (C10_key_too_small_iff_below_16 calm_env 5 fresh_state 15 7 fresh_state).1 (by decide),
    rfl,
    (C10_key_too_small_iff_below_16 calm_env 5 fresh_state 15 7
      { fresh_state with errs := ⟨Lib.RSA, Func.RSA_BUILTIN_KEYGEN,
        Reason.RSA_R_KEY_SIZE_TOO_SMALL⟩ :: fresh_state.errs }).2
      ((C10_key_too_small_iff_below_16 calm_env 5 fresh_state 15 7 fresh_state).1 (by decide))
      rfl⟩

theorem crt_exponent_inverts (e d lam m : Int) (hm : m ∣ lam) (h : (e * d) % lam = 1) :
    (e * (d % m)) % m = 1 % m := by
  have h1 : (e * (d % m)) % m = (e * d) % m := by
    rw [Int.mul_emod, Int.emod_emod, ← Int.mul_emod]
  rw [h1, ← Int.emod_emod_of_dvd (e * d) hm, h]

theorem crt_exponents_of_relations (lam : Int → Int → Int) (r : RSA)
    (hp : ∀ p q : Int, 2 ≤ q → q ≤ p → (p - 1) ∣ lam p q)
    (hq : ∀ p q : Int, 2 ≤ q → q ≤ p → (q - 1) ∣ lam p q)
    (h : KeyRelations lam r) :
    ∃ e p q dmp1 dmq1, r.e = some e ∧ r.p = some p ∧ r.q = some q ∧
      r.dmp1 = some dmp1 ∧ r.dmq1 = some dmq1 ∧
      (e * dmp1) % (p - 1) = 1 % (p - 1) ∧ (e * dmq1) % (q - 1) = 1 % (q - 1) := by
  obtain ⟨n, e, d, p, q, dmp1, dmq1, iqmp, h1, h2, h3, h4, h5, h6, h7, h8, h9, h10, h11, h12,
    h13, h14, h15, h16, h17, h18, -⟩ := h
  refine ⟨e, p, q, dmp1, dmq1, h2, h4, h5, h6, h7, ?_, ?_⟩
  · rw [h17]
    exact crt_exponent_inverts e d _ _ (hp p q h12 h11) h14
  · rw [h18]
    exact crt_exponent_inverts e d _ _ (hq p q h12 h11) h14

theorem lam_fips_dvd (p q : Int) (hq : 2 ≤ q) (hpq : q ≤ p) :
    (p - 1) ∣ lam_fips p q ∧ (q - 1) ∣ lam_fips p q := by
  rw [lam_fips_eq_lcm p q (by omega) (by omega)]
  exact ⟨Int.dvd_lcm_left, Int.dvd_lcm_right⟩

/-- C18: on every successful return of `rsa_builtin_keygen`, and of
`fips_rsa_builtin_keygen` on a fresh key, the CRT exponents invert `e`:
`(e * dmp1) mod (p-1) = 1 mod (p-1)` and `(e * dmq1) mod (q-1) = 1 mod (q-1)`,
for either modulus used to compute `d`. -/
theorem C18_crt_exponents_invert_e (env : Env) (fuel : Nat) (s : St) (bits e_value : Int)
    (s1 : St) :
    (rsa_builtin_keygen env fuel s bits e_value = some (1, s1) →
      ∃ e p q dmp1 dmq1, s1.rsa.e = some e ∧ s1.rsa.p = some p ∧ s1.rsa.q = some q ∧
        s1.rsa.dmp1 = some dmp1 ∧ s1.rsa.dmq1 = some dmq1 ∧
        (e * dmp1) % (p - 1) = 1 % (p - 1) ∧ (e * dmq1) % (q - 1) = 1 % (q - 1)) ∧
    (Fresh s.rsa → fips_rsa_builtin_keygen env fuel s bits e_value = some (1, s1) →
      ∃ e p q dmp1 dmq1, s1.rsa.e = some e ∧ s1.rsa.p = some p ∧ s1.rsa.q = some q ∧
        s1.rsa.dmp1 = some dmp1 ∧ s1.rsa.dmq1 = some dmq1 ∧
        (e * dmp1) % (p - 1) = 1 % (p - 1) ∧ (e * dmq1) % (q - 1) = 1 % (q - 1)) := by
  constructor
  · intro h
    exact crt_exponents_of_relations _ _ (fun p q _ _ => Dvd.intro _ rfl)
      (fun p q _ _ => Dvd.intro_left _ rfl)
      (rsa_builtin_keygen_success env fuel s bits e_value s1 h).1
  · intro hf h
    rcases fips_keygen_success env fuel s bits e_value s1 h with ⟨-, hk, -⟩ | ⟨hn, -⟩
    · exact crt_exponents_of_relations _ _ (fun p q h1 h2 => (lam_fips_dvd p q h1 h2).1)
        (fun p q h1 h2 => (lam_fips_dvd p q h1 h2).2) hk
    · exact absurd hf hn

/-- Witness for C18: both generators succeed on a fresh key in `calm_env`. -/
theorem C18_witness :
    rsa_builtin_keygen calm_env 5 fresh_state 16 7 = some (1, general_final) ∧
    (∃ e p q dmp1 dmq1, general_final.rsa.e = some e ∧ general_final.rsa.p = some p ∧
      general_final.rsa.q = some q ∧ general_final.rsa.dmp1 = some dmp1 ∧
      general_final.rsa.dmq1 = some dmq1 ∧
      (e * dmp1) % (p - 1) = 1 % (p - 1) ∧ (e * dmq1) % (q - 1) = 1 % (q - 1)) ∧
    Fresh fresh_state.rsa ∧
    fips_rsa_builtin_keygen calm_env 5 fresh_state 1024 65537 = some (1, fips_final) ∧
    (∃ e p q dmp1 dmq1, fips_final.rsa.e = some e ∧ fips_final.rsa.p = some p ∧
      fips_final.rsa.q = some q ∧ fips_final.rsa.dmp1 = some dmp1 ∧
      fips_final.rsa.dmq1 = some dmq1 ∧
      (e * dmp1) % (p - 1) = 1 % (p - 1) ∧ (e * dmq1) % (q - 1) = 1 % (q - 1)) :=
  ⟨general_run,
    (C18_crt_exponents_invert_e calm_env 5 fresh_state 16 7 general_final).1 general_run,
    fresh_state_fresh, fips_run,
    (C18_crt_exponents_invert_e calm_env 5 fresh_state 1024 65537 fips_final).2
      fresh_state_fresh fips_run⟩

theorem ctx_setup_run (env : Env) (hf : ∀ k, env.fail k = false) (s : St) :
    ctx_setup env s = Res.next () { s with nops := s.nops + 1 + 1 + 1 + 1 + 1 } := by
  simp [ctx_setup, bind_apply, lib_apply, lib_call_apply, hf, goto_err_apply, pure_apply]

theorem ensure_run (env : Env) (hf : ∀ k, env.fail k = false) (get : RSA → Option Int)
    (set : RSA → RSA) (s : St) : ∃ s1, ensure env get set s = Res.next () s1 := by
  simp only [ensure, bind_apply, get_st_apply, andThen_next, M_ite_apply, lib_apply,
    andThen_ite, andThen_jump, set_rsa_apply, pure_apply, hf]
  by_cases hn : (get s.rsa).isNone = true
  · rw [if_pos hn]
    simp
  · rw [if_neg hn]
    exact ⟨s, rfl⟩

theorem alloc_components_run (env : Env) (hf : ∀ k, env.fail k = false) (s : St) :
    ∃ s1, alloc_components env s = Res.next () s1 ∧ Quiet s s1 ∧ Allocated s.rsa s1.rsa := by
  have key : ∃ s1, alloc_components env s = Res.next () s1 := by
    unfold alloc_components
    obtain ⟨s1, h1⟩ := ensure_run env hf (fun r => r.n) (fun r => { r with n := some 0 }) s
    simp only [bind_apply, h1, andThen_next]
    obtain ⟨s2, h2⟩ := ensure_run env hf (fun r => r.d) (fun r => { r with d := some 0 }) s1
    simp only [bind_apply, h2, andThen_next]
    obtain ⟨s3, h3⟩ := ensure_run env hf (fun r => r.e) (fun r => { r with e := some 0 }) s2
    simp only [bind_apply, h3, andThen_next]
    obtain ⟨s4, h4⟩ := ensure_run env hf (fun r => r.p) (fun r => { r with p := some 0 }) s3
    simp only [bind_apply, h4, andThen_next]
    obtain ⟨s5, h5⟩ := ensure_run env hf (fun r => r.q) (fun r => { r with q := some 0 }) s4
    simp only [bind_apply, h5, andThen_next]
    obtain ⟨s6, h6⟩ := ensure_run env hf (fun r => r.dmp1) (fun r => { r with dmp1 := some 0 }) s5
    simp only [bind_apply, h6, andThen_next]
    obtain ⟨s7, h7⟩ := ensure_run env hf (fun r => r.dmq1) (fun r => { r with dmq1 := some 0 }) s6
    simp only [bind_apply, h7, andThen_next]
    exact ensure_run env hf (fun r => r.iqmp) (fun r => { r with iqmp := some 0 }) s7
  obtain ⟨s1, h1⟩ := key
  have hs := alloc_components_spec env s
  rw [h1] at hs
  exact ⟨s1, h1, hs.1, hs.2⟩

theorem even_gcd_ne_one (x e : Int) (hx : x % 2 = 1) (he : e % 2 = 0) :
    Int.gcd (x - 1) e ≠ 1 := by
  intro h
  have h1 : (2 : Int) ∣ x - 1 := Int.dvd_of_emod_eq_zero (by omega)
  have h2 : (2 : Int) ∣ e := Int.dvd_of_emod_eq_zero he
  have h3 : (2 : Int) ∣ (Int.gcd (x - 1) e : Int) := Int.dvd_gcd h1 h2
  rw [h] at h3
  omega

theorem gen_p_loop_even (env : Env) (bitsp e : Int) (he : e % 2 = 0) (he0 : e ≠ 0)
    (hodd : ∀ k b, env.gen_prime k b % 2 = 1) (hf : ∀ k, env.fail k = false)
    (hcb : ∀ k a b, env.cb k a b = true) :
    ∀ (fuel : Nat) (n : Int) (s : St), s.rsa.e = some e →
      gen_p_loop env bitsp fuel n s = Res.spin := by
  intro fuel
  induction fuel with
  | zero => intro n s _; rfl
  | succ k ih =>
    intro n s hse
    have hg : Int.gcd ((env.gen_prime s.ndraw bitsp : Int) - 1) e ≠ 1 :=
      even_gcd_ne_one _ e (by have := hodd s.ndraw bitsp; omega) he
    simp only [gen_p_loop, bind_apply, BN_generate_prime_ex_apply, lib_apply, get_st_apply,
      BN_mod_inverse_apply, andThen_ite, andThen_next, andThen_jump, BN_GENCB_call_apply,
      M_ite_apply, pop_to_mark_apply, goto_err_apply, pure_apply, hf, hcb, val, hse,
      Option.getD_some, if_neg he0, if_neg hg, Bool.false_eq_true, if_false, if_true,
      is_no_inverse, List.head?_cons, decide_True, Bool.and_self]
    exact ih (n + 1) _ rfl

/-- C20: with an even public exponent and a prime generator that yields odd
candidates, `rsa_builtin_keygen` never returns success for `bits ≥ 16`; no
exponent check rejects `e` up front: whenever it returns, it returns 0 with
the generic error of the label `err`; and when no library call fails, the
callback never aborts and `e ≠ 0`, the search for `p` does not end, whatever
the fuel. -/
theorem C20_even_exponent_never_succeeds (env : Env) (fuel : Nat) (s : St)
    (bits e_value : Int) (he : e_value % 2 = 0)
    (hodd : ∀ k b, env.gen_prime k b % 2 = 1) (hbits : ¬ bits < 16) :
    (∀ s1, rsa_builtin_keygen env fuel s bits e_value ≠ some (1, s1)) ∧
    (∀ ret s1, rsa_builtin_keygen env fuel s bits e_value = some (ret, s1) →
      ret = 0 ∧ s1.errs.head? = some (generic_error Func.RSA_BUILTIN_KEYGEN)) ∧
    (e_value ≠ 0 → (∀ k, env.fail k = false) → (∀ k a b, env.cb k a b = true) →
      rsa_builtin_keygen env fuel s bits e_value = none) := by
  have hs := rsa_builtin_keygen_body_spec env fuel bits e_value (fun x => x % 2 = 1)
    (fun k b _ => by have := hodd k b; omega) hbits s
  have nosucc : ∀ s1, rsa_builtin_keygen env fuel s bits e_value ≠ some (1, s1) := by
    intro s1 h
    unfold rsa_builtin_keygen at h
    rcases finish_cases _ _ _ _ h with ⟨-, hr⟩ | ⟨s2, hr, h0, -⟩ | ⟨ok, hok, hr, h1⟩
    · rw [hr] at hs
      obtain ⟨⟨-, -, p, q, -, -, -, g1, -, g2, -⟩, -⟩ := hs
      exact even_gcd_ne_one p e_value g1 he g2
    · omega
    · rw [hr] at hs
      exact absurd hs.1 hok
  refine ⟨nosucc, ?_, ?_⟩
  · intro ret s1 h
    have h' := h
    unfold rsa_builtin_keygen at h
    rcases finish_cases _ _ _ _ h with ⟨h1, -⟩ | ⟨s2, hr, h0, hs1⟩ | ⟨ok, hok, hr, -⟩
    · rw [h1] at h'
      exact absurd h' (nosucc s1)
    · rw [hs1]
      exact ⟨h0, rfl⟩
    · rw [hr] at hs
      exact absurd hs.1 hok
  · intro he0 hf hcb
    unfold rsa_builtin_keygen
    obtain ⟨s1, h1, -, ha⟩ := alloc_components_run env hf
      { s with nops := s.nops + 1 + 1 + 1 + 1 + 1 }
    simp only [rsa_builtin_keygen_body, if_neg hbits, bind_apply, ctx_setup_run env hf,
      andThen_next, h1, lib_apply, hf, set_rsa_apply, Bool.false_eq_true, if_false]
    rw [gen_p_loop_even env _ e_value he he0 hodd hf hcb fuel 0 _ rfl]
    rfl

theorem fips_body_exits (env : Env) (fuel : Nat) (bits : Int) (e_value : Int) (s : St) :
    (fips_rsa_builtin_keygen_body env fuel bits e_value s).sat
      (fun _ _ => ¬ bad_exponent e_value)
      (fun ok s1 => (ok = 0 → ZeroExit env bits e_value s s1 ∧ Untouched s s1 ∧
          val s1.rsa.e = val s.rsa.e) ∧
        (bad_exponent e_value → ok ≠ 1 ∧ Untouched s s1)) := by
  simp only [fips_rsa_builtin_keygen_body, bind_apply, get_st_apply, andThen_next, M_ite_apply,
    put_error_apply, goto_err_apply]
  have un : ∀ l, Untouched s { s with errs := l } := fun l => ⟨rfl, rfl, rfl, rfl⟩
  refine sat_ite (fun h1 => ?_) (fun h1 => ?_)
  · exact ⟨fun _ => ⟨Or.inl ⟨h1, rfl⟩, un _, rfl⟩, fun _ => ⟨by decide, un _⟩⟩
  have h1 : s.selftest_failed = false := by simpa using h1
  refine sat_ite (fun h2 => ?_) (fun h2 => ?_)
  · exact ⟨fun _ => ⟨Or.inr (Or.inl ⟨h1, h2, rfl⟩), un _, rfl⟩, fun _ => ⟨by decide, un _⟩⟩
  refine sat_ite (fun h3 => ?_) (fun h3 => ?_)
  · exact ⟨fun _ => ⟨Or.inr (Or.inr (Or.inl ⟨h1, h2, h3, rfl⟩)), un _, rfl⟩,
      fun _ => ⟨by decide, un _⟩⟩
  have h3 : Int.tdiv bits 2 % 256 = 0 := by simpa using h3
  have quiet : ∀ s1 : St, Quiet s s1 → Untouched s s1 := by
    rintro s1 ⟨-, -, q1, q2, q3, q4⟩
    exact ⟨q1, q3, q2, q4⟩
  refine sat_andThen (ctx_setup_spec env s) ?_ ?_
  swap
  · rintro ok s1 ⟨h0, hq, hr⟩
    rw [h0]
    exact ⟨fun h => absurd h (by decide), fun _ => ⟨by decide, quiet s1 hq⟩⟩
  rintro _ s1 ⟨q1, hr1⟩
  refine sat_andThen (alloc_components_spec env s1) ?_ ?_
  swap
  · rintro ok s2 ⟨h0, hq⟩
    rw [h0]
    exact ⟨fun h => absurd h (by decide), fun _ => ⟨by decide, quiet s2 (q1.trans_quiet hq)⟩⟩
  rintro _ s2 ⟨q2, ha⟩
  rw [hr1] at ha
  have q2 := q1.trans_quiet q2
  simp only [bind_apply, lib_apply, andThen_ite, andThen_jump, andThen_next, put_error_apply,
    M_ite_apply, ite_apply, goto_err_apply, BN_lshift_apply, lib_call_apply, set_rsa_apply,
    pure_apply, get_st_apply]
  obtain ⟨a1, a2, a3, a4, a5, a6, a7, a8⟩ := ha
  have hve : val s2.rsa.e = val s.rsa.e := by rw [a2]; rfl
  have hun : ∀ l k, Untouched s { s2 with errs := l, nops := k } := by
    intro l k
    obtain ⟨-, -, q1, q2, q3, q4⟩ := q2
    exact ⟨q1, q3, q2, q4⟩
  have hr0 : ∀ k : Nat, (2 : Int) ≤ 3037000500 * 2 ^ k := by
    intro k
    have : (1 : Int) ≤ 2 ^ k := one_le_pow₀ (by norm_num)
    nlinarith
  have hr3 : ∀ k : Nat, (1 : Int) * 2 ^ k ≠ 0 := by
    intro k
    positivity
  refine sat_ite (fun _ => ?_) (fun _ => ?_)
  · exact ⟨fun h => absurd h (by decide), fun _ => ⟨by decide, hun _ _⟩⟩
  refine sat_ite (fun hb => ?_) (fun hb => ?_)
  · refine ⟨fun _ => ⟨Or.inr (Or.inr (Or.inr ⟨⟨h1, h2, h3⟩, hb, ?_⟩)), hun _ _, hve⟩,
      fun _ => ⟨by decide, hun _ _⟩⟩
    show _ :: s2.errs = _
    rw [q2.1]
    rfl
  have jm : ∀ s3 : St, (((-1 : Int) = 0 → ZeroExit env bits e_value s s3 ∧ Untouched s s3 ∧
        val s3.rsa.e = val s.rsa.e) ∧
      (bad_exponent e_value → (-1 : Int) ≠ 1 ∧ Untouched s s3)) :=
    fun s3 => ⟨fun h => absurd h (by decide), fun h => absurd h hb⟩
  refine sat_ite (fun _ => jm _) (fun _ => ?_)
  refine sat_ite (fun _ => jm _) (fun _ => ?_)
  refine sat_ite (fun _ => jm _) (fun _ => ?_)
  refine sat_ite (fun _ => jm _) (fun _ => ?_)
  refine sat_ite (fun _ => jm _) (fun _ => ?_)
  refine sat_ite (fun _ => jm _) (fun _ => ?_)
  have fin : ∀ (e0 : Int) (s3 : St) (r : Regs), s3.rsa.e = some e0 →
      s3.rsa.p = s2.rsa.p → s3.rsa.q = s2.rsa.q → 2 ≤ r.r0 → r.r3 ≠ 0 →
      (fips_generate env (decide (val s3.rsa.p ≠ 0) && decide (val s3.rsa.q ≠ 0))
        (Int.tdiv bits 2) fuel fuel 0 r s3).sat (fun _ _ => ¬ bad_exponent e_value)
        (fun ok s1 => (ok = 0 → ZeroExit env bits e_value s s1 ∧ Untouched s s1 ∧
          val s1.rsa.e = val s.rsa.e) ∧
          (bad_exponent e_value → ok ≠ 1 ∧ Untouched s s1)) := by
    intro e0 s3 r he hp hq hr0 hr3
    refine sat_mono (fips_generate_spec env _ _ fuel e0 fuel 0 r s3 he ⟨_, hp.trans a4⟩
      ⟨_, hq.trans a5⟩ hr0 hr3) (fun _ _ _ => hb) ?_
    rintro ok s4 ⟨c1, -⟩
    refine ⟨fun h0 => ?_, fun h => absurd h hb⟩
    rcases c1 with c1 | ⟨c1, -⟩ <;> omega
  refine sat_ite (fun _ => ?_) (fun _ => ?_)
  · exact fin e_value
      { s2 with rsa := { s2.rsa with e := some e_value }, nops := s2.nops + 1 + 1 + 1 + 1 + 1 + 1 }
      ⟨3037000500 * 2 ^ (Int.tdiv bits 2 - 32).toNat, 0, 0, 1 * 2 ^ (Int.tdiv bits 2 - 100).toNat⟩
      rfl rfl rfl (hr0 _) (hr3 _)
  · exact fin _ { s2 with nops := s2.nops + 1 + 1 + 1 + 1 + 1 + 1 }
      ⟨3037000500 * 2 ^ (Int.tdiv bits 2 - 32).toNat, 0, 0, 1 * 2 ^ (Int.tdiv bits 2 - 100).toNat⟩
      a2 rfl rfl (hr0 _) (hr3 _)

theorem fips_bad_exponent_run (env : Env) (fuel : Nat) (s : St) (bits e_value : Int)
    (hc : size_checks_pass env s bits) (hb : bad_exponent e_value)
    (hf : ∀ k, env.fail k = false) :
    ∃ s1, fips_rsa_builtin_keygen env fuel s bits e_value = some (0, s1) ∧
      s1.errs = bad_e_error :: s.errs ∧ Untouched s s1 ∧ s1.rsa.e = some (val s.rsa.e) := by
  obtain ⟨h1, h2, h3⟩ := hc
  have hb' : e_value < 65537 ∨ BN_num_bits e_value > 256 := hb
  obtain ⟨s1, hs1, hq, ha⟩ := alloc_components_run env hf
    { s with nops := s.nops + 1 + 1 + 1 + 1 + 1 }
  unfold fips_rsa_builtin_keygen
  have h1' : ¬ (s.selftest_failed = true) := by simp [h1]
  simp only [fips_rsa_builtin_keygen_body, bind_apply, get_st_apply, andThen_next, M_ite_apply,
    put_error_apply, goto_err_apply, if_neg h1', if_neg h2, if_neg (not_not.mpr h3),
    ctx_setup_run env hf, hs1, lib_apply, hf, if_pos hb', Bool.false_eq_true, if_false, finish]
  obtain ⟨q0, -, q1, q2, q3, q4⟩ := hq
  obtain ⟨-, a2, -⟩ := ha
  exact ⟨_, rfl, by show _ :: s1.errs = _; rw [q0]; rfl, ⟨q1, q3, q2, q4⟩, a2⟩

/-- C11: for every `bits` that passes the size checks of
`fips_rsa_builtin_keygen`, an exponent with `e < 65537` or more than 256
bits is rejected with `RSA_R_BAD_E_VALUE`: when no library call fails the
function returns 0 with that entry queued, nothing drawn, tested or called
back, and the key's `e` still the value it held on entry; whatever the
library does, the function returns only 0 and draws nothing.  For every
other exponent it never returns 0 with `RSA_R_BAD_E_VALUE` on top of the
queue. -/
theorem C11_bad_exponent_rejected_before_search (env : Env) (fuel : Nat) (s : St)
    (bits e_value : Int) (hc : size_checks_pass env s bits) :
    (bad_exponent e_value → (∀ k, env.fail k = false) →
      ∃ s1, fips_rsa_builtin_keygen env fuel s bits e_value = some (0, s1) ∧
        s1.errs = bad_e_error :: s.errs ∧ Untouched s s1 ∧ s1.rsa.e = some (val s.rsa.e)) ∧
    (bad_exponent e_value → ∀ ret s1,
      fips_rsa_builtin_keygen env fuel s bits e_value = some (ret, s1) →
      ret = 0 ∧ Untouched s s1 ∧
        (s1.errs.head? = some bad_e_error ∨
          s1.errs.head? = some (generic_error Func.FIPS_RSA_BUILTIN_KEYGEN))) ∧
    (¬ bad_exponent e_value → ∀ ret s1,
      fips_rsa_builtin_keygen env fuel s bits e_value = some (ret, s1) →
      ¬ (ret = 0 ∧ s1.errs.head? = some bad_e_error)) := by
  have hs := fips_body_exits env fuel bits e_value s
  obtain ⟨c1, c2, c3⟩ := hc
  refine ⟨fun hb hf => fips_bad_exponent_run env fuel s bits e_value ⟨c1, c2, c3⟩ hb hf,
    fun hb ret s1 h => ?_, fun hb ret s1 h => ?_⟩
  · unfold fips_rsa_builtin_keygen at h
    rcases finish_cases _ _ _ _ h with ⟨-, hr⟩ | ⟨s2, hr, h0, hs1⟩ | ⟨ok, hok, hr, hret⟩
    · rw [hr] at hs
      exact absurd hb hs
    · rw [hr] at hs
      obtain ⟨-, g⟩ := hs
      rw [hs1]
      exact ⟨h0, (g hb).2, Or.inr rfl⟩
    · rw [hr] at hs
      obtain ⟨g1, g2⟩ := hs
      obtain ⟨g3, g4⟩ := g2 hb
      have hk : ok = 0 ∨ ok ≠ 0 := by omega
      rcases hk with hk | hk
      · obtain ⟨z, -, -⟩ := g1 hk
        rw [hret, hk]
        refine ⟨rfl, g4, Or.inl ?_⟩
        rcases z with ⟨z1, -⟩ | ⟨-, z2, -⟩ | ⟨-, -, z3, -⟩ | ⟨-, -, z4⟩
        · rw [c1] at z1
          exact absurd z1 (by decide)
        · exact absurd z2 c2
        · exact absurd c3 z3
        · rw [z4]
          rfl
      · have hs2 := fips_body_spec env fuel bits e_value s
        rw [hr] at hs2
        rcases hs2.1 with z | ⟨z, -⟩ | ⟨z, -⟩ <;> omega
  · rintro ⟨h0, hhead⟩
    unfold fips_rsa_builtin_keygen at h
    rcases finish_cases _ _ _ _ h with ⟨h1, -⟩ | ⟨s2, hr, -, hs1⟩ | ⟨ok, hok, hr, hret⟩
    · omega
    · rw [hs1] at hhead
      simp [bad_e_error] at hhead
    · rw [hr] at hs
      obtain ⟨g1, -⟩ := hs
      obtain ⟨z, -, -⟩ := g1 (by omega)
      rcases z with ⟨z1, -⟩ | ⟨-, z2, -⟩ | ⟨-, -, z3, -⟩ | ⟨-, z4, -⟩
      · rw [c1] at z1
        exact absurd z1 (by decide)
      · exact absurd z2 c2
      · exact absurd c3 z3
      · exact absurd z4 hb

theorem inverse_unique (e x y L : Int) (hx0 : 0 ≤ x) (hx : x < L) (hy0 : 0 ≤ y)
    (hy : y < L) (h1 : (e * x) % L = 1 % L) (h2 : (e * y) % L = 1 % L) : x = y := by
  have m1 : e * x ≡ 1 [ZMOD L] := h1
  have m2 : e * y ≡ 1 [ZMOD L] := h2
  have m3 : x * 1 ≡ x * (e * y) [ZMOD L] := (m2.symm).mul_left x
  have m4 : e * x * y ≡ 1 * y [ZMOD L] := m1.mul_right y
  have m5 : x ≡ y [ZMOD L] := by
    have e1 : x * (e * y) = e * x * y := by ring
    rw [mul_one, e1] at m3
    rw [one_mul] at m4
    exact m3.trans m4
  have m6 : x % L = y % L := m5
  rw [Int.emod_eq_of_lt hx0 hx, Int.emod_eq_of_lt hy0 hy] at m6
  exact m6

theorem fips_exponent_is_reduction (e p q : Int) (hq : 2 ≤ q) (hpq : q < p)
    (hg : Int.gcd e ((p - 1) * (q - 1)) = 1) (hf : Int.gcd e (lam_fips p q) = 1) :
    mod_inverse_val e (lam_fips p q) =
      mod_inverse_val e ((p - 1) * (q - 1)) % (Int.lcm (p - 1) (q - 1) : Int) ∧
    0 ≤ mod_inverse_val e ((p - 1) * (q - 1)) ∧ 0 ≤ mod_inverse_val e (lam_fips p q) ∧
    (mod_inverse_val e (lam_fips p q) = mod_inverse_val e ((p - 1) * (q - 1)) ↔
      mod_inverse_val e ((p - 1) * (q - 1)) < (Int.lcm (p - 1) (q - 1) : Int)) := by
  have hl := lam_fips_eq_lcm p q (by omega) (by omega)
  have hL2 := lam_fips_ge p q hq hpq
  obtain ⟨g1, g2, g3⟩ := inverse_facts e _ (lam_general_gt p q hq hpq) hg
  obtain ⟨f1, f2, f3⟩ := inverse_facts e _ (by omega) hf
  generalize mod_inverse_val e ((p - 1) * (q - 1)) = dg at g1 g2 g3 ⊢
  generalize mod_inverse_val e (lam_fips p q) = df at f1 f2 f3 ⊢
  rw [hl] at f2 f3 hL2
  generalize hLdef : (Int.lcm (p - 1) (q - 1) : Int) = L at f2 f3 hL2 ⊢
  have hdvd : L ∣ (p - 1) * (q - 1) := by
    rw [← hLdef]
    exact Int.lcm_dvd (Dvd.intro _ rfl) (Dvd.intro_left _ rfl)
  have hred : (e * (dg % L)) % L = 1 % L := crt_exponent_inverts e dg _ L hdvd g3
  have h1L : (1 : Int) % L = 1 := Int.emod_eq_of_lt (by omega) (by omega)
  have key : df = dg % L :=
    inverse_unique e df (dg % L) L f1 f2 (Int.emod_nonneg _ (by omega))
      (Int.emod_lt_of_pos _ (by omega)) (by rw [f3, h1L]) hred
  refine ⟨key, g1, f1, ?_, ?_⟩
  · intro h
    rw [← h]
    exact f2
  · intro h
    rw [key]
    exact Int.emod_eq_of_lt g1 h

theorem emod_reduction (d L m : Int) (h : m ∣ L) : (d % L) % m = d % m :=
  Int.emod_emod_of_dvd d h

theorem coprime_to_both (e p q : Int) (hq2 : 2 ≤ q) (hpq : q < p)
    (hgp : Int.gcd e (p - 1) = 1) (hgq : Int.gcd e (q - 1) = 1) :
    Int.gcd e ((p - 1) * (q - 1)) = 1 ∧ Int.gcd e (lam_fips p q) = 1 := by
  have h1 : IsCoprime e ((p - 1) * (q - 1)) :=
    (Int.isCoprime_iff_gcd_eq_one.mpr hgp).mul_right (Int.isCoprime_iff_gcd_eq_one.mpr hgq)
  have hdvd : lam_fips p q ∣ (p - 1) * (q - 1) := by
    rw [lam_fips_eq_lcm p q (by omega) (by omega)]
    exact Int.lcm_dvd (Dvd.intro _ rfl) (Dvd.intro_left _ rfl)
  exact ⟨Int.isCoprime_iff_gcd_eq_one.mp h1,
    Int.isCoprime_iff_gcd_eq_one.mp (h1.of_isCoprime_of_dvd_right hdvd)⟩

theorem swap_pq_ordered (r : RSA) (p q : Int) (hp : r.p = some p) (hq : r.q = some q)
    (hpq : q < p) : swap_pq r = r := by
  unfold swap_pq
  simp only [val, hp, hq, Option.getD_some]
  rw [if_neg (by omega)]

theorem derive_general_runs (env : Env) (hf : ∀ k, env.fail k = false) (s : St) (e p q : Int)
    (he : s.rsa.e = some e) (hp : s.rsa.p = some p) (hq : s.rsa.q = some q) (hq2 : 2 ≤ q)
    (hpq : q < p) (hgp : Int.gcd e (p - 1) = 1) (hgq : Int.gcd e (q - 1) = 1)
    (hqp : Int.gcd q p = 1) : ∃ s1, derive_general env s = Res.next () s1 := by
  obtain ⟨hg, -⟩ := coprime_to_both e p q hq2 hpq hgp hgq
  have hm : ¬ ((p - 1) * (q - 1) = 0) := by
    have := lam_general_gt p q hq2 hpq
    omega
  have hp1 : ¬ (p - 1 = 0) := by omega
  have hq1 : ¬ (q - 1 = 0) := by omega
  have hp0 : ¬ (p = 0) := by omega
  unfold derive_general
  simp only [bind_apply, set_rsa_apply, andThen_next, swap_pq_ordered s.rsa p q hp hq hpq,
    lib_apply, hf, get_st_apply, BN_mod_inverse_apply, BN_mod_apply, andThen_ite, andThen_jump,
    M_ite_apply, goto_err_apply, pure_apply, val, he, hp, hq, Option.getD_some,
    Bool.false_eq_true, if_false, if_neg hm, if_pos hg, if_neg hp1, if_neg hq1, if_neg hp0,
    if_pos hqp]
  exact ⟨_, rfl⟩

theorem fips_derive_d_runs (env : Env) (hf : ∀ k, env.fail k = false) (r : Regs) (s : St)
    (e p q : Int) (he : s.rsa.e = some e) (hp : s.rsa.p = some p) (hq : s.rsa.q = some q)
    (hq2 : 2 ≤ q) (hpq : q < p) (hgp : Int.gcd e (p - 1) = 1) (hgq : Int.gcd e (q - 1) = 1) :
    ∃ r1 s1, fips_derive_d env r s = Res.next r1 s1 := by
  obtain ⟨-, hg⟩ := coprime_to_both e p q hq2 hpq hgp hgq
  have hl := lam_fips_ge p q hq2 hpq
  unfold lam_fips at hg hl
  have hm : ¬ (Int.tdiv (p - 1) (Int.gcd (p - 1) (q - 1) : Int) * (q - 1) = 0) := by omega
  have hg0 : ¬ ((Int.gcd (p - 1) (q - 1) : Int) = 0) := by
    intro h0
    have := Int.gcd_eq_zero_iff.mp (by exact_mod_cast h0)
    omega
  unfold fips_derive_d
  simp only [bind_apply, set_rsa_apply, andThen_next, swap_pq_ordered s.rsa p q hp hq hpq,
    lib_apply, hf, get_st_apply, BN_mod_inverse_apply, BN_div_quot_apply, andThen_ite,
    andThen_jump, M_ite_apply, goto_err_apply, pure_apply, val, he, hp, hq, Option.getD_some,
    Bool.false_eq_true, if_false, if_neg hm, if_pos hg, if_neg hg0]
  exact ⟨_, _, rfl⟩

theorem fips_check_rsa_runs (env : Env) (hf : ∀ k, env.fail k = false)
    (hok : ∀ k, PairwiseOK (env.pairwise k)) (s : St) :
    ∃ s1, fips_check_rsa env s = Res.next 1 s1 := by
  obtain ⟨o1, o2, o3, o4, o5, o6, o7⟩ := hok s.rsa
  unfold fips_check_rsa
  simp only [fips_check_body, bind_apply, lib_apply, get_st_apply, andThen_ite, andThen_next,
    andThen_jump, M_ite_apply, ite_apply, pure_apply, goto_err_apply, hf, Bool.false_eq_true,
    if_false, o1, o2, o3, Bool.not_true, Bool.or_self, if_neg (not_le.mpr o4), if_neg o5,
    if_neg (not_not.mpr o6), if_neg (not_not.mpr o7)]
  exact ⟨_, rfl⟩

theorem fips_crt_runs (env : Env) (hf : ∀ k, env.fail k = false)
    (hok : ∀ k, PairwiseOK (env.pairwise k)) (r : Regs) (s : St) (d p q : Int)
    (hd : s.rsa.d = some d) (hp : s.rsa.p = some p) (hq : s.rsa.q = some q)
    (hr1 : r.r1 = p - 1) (hr2 : r.r2 = q - 1) (hq2 : 2 ≤ q) (hpq : q < p)
    (hqp : Int.gcd q p = 1) : ∃ s1, fips_crt env r s = Res.next () s1 := by
  have hp1 : ¬ (p - 1 = 0) := by omega
  have hq1 : ¬ (q - 1 = 0) := by omega
  have hp0 : ¬ (p = 0) := by omega
  unfold fips_crt
  simp only [bind_apply, set_rsa_apply, andThen_next, lib_apply, hf, get_st_apply,
    BN_mod_inverse_apply, BN_mod_apply, andThen_ite, andThen_jump, M_ite_apply, goto_err_apply,
    pure_apply, val, hd, hp, hq, hr1, hr2, Option.getD_some, Bool.false_eq_true, if_false,
    if_neg hp1, if_neg hq1, if_neg hp0, if_pos hqp]
  have key : ∀ st : St, ∃ s1, ((fips_check_rsa env st).andThen fun c =>
      if c = 0 then (goto_err (-1) : M Unit) else (pure () : M Unit)) = Res.next () s1 := by
    intro st
    obtain ⟨s1, h1⟩ := fips_check_rsa_runs env hf hok st
    rw [h1]
    exact ⟨s1, rfl⟩
  exact key _

theorem accepting_oracle_ok : PairwiseOK accepting_oracle := by
  unfold PairwiseOK accepting_oracle
  decide

/-- C19: on keys that hold the same `p > q` and the same `e`, the
derivation of `rsa_builtin_keygen` (`derive_general`, `d` from
`(p-1)(q-1)`) and that of `fips_rsa_builtin_keygen` (`fips_derive_d` then
`fips_crt`, `d` from `lcm(p-1, q-1)`) both complete when `e` is coprime to
`p-1` and `q-1`, `q` is coprime to `p`, no library call fails and the
pairwise test accepts; and whenever both complete they leave the same `n`,
`p`, `q`, `dmp1`, `dmq1` and `iqmp`, the two private exponents satisfy
`d_fips = d_general mod lcm(p-1, q-1)`, and they are equal exactly when
`d_general < lcm(p-1, q-1)`. -/
theorem C19_derivations_agree (env env' : Env) (s s' : St) (r : Regs) (e p q : Int)
    (he : s.rsa.e = some e) (hp : s.rsa.p = some p) (hq : s.rsa.q = some q)
    (he' : s'.rsa.e = some e) (hp' : s'.rsa.p = some p) (hq' : s'.rsa.q = some q)
    (hq2 : 2 ≤ q) (hpq : q < p) :
    ((∀ k, env.fail k = false) → (∀ k, env'.fail k = false) →
      (∀ k, PairwiseOK (env'.pairwise k)) →
      Int.gcd e (p - 1) = 1 → Int.gcd e (q - 1) = 1 → Int.gcd q p = 1 →
      ∃ s1 r1 s1' s2', derive_general env s = Res.next () s1 ∧
        fips_derive_d env' r s' = Res.next r1 s1' ∧ fips_crt env' r1 s1' = Res.next () s2') ∧
    (∀ s1 r1 s1' s2', derive_general env s = Res.next () s1 →
      fips_derive_d env' r s' = Res.next r1 s1' → fips_crt env' r1 s1' = Res.next () s2' →
      s1.rsa.n = s2'.rsa.n ∧ s1.rsa.p = s2'.rsa.p ∧ s1.rsa.q = s2'.rsa.q ∧
        s1.rsa.dmp1 = s2'.rsa.dmp1 ∧ s1.rsa.dmq1 = s2'.rsa.dmq1 ∧
        s1.rsa.iqmp = s2'.rsa.iqmp ∧
        ∃ dg df, s1.rsa.d = some dg ∧ s2'.rsa.d = some df ∧
          df = dg % (Int.lcm (p - 1) (q - 1) : Int) ∧
          (df = dg ↔ dg < (Int.lcm (p - 1) (q - 1) : Int))) := by
  constructor
  · intro hf hf' hok hgp hgq hqp
    obtain ⟨s1, h1⟩ := derive_general_runs env hf s e p q he hp hq hq2 hpq hgp hgq hqp
    obtain ⟨r1, s1', h2⟩ := fips_derive_d_runs env' hf' r s' e p q he' hp' hq' hq2 hpq hgp hgq
    have ht := fips_derive_d_spec env' e p q r s' he' hp' hq'
    rw [h2] at ht
    obtain ⟨P, Q, ⟨v1, v2⟩, t1, t2, -, t4, t5, -, -, -, t9, -⟩ := ht
    rw [if_neg (by omega)] at v1 v2
    have eP : P = p := by rw [t1] at v1; exact Option.some.inj v1
    have eQ : Q = q := by rw [t2] at v2; exact Option.some.inj v2
    subst eP eQ
    obtain ⟨s2', h3⟩ := fips_crt_runs env' hf' hok r1 s1' _ P Q t9 t1 t2 t4 t5 hq2 hpq hqp
    exact ⟨s1, r1, s1', s2', h1, h2, h3⟩
  intro s1 r1 s1' s2' hg hf1 hf2
  have hs := derive_general_spec env e p q s he hp hq
  rw [hg] at hs
  obtain ⟨⟨n, e0, d, P, Q, dmp1, dmq1, iqmp, h1, h2, h3, h4, h5, h6, h7, h8, h9, h10, h11, h12,
    h13, h14, h15, h16, h17, h18, h19⟩, ⟨w1, w2⟩, w3⟩ := hs
  rw [if_neg (by omega)] at w1 w2
  have eP : P = p := by rw [h4] at w1; exact Option.some.inj w1
  have eQ : Q = q := by rw [h5] at w2; exact Option.some.inj w2
  have eE : e0 = e := by rw [h2] at w3; exact Option.some.inj w3
  subst eP eQ eE
  have ht := fips_derive_d_spec env' e0 P Q r s' he' hp' hq'
  rw [hf1] at ht
  obtain ⟨P', Q', ⟨v1, v2⟩, t1, t2, t3, t4, t5, t6, t7, t8, t9, t10, t11, -⟩ := ht
  rw [if_neg (by omega)] at v1 v2
  have eP : P' = P := by rw [t1] at v1; exact Option.some.inj v1
  have eQ : Q' = Q := by rw [t2] at v2; exact Option.some.inj v2
  subst eP eQ
  have hu := fips_crt_spec env' _ P' Q' r1 s1' t9 t1 t2
  rw [hf2] at hu
  obtain ⟨u1, u2, u3, u4, u5, u6, u7, u8, u9, u10, u11, u12, -⟩ := hu
  obtain ⟨k1, k2, k3, k4⟩ := fips_exponent_is_reduction e0 P' Q' hq2 hpq h11 t11
  have hl := lam_fips_eq_lcm P' Q' (by omega) (by omega)
  have hdp : (P' - 1) ∣ (Int.lcm (P' - 1) (Q' - 1) : Int) := Int.dvd_lcm_left
  have hdq : (Q' - 1) ∣ (Int.lcm (P' - 1) (Q' - 1) : Int) := Int.dvd_lcm_right
  rw [← h12] at k1 k2 k4
  refine ⟨?_, h4.trans u4.symm, h5.trans u5.symm, ?_, ?_, ?_, d, _, h3, u3, k1, k4⟩
  · rw [h1, h9, u1, t7]
  · rw [h6, u7, h14, t4, Int.tmod_eq_emod k2 (by omega), Int.tmod_eq_emod k3 (by omega), k1,
      emod_reduction _ _ _ hdp]
  · rw [h7, u9, h16, t5, Int.tmod_eq_emod k2 (by omega), Int.tmod_eq_emod k3 (by omega), k1,
      emod_reduction _ _ _ hdq]
  · rw [h8, u12, h19]

theorem sat_and {α : Type} {r : Res α} {Q1 Q2 : α → St → Prop} {E1 E2 : Int → St → Prop}
    (h1 : r.sat Q1 E1) (h2 : r.sat Q2 E2) :
    r.sat (fun a s => Q1 a s ∧ Q2 a s) (fun ok s => E1 ok s ∧ E2 ok s) := by
  cases r with
  | next a s => exact ⟨h1, h2⟩
  | jump ok s => exact ⟨h1, h2⟩
  | spin => trivial

theorem bit_length_zero (fuel : Nat) : bit_length fuel 0 = 0 := by
  cases fuel <;> simp [bit_length]

theorem bit_length_of_range (n : Nat) : ∀ (fuel x : Nat), x ≤ fuel → 2 ^ n ≤ x →
    x < 2 ^ (n + 1) → bit_length fuel x = n + 1 := by
  induction n with
  | zero =>
    intro fuel x hf hlo hhi
    have hx : x = 1 := by omega
    subst hx
    cases fuel with
    | zero => omega
    | succ k => simp [bit_length, bit_length_zero]
  | succ m ih =>
    intro fuel x hf hlo hhi
    have h2 : 2 ^ (m + 1) = 2 * 2 ^ m := by ring
    have h3 : 2 ^ (m + 1 + 1) = 2 * 2 ^ (m + 1) := by ring
    have hpos : 0 < 2 ^ m := by positivity
    cases fuel with
    | zero => omega
    | succ k =>
      have hx : x ≠ 0 := by omega
      simp only [bit_length, if_neg hx]
      rw [ih k (x / 2) (by omega) (by omega) (by omega)]

theorem BN_rand_val_shape (raw : Nat) (bits : Int) (hb : 1 ≤ bits) :
    ∃ x : Nat, BN_rand_val raw bits 0 1 = (x : Int) ∧ 2 ^ (bits.toNat - 1) ≤ x ∧
      x < 2 ^ bits.toNat ∧ x % 2 = 1 := by
  refine ⟨(raw % 2 ^ bits.toNat ||| 2 ^ (bits.toNat - 1)) ||| 1, ?_, ?_, ?_, ?_⟩
  · simp [BN_rand_val]
  · apply Nat.testBit_implies_ge
    simp [Nat.testBit_or, Nat.testBit_two_pow_self]
  · have h1 : 1 ≤ bits.toNat := by omega
    have hlt : 2 ^ (bits.toNat - 1) < 2 ^ bits.toNat :=
      Nat.pow_lt_pow_right (by norm_num) (by omega)
    have hone : 1 < 2 ^ bits.toNat := Nat.one_lt_two_pow (by omega)
    exact Nat.or_lt_two_pow (Nat.or_lt_two_pow (Nat.mod_lt _ (by positivity)) hlt) hone
  · simp [Nat.or_mod_two_eq_one]

theorem BN_rand_val_bits (raw : Nat) (bits : Int) (hb : 1 ≤ bits) :
    BN_num_bits (BN_rand_val raw bits 0 1) = bits := by
  obtain ⟨x, hx, h1, h2, -⟩ := BN_rand_val_shape raw bits hb
  rw [hx]
  unfold BN_num_bits
  rw [Int.natAbs_ofNat]
  have h3 : bits.toNat - 1 + 1 = bits.toNat := by omega
  rw [bit_length_of_range (bits.toNat - 1) x x (Nat.le_refl _) h1 (by rw [h3]; exact h2), h3]
  exact Int.toNat_of_nonneg (by omega)

theorem fips_ploop_more_tail (env : Env) (test : Bool) (pbits : Int) (e : Int)
    (C : Int → Prop) (k : Nat)
    (ih : ∀ (i n : Int) (r : Regs) (s : St), s.rsa.e = some e → C (val s.rsa.p) →
      (fips_ploop env test pbits k i n r s).sat
        (fun a s1 => LoopMore pbits C i n s (val s1.rsa.p) a s1) (fun _ _ => True))
    (i n : Int) (r : Regs) (s s2 : St) (he2 : s2.rsa.e = some e) (hC : C (val s2.rsa.p))
    (h5 : s2.ncb = s.ncb) :
    (if val s2.rsa.p < r.r0 then
        (if test = true then Res.jump (-1) s2 else fips_ploop env test pbits k i n r s2)
      else (fips_candidate env test pbits (val s2.rsa.p) r s2).andThen fun d =>
        if d.1 = true then (pure (i, n, d.2) : M (Int × Int × Regs))
        else (BN_GENCB_call env 2 n >>= fun c =>
          if (!c) = true then goto_err (-1)
          else if i + 1 < 5 * pbits then fips_ploop env test pbits k (i + 1) (n + 1) d.2
          else pure (i + 1, n + 1, d.2))).sat
      (fun a s1 => LoopMore pbits C i n s (val s1.rsa.p) a s1) (fun _ _ => True) := by
  refine sat_ite (fun _ => ?_) (fun _ => ?_)
  · refine sat_ite (fun _ => trivial) (fun _ => ?_)
    refine sat_mono (ih i n r s2 he2 hC) ?_ (fun _ _ _ => trivial)
    rintro a s1 ⟨c1, c2, c3, c4, c5⟩
    exact ⟨c1, c2, c3, by rw [c4, h5], c5⟩
  refine sat_andThen (fips_candidate_spec env test pbits _ e r s2 he2) ?_ (fun _ _ _ => trivial)
  rintro ⟨brk, r3⟩ s3 ⟨-, -, g3, -, g5, -⟩
  have g3 : s3.rsa = s2.rsa := g3
  have g5 : s3.ncb = s2.ncb := g5
  simp only [bind_apply, BN_GENCB_call_apply, andThen_next, M_ite_apply, ite_apply, pure_apply,
    goto_err_apply]
  refine sat_ite (fun _ => ?_) (fun _ => ?_)
  · refine ⟨by rw [g3]; exact hC, le_refl _, fun h => le_of_lt h, ?_, ?_⟩
    · show (s3.ncb : Int) = s.ncb + (i - i)
      rw [g5, h5]
      omega
    · show n = n + (i - i)
      omega
  refine sat_ite (fun _ => trivial) (fun _ => ?_)
  refine sat_ite (fun hlt => ?_) (fun _ => ?_)
  · refine sat_mono (ih (i + 1) (n + 1) r3 _ (by rw [g3]; exact he2) (by rw [g3]; exact hC)) ?_
      (fun _ _ _ => trivial)
    rintro a s1 ⟨c1, c2, c3, c4, c5⟩
    refine ⟨c1, by omega, fun _ => c3 hlt, ?_, by omega⟩
    have c4 : (s1.ncb : Int) = ((s3.ncb + 1 : Nat) : Int) + (a.1 - (i + 1)) := c4
    rw [c4, g5, h5]
    push_cast
    omega
  · refine ⟨by rw [g3]; exact hC, by omega, fun h => by omega, ?_, ?_⟩
    · show ((s3.ncb + 1 : Nat) : Int) = s.ncb + (i + 1 - i)
      rw [g5, h5]
      push_cast
      omega
    · show n + 1 = n + (i + 1 - i)
      omega

theorem fips_ploop_more (env : Env) (test : Bool) (pbits : Int) (e : Int) (C : Int → Prop)
    (hC : ∀ raw, C (BN_rand_val raw pbits 0 1)) :
    ∀ (fuel : Nat) (i n : Int) (r : Regs) (s : St), s.rsa.e = some e →
      (test = true → C (val s.rsa.p)) →
      (fips_ploop env test pbits fuel i n r s).sat
        (fun a s1 => LoopMore pbits C i n s (val s1.rsa.p) a s1) (fun _ _ => True) := by
  intro fuel
  induction fuel with
  | zero => intro i n r s _ _; simp [fips_ploop]
  | succ k ih =>
    intro i n r s he ht
    have ih2 : ∀ (i n : Int) (r : Regs) (s : St), s.rsa.e = some e → C (val s.rsa.p) →
        (fips_ploop env test pbits k i n r s).sat
          (fun a s1 => LoopMore pbits C i n s (val s1.rsa.p) a s1) (fun _ _ => True) :=
      fun i n r s he hc => ih i n r s he (fun _ => hc)
    simp only [fips_ploop, bind_apply, BN_rand_apply, get_st_apply, andThen_ite, andThen_next,
      andThen_jump, M_ite_apply, pure_apply, goto_err_apply]
    refine sat_ite (fun hnt => ?_) (fun hnt => ?_)
    · refine sat_ite (fun _ => trivial) (fun _ => ?_)
      refine sat_ite (fun _ => trivial) (fun _ => ?_)
      exact fips_ploop_more_tail env test pbits e C k ih2 i n r s
        { s with nops := s.nops + 1, rsa := { s.rsa with p := some (BN_rand_val (env.rand s.ndraw) pbits 0 1) }, ndraw := s.ndraw + 1, trace := Event.draw pbits (BN_rand_val (env.rand s.ndraw) pbits 0 1) :: s.trace }
        he (hC _) rfl
    · exact fips_ploop_more_tail env test pbits e C k ih2 i n r s s he
        (ht (by simpa using hnt)) rfl

theorem fips_qloop_more_tail (env : Env) (test : Bool) (pbits : Int) (e : Int)
    (C : Int → Prop) (k : Nat)
    (ih : ∀ (i n : Int) (r : Regs) (s : St), s.rsa.e = some e → C (val s.rsa.q) →
      (fips_qloop env test pbits k i n r s).sat
        (fun a s1 => LoopMore pbits C i n s (val s1.rsa.q) a s1) (fun _ _ => True))
    (i n : Int) (r : Regs) (s s2 : St) (he2 : s2.rsa.e = some e) (hC : C (val s2.rsa.q))
    (h5 : s2.ncb = s.ncb) :
    (if val s2.rsa.q < r.r0 then
        (if test = true then Res.jump (-1) s2 else fips_qloop env test pbits k i n r s2)
      else if env.fail s2.nops = true then Res.jump (-1) { s2 with nops := s2.nops + 1 }
      else if Int.natAbs (val s2.rsa.q - val s2.rsa.p) ≤ Int.natAbs r.r3 then
        (if test = true then Res.jump (-1) { s2 with nops := s2.nops + 1 }
          else fips_qloop env test pbits k i n { r with r2 := val s2.rsa.q - val s2.rsa.p }
            { s2 with nops := s2.nops + 1 })
      else (fips_candidate env test pbits (val s2.rsa.q)
          { r with r2 := val s2.rsa.q - val s2.rsa.p } { s2 with nops := s2.nops + 1 }).andThen
        fun d =>
        if d.1 = true then (pure (i, n, d.2) : M (Int × Int × Regs))
        else (BN_GENCB_call env 2 n >>= fun c =>
          if (!c) = true then goto_err (-1)
          else if i + 1 < 5 * pbits then fips_qloop env test pbits k (i + 1) (n + 1) d.2
          else pure (i + 1, n + 1, d.2))).sat
      (fun a s1 => LoopMore pbits C i n s (val s1.rsa.q) a s1) (fun _ _ => True) := by
  have lift : ∀ (r2 : Regs) (s3 : St), s3.rsa = s2.rsa → s3.ncb = s2.ncb →
      (fips_qloop env test pbits k i n r2 s3).sat
        (fun a s1 => LoopMore pbits C i n s (val s1.rsa.q) a s1) (fun _ _ => True) := by
    intro r2 s3 e3 c3
    refine sat_mono (ih i n r2 s3 (by rw [e3]; exact he2) (by rw [e3]; exact hC)) ?_
      (fun _ _ _ => trivial)
    rintro a s1 ⟨c1, c2, c3', c4, c5⟩
    exact ⟨c1, c2, c3', by rw [c4, c3, h5], c5⟩
  refine sat_ite (fun _ => ?_) (fun _ => ?_)
  · refine sat_ite (fun _ => trivial) (fun _ => lift r s2 rfl rfl)
  refine sat_ite (fun _ => trivial) (fun _ => ?_)
  refine sat_ite (fun _ => ?_) (fun _ => ?_)
  · exact sat_ite (fun _ => trivial) (fun _ => lift _ _ rfl rfl)
  refine sat_andThen (fips_candidate_spec env test pbits _ e _ _ he2) ?_ (fun _ _ _ => trivial)
  rintro ⟨brk, r3⟩ s3 ⟨-, -, g3, -, g5, -⟩
  have g3 : s3.rsa = s2.rsa := g3
  have g5 : s3.ncb = s2.ncb := g5
  simp only [bind_apply, BN_GENCB_call_apply, andThen_next, M_ite_apply, ite_apply, pure_apply,
    goto_err_apply]
  refine sat_ite (fun _ => ?_) (fun _ => ?_)
  · refine ⟨by rw [g3]; exact hC, le_refl _, fun h => le_of_lt h, ?_, ?_⟩
    · show (s3.ncb : Int) = s.ncb + (i - i)
      rw [g5, h5]
      omega
    · show n = n + (i - i)
      omega
  refine sat_ite (fun _ => trivial) (fun _ => ?_)
  refine sat_ite (fun hlt => ?_) (fun _ => ?_)
  · refine sat_mono (ih (i + 1) (n + 1) r3 _ (by rw [g3]; exact he2) (by rw [g3]; exact hC)) ?_
      (fun _ _ _ => trivial)
    rintro a s1 ⟨c1, c2, c3, c4, c5⟩
    refine ⟨c1, by omega, fun _ => c3 hlt, ?_, by omega⟩
    have c4 : (s1.ncb : Int) = ((s3.ncb + 1 : Nat) : Int) + (a.1 - (i + 1)) := c4
    rw [c4, g5, h5]
    push_cast
    omega
  · refine ⟨by rw [g3]; exact hC, by omega, fun h => by omega, ?_, ?_⟩
    · show ((s3.ncb + 1 : Nat) : Int) = s.ncb + (i + 1 - i)
      rw [g5, h5]
      push_cast
      omega
    · show n + 1 = n + (i + 1 - i)
      omega

theorem fips_qloop_more (env : Env) (test : Bool) (pbits : Int) (e : Int) (C : Int → Prop)
    (hC : ∀ raw, C (BN_rand_val raw pbits 0 1)) :
    ∀ (fuel : Nat) (i n : Int) (r : Regs) (s : St), s.rsa.e = some e →
      (test = true → C (val s.rsa.q)) →
      (fips_qloop env test pbits fuel i n r s).sat
        (fun a s1 => LoopMore pbits C i n s (val s1.rsa.q) a s1) (fun _ _ => True) := by
  intro fuel
  induction fuel with
  | zero => intro i n r s _ _; simp [fips_qloop]
  | succ k ih =>
    intro i n r s he ht
    have ih2 : ∀ (i n : Int) (r : Regs) (s : St), s.rsa.e = some e → C (val s.rsa.q) →
        (fips_qloop env test pbits k i n r s).sat
          (fun a s1 => LoopMore pbits C i n s (val s1.rsa.q) a s1) (fun _ _ => True) :=
      fun i n r s he hc => ih i n r s he (fun _ => hc)
    simp only [fips_qloop, bind_apply, BN_rand_apply, get_st_apply, andThen_ite, andThen_next,
      andThen_jump, M_ite_apply, pure_apply, goto_err_apply, lib_apply]
    refine sat_ite (fun hnt => ?_) (fun hnt => ?_)
    · refine sat_ite (fun _ => trivial) (fun _ => ?_)
      refine sat_ite (fun _ => trivial) (fun _ => ?_)
      exact fips_qloop_more_tail env test pbits e C k ih2 i n r s
        { s with nops := s.nops + 1, rsa := { s.rsa with q := some (BN_rand_val (env.rand s.ndraw) pbits 0 1) }, ndraw := s.ndraw + 1, trace := Event.draw pbits (BN_rand_val (env.rand s.ndraw) pbits 0 1) :: s.trace }
        he (hC _) rfl
    · exact fips_qloop_more_tail env test pbits e C k ih2 i n r s s he
        (ht (by simpa using hnt)) rfl

theorem lam_fips_ge_bound (P Q B : Int) (hB2 : 2 ≤ B) (hBe : (2 : Int) ∣ B) (hP : B ≤ P)
    (hQ : B ≤ Q) (hodd : P % 2 = 1) : B ≤ lam_fips P Q := by
  rw [lam_fips_eq_lcm P Q (by omega) (by omega)]
  have h1 : (P - 1) ∣ (Int.lcm (P - 1) (Q - 1) : Int) := Int.dvd_lcm_left
  have h2 : Int.lcm (P - 1) (Q - 1) ≠ 0 := Int.lcm_ne_zero (by omega) (by omega)
  have h3 : P - 1 ≤ (Int.lcm (P - 1) (Q - 1) : Int) := Int.le_of_dvd (by omega) h1
  have h4 : (2 : Int) ∣ P - 1 := Int.dvd_of_emod_eq_zero (by omega)
  obtain ⟨t, ht⟩ := dvd_trans h4 h1
  obtain ⟨b, hb⟩ := hBe
  omega

theorem fips_generate_shape (env : Env) (test : Bool) (pbits : Int) (lfuel : Nat) (e B : Int)
    (hB2 : 2 ≤ B) (hBe : (2 : Int) ∣ B) (hpb : 1 ≤ pbits) :
    ∀ (fuel : Nat) (n : Int) (r : Regs) (s : St), s.rsa.e = some e →
      (∃ p, s.rsa.p = some p) → (∃ q, s.rsa.q = some q) → B ≤ r.r0 →
      (fips_generate env test pbits lfuel fuel n r s).sat
        (fun _ s1 => Bounded B r.r3 s1.rsa ∧ DrawnPair pbits s1.rsa)
        (fun ok s1 => ok = 1 → Bounded B r.r3 s1.rsa) := by
  have hC : ∀ raw, (fun x : Int => test = false → ∃ a, x = BN_rand_val a pbits 0 1)
      (BN_rand_val raw pbits 0 1) := fun raw _ => ⟨raw, rfl⟩
  intro fuel
  induction fuel with
  | zero => intro n r s _ _ _ _; simp [fips_generate]
  | succ k ih =>
    intro n r s he hps hqs hr0
    simp only [fips_generate, bind_apply, M_ite_apply, andThen_ite]
    refine sat_ite (fun hpos => ?_) (fun hneg => ?_)
    swap
    · simp only [pure_apply, andThen_next, bind_apply, BN_GENCB_call_apply, M_ite_apply,
        ite_apply, goto_err_apply]
      refine sat_ite (fun _ => ?_) (fun _ => ?_)
      · exact fun h => absurd h (by decide)
      · rw [if_pos (by omega)]
        exact fun h => absurd h (by decide)
    refine sat_andThen (sat_and (fips_ploop_spec env test pbits e lfuel 0 n r s he hps)
      (fips_ploop_more env test pbits e
        (fun x : Int => test = false → ∃ a, x = BN_rand_val a pbits 0 1) hC lfuel 0 n r s he
        (fun ht hf => by rw [ht] at hf; exact absurd hf (by decide)))) ?_ ?_
    swap
    · rintro ok s1 ⟨⟨g0, -⟩, -⟩ h
      omega
    rintro ⟨i1, n1, r1⟩ s1 ⟨⟨g1, g2, g3, g4, -, -, g7, -, -⟩, ⟨m1, -⟩⟩
    have g1 : r1.r0 = r.r0 := g1
    have g2 : r1.r3 = r.r3 := g2
    simp only [bind_apply, BN_GENCB_call_apply, andThen_next, M_ite_apply,
        ite_apply, goto_err_apply]
    refine sat_ite (fun _ => fun h => absurd h (by decide)) (fun _ => ?_)
    refine sat_ite (fun _ => fun h => absurd h (by decide)) (fun hi => ?_)
    obtain ⟨p, hp, hpr, -⟩ := g7 (not_le.mp hi)
    have hvp : val s1.rsa.p = p := by simp [val, hp]
    rw [hvp] at m1
    rw [if_pos hpos]
    obtain ⟨q0, hq0⟩ := hqs
    refine sat_andThen (sat_and (fips_qloop_spec env test pbits e p lfuel 0 n1 r1 _ (g3.trans he)
      hp ⟨q0, g4.trans hq0⟩) (fips_qloop_more env test pbits e
        (fun x : Int => test = false → ∃ a, x = BN_rand_val a pbits 0 1) hC lfuel 0 n1 r1 _
        (g3.trans he) (fun ht hf => by rw [ht] at hf; exact absurd hf (by decide)))) ?_ ?_
    swap
    · rintro ok s2 ⟨⟨f0, -⟩, -⟩ h
      omega
    rintro ⟨i2, n2, r2⟩ s2 ⟨⟨f1, f2, f3, f4, -, f7, -, -⟩, ⟨m2, -⟩⟩
    have f1 : r2.r0 = r1.r0 := f1
    have f2 : r2.r3 = r1.r3 := f2
    have f3 : s2.rsa.e = s1.rsa.e := f3
    have f4 : s2.rsa.p = s1.rsa.p := f4
    simp only [bind_apply, BN_GENCB_call_apply, andThen_next, M_ite_apply,
        ite_apply, goto_err_apply, set_rsa_apply, andThen_jump]
    refine sat_ite (fun _ => fun h => absurd h (by decide)) (fun _ => ?_)
    refine sat_ite (fun _ => fun h => absurd h (by decide)) (fun hi2 => ?_)
    obtain ⟨q, hq, hqr, hsep, -⟩ := f7 (not_le.mp hi2)
    have hvq : val s2.rsa.q = q := by simp [val, hq]
    rw [hvq] at m2
    have hBp : B ≤ p := by omega
    have hBq : B ≤ q := by omega
    rw [g2] at hsep
    refine sat_ite (fun ht => ?_) (fun ht => ?_)
    · exact fun _ => ⟨p, q, f4.trans hp, hq, hBp, hBq, hsep⟩
    have htf : test = false := by simpa using ht
    obtain ⟨a, ha⟩ := m1 htf
    obtain ⟨b, hb⟩ := m2 htf
    refine sat_andThen (fips_derive_d_spec env e p q r2 _ (f3.trans (g3.trans he))
      (f4.trans hp) hq) ?_ ?_
    swap
    · rintro ok s3 ⟨e0, -⟩ h
      omega
    rintro r3 s3 ⟨P, Q, ⟨e1, e2⟩, hP, hQ, e3, e4, e5, e6, e7, e8, e9, e10, e11, -, -⟩
    have e3 : r3.r3 = r2.r3 := e3
    have hr33 : r3.r3 = r.r3 := by rw [e3, f2, g2]
    have hPQ : B ≤ P ∧ B ≤ Q ∧ r.r3.natAbs < (Q - P).natAbs ∧ P % 2 = 1 ∧
        (∃ a, P = BN_rand_val a pbits 0 1) ∧ ∃ b, Q = BN_rand_val b pbits 0 1 := by
      have h1 := hP.symm.trans e1
      have h2 := hQ.symm.trans e2
      simp only [Option.some.injEq] at h1 h2
      obtain ⟨x, hx, -, -, hxo⟩ := BN_rand_val_shape a pbits hpb
      obtain ⟨y, hy, -, -, hyo⟩ := BN_rand_val_shape b pbits hpb
      by_cases hlt : p < q
      · rw [if_pos hlt] at h1 h2
        subst h1 h2
        refine ⟨hBq, hBp, ?_, by rw [hb, hy]; omega, ⟨b, hb⟩, ⟨a, ha⟩⟩
        have : (P - Q).natAbs = (Q - P).natAbs := by omega
        omega
      · rw [if_neg hlt] at h1 h2
        subst h1 h2
        exact ⟨hBp, hBq, hsep, by rw [ha, hx]; omega, ⟨a, ha⟩, ⟨b, hb⟩⟩
    obtain ⟨hBP, hBQ, hgap, hodd, ⟨a', ha'⟩, ⟨b', hb'⟩⟩ := hPQ
    simp only [bind_apply, get_st_apply, andThen_next, M_ite_apply, ite_apply, val, e9,
      Option.getD_some]
    refine sat_ite (fun _ => ?_) (fun _ => ?_)
    · have hi := ih n2 r3 s3 e8 ⟨P, hP⟩ ⟨Q, hQ⟩
        (by rw [e6]; exact lam_fips_ge_bound P Q B hB2 hBe hBP hBQ hodd)
      rw [hr33] at hi
      exact hi
    · refine sat_mono (fips_crt_spec env _ P Q r3 s3 e9 hP hQ) ?_ ?_
      · rintro _ s4 ⟨-, -, -, c4, c5, -⟩
        exact ⟨⟨P, Q, c4, c5, hBP, hBQ, hgap⟩, a', b', by rw [c4, ha'], by rw [c5, hb']⟩
      · rintro ok s4 ⟨c0, -⟩ h
        omega

theorem min_prime_facts (pbits : Int) : 2 ≤ min_prime pbits ∧ (2 : Int) ∣ min_prime pbits := by
  unfold min_prime
  constructor
  · have : (1 : Int) ≤ 2 ^ (pbits - 32).toNat := one_le_pow₀ (by norm_num)
    nlinarith
  · exact Dvd.intro (1518500250 * 2 ^ (pbits - 32).toNat) (by ring)

theorem fips_body_shape (env : Env) (fuel : Nat) (bits : Int) (e_value : Int) (s : St) :
    (fips_rsa_builtin_keygen_body env fuel bits e_value s).sat
      (fun _ s1 => 100 ≤ Int.tdiv bits 2 ∧
        Bounded (min_prime (Int.tdiv bits 2)) (min_gap (Int.tdiv bits 2)) s1.rsa ∧
        DrawnPair (Int.tdiv bits 2) s1.rsa)
      (fun ok s1 => ok = 1 → 100 ≤ Int.tdiv bits 2 ∧
        Bounded (min_prime (Int.tdiv bits 2)) (min_gap (Int.tdiv bits 2)) s1.rsa) := by
  simp only [fips_rsa_builtin_keygen_body, bind_apply, get_st_apply, andThen_next, M_ite_apply,
    put_error_apply, goto_err_apply]
  have z : ∀ P : Prop, (0 : Int) = 1 → P := fun _ h => absurd h (by decide)
  have m : ∀ P : Prop, (-1 : Int) = 1 → P := fun _ h => absurd h (by decide)
  refine sat_ite (fun _ => z _) (fun _ => ?_)
  refine sat_ite (fun _ => z _) (fun _ => ?_)
  refine sat_ite (fun _ => z _) (fun _ => ?_)
  refine sat_andThen (ctx_setup_spec env s) ?_ ?_
  swap
  · rintro ok s1 ⟨h0, -⟩
    rw [h0]
    exact m _
  rintro _ s1 ⟨-, hr1⟩
  refine sat_andThen (alloc_components_spec env s1) ?_ ?_
  swap
  · rintro ok s2 ⟨h0, -⟩
    rw [h0]
    exact m _
  rintro _ s2 ⟨-, ha⟩
  simp only [bind_apply, lib_apply, andThen_ite, andThen_jump, andThen_next, put_error_apply,
    M_ite_apply, ite_apply, goto_err_apply, BN_lshift_apply, lib_call_apply, set_rsa_apply,
    pure_apply, get_st_apply]
  obtain ⟨a1, a2, a3, a4, a5, a6, a7, a8⟩ := ha
  obtain ⟨hB2, hBe⟩ := min_prime_facts (Int.tdiv bits 2)
  refine sat_ite (fun _ => m _) (fun _ => ?_)
  refine sat_ite (fun _ => z _) (fun _ => ?_)
  refine sat_ite (fun _ => m _) (fun _ => ?_)
  refine sat_ite (fun _ => m _) (fun _ => ?_)
  refine sat_ite (fun _ => m _) (fun _ => ?_)
  refine sat_ite (fun _ => m _) (fun _ => ?_)
  refine sat_ite (fun _ => m _) (fun _ => ?_)
  refine sat_ite (fun _ => m _) (fun h100 => ?_)
  have h100 : 100 ≤ Int.tdiv bits 2 := by omega
  have fin : ∀ (e0 : Int) (s3 : St), s3.rsa.e = some e0 →
      s3.rsa.p = s2.rsa.p → s3.rsa.q = s2.rsa.q →
      (fips_generate env (decide (val s3.rsa.p ≠ 0) && decide (val s3.rsa.q ≠ 0))
        (Int.tdiv bits 2) fuel fuel 0
        ⟨3037000500 * 2 ^ (Int.tdiv bits 2 - 32).toNat, 0, 0,
          1 * 2 ^ (Int.tdiv bits 2 - 100).toNat⟩ s3).sat
        (fun _ s1 => 100 ≤ Int.tdiv bits 2 ∧
          Bounded (min_prime (Int.tdiv bits 2)) (min_gap (Int.tdiv bits 2)) s1.rsa ∧
          DrawnPair (Int.tdiv bits 2) s1.rsa)
        (fun ok s1 => ok = 1 → 100 ≤ Int.tdiv bits 2 ∧
          Bounded (min_prime (Int.tdiv bits 2)) (min_gap (Int.tdiv bits 2)) s1.rsa) := by
    intro e0 s3 he hp hq
    refine sat_mono (fips_generate_shape env _ _ fuel e0 (min_prime (Int.tdiv bits 2)) hB2 hBe
      (by omega) fuel 0 _ s3 he ⟨_, hp.trans a4⟩ ⟨_, hq.trans a5⟩ (le_refl _)) ?_ ?_
    · rintro _ s4 ⟨c1, c2⟩
      exact ⟨h100, c1, c2⟩
    · rintro ok s4 c1 h
      exact ⟨h100, c1 h⟩
  refine sat_ite (fun _ => ?_) (fun _ => ?_)
  · exact fin e_value
      { s2 with rsa := { s2.rsa with e := some e_value }, nops := s2.nops + 1 + 1 + 1 + 1 + 1 + 1 }
      rfl rfl rfl
  · exact fin _ { s2 with nops := s2.nops + 1 + 1 + 1 + 1 + 1 + 1 } (by rw [a2, hr1]) rfl rfl

theorem fips_keygen_shape (env : Env) (fuel : Nat) (s : St) (bits e_value : Int) (s1 : St)
    (h : fips_rsa_builtin_keygen env fuel s bits e_value = some (1, s1)) :
    100 ≤ Int.tdiv bits 2 ∧ Int.tdiv bits 2 % 256 = 0 ∧
      Bounded (min_prime (Int.tdiv bits 2)) (min_gap (Int.tdiv bits 2)) s1.rsa ∧
      (Fresh s.rsa → DrawnPair (Int.tdiv bits 2) s1.rsa) := by
  have hs := fips_body_shape env fuel bits e_value s
  have hb := fips_body_spec env fuel bits e_value s
  have h256 : Int.tdiv bits 2 % 256 = 0 := by
    by_contra hne
    unfold fips_rsa_builtin_keygen at h
    simp only [fips_rsa_builtin_keygen_body, bind_apply, get_st_apply, andThen_next, M_ite_apply,
      put_error_apply, goto_err_apply, if_pos hne] at h
    split_ifs at h <;> simp [finish] at h
  unfold fips_rsa_builtin_keygen at h
  rcases finish_cases _ _ _ _ h with ⟨-, hr⟩ | ⟨s2, hr, h0, -⟩ | ⟨ok, hok, hr, h1⟩
  · rw [hr] at hs
    exact ⟨hs.1, h256, hs.2.1, fun _ => hs.2.2⟩
  · omega
  · rw [hr] at hs hb
    obtain ⟨g1, g2⟩ := hs h1.symm
    refine ⟨g1, h256, g2, fun hf => ?_⟩
    rcases hb.1 with z | ⟨z, -⟩ | ⟨-, z, -⟩
    · omega
    · omega
    · exact absurd hf z

/-- C12: on every successful fresh generation by `fips_rsa_builtin_keygen`,
with `pbits = bits / 2`, the private exponent has at least `pbits` bits and
both factors have exactly `pbits` bits, so `bitlength(d) ≥ bitlength(p)`. -/
theorem C12_private_exponent_not_short (env : Env) (fuel : Nat) (s : St)
    (bits e_value : Int) (s1 : St) (hf : Fresh s.rsa)
    (h : fips_rsa_builtin_keygen env fuel s bits e_value = some (1, s1)) :
    ∃ p q d, s1.rsa.p = some p ∧ s1.rsa.q = some q ∧ s1.rsa.d = some d ∧
      Int.tdiv bits 2 ≤ BN_num_bits d ∧ BN_num_bits p = Int.tdiv bits 2 ∧
      BN_num_bits q = Int.tdiv bits 2 ∧ BN_num_bits p ≤ BN_num_bits d := by
  obtain ⟨h100, -, -, hd⟩ := fips_keygen_shape env fuel s bits e_value s1 h
  obtain ⟨a, b, hp, hq⟩ := hd hf
  rcases fips_keygen_success env fuel s bits e_value s1 h with ⟨-, -, ⟨d, g1, g2⟩, -⟩ | ⟨hn, -⟩
  · have hpb := BN_rand_val_bits a (Int.tdiv bits 2) (by omega)
    have hqb := BN_rand_val_bits b (Int.tdiv bits 2) (by omega)
    exact ⟨_, _, d, hp, hq, g1, g2, hpb, hqb, by rw [hpb]; exact g2⟩
  · exact absurd hf hn

/-- Witness for C12: the successful fresh run in `calm_env`. -/
theorem C12_witness :
    Fresh fresh_state.rsa ∧
    fips_rsa_builtin_keygen calm_env 5 fresh_state 1024 65537 = some (1, fips_final) ∧
    ∃ p q d, fips_final.rsa.p = some p ∧ fips_final.rsa.q = some q ∧
      fips_final.rsa.d = some d ∧
      Int.tdiv 1024 2 ≤ BN_num_bits d ∧ BN_num_bits p = Int.tdiv 1024 2 ∧
      BN_num_bits q = Int.tdiv 1024 2 ∧ BN_num_bits p ≤ BN_num_bits d :=
  ⟨fresh_state_fresh, fips_run,
    C12_private_exponent_not_short calm_env 5 fresh_state 1024 65537 fips_final
      fresh_state_fresh fips_run⟩

/-- C13: on every successful return of `fips_rsa_builtin_keygen`, with
`pbits = bits / 2 ≥ 100`, the two factors differ by more than
`2^(pbits-100)`, hence by at least that much. -/
theorem C13_factors_far_apart (env : Env) (fuel : Nat) (s : St) (bits e_value : Int)
    (s1 : St) (h : fips_rsa_builtin_keygen env fuel s bits e_value = some (1, s1)) :
    100 ≤ Int.tdiv bits 2 ∧
    ∃ p q, s1.rsa.p = some p ∧ s1.rsa.q = some q ∧
      (2 : Int) ^ (Int.tdiv bits 2 - 100).toNat < |p - q| ∧
      (2 : Int) ^ (Int.tdiv bits 2 - 100).toNat ≤ |p - q| := by
  obtain ⟨h100, -, ⟨p, q, hp, hq, -, -, hgap⟩, -⟩ := fips_keygen_shape env fuel s bits e_value s1 h
  have hpos : (0 : Int) < 2 ^ (Int.tdiv bits 2 - 100).toNat := by positivity
  have habs : |p - q| = ((q - p).natAbs : Int) := by
    rw [abs_sub_comm, Int.natCast_natAbs]
  have hg : min_gap (Int.tdiv bits 2) = 2 ^ (Int.tdiv bits 2 - 100).toNat := by
    unfold min_gap
    ring
  rw [hg] at hgap
  have hlt : (2 : Int) ^ (Int.tdiv bits 2 - 100).toNat < |p - q| := by
    rw [habs]
    generalize (2 : Int) ^ (Int.tdiv bits 2 - 100).toNat = D at hgap hpos
    omega
  exact ⟨h100, p, q, hp, hq, hlt, le_of_lt hlt⟩

/-- Witness for C13: the successful fresh run in `calm_env`. -/
theorem C13_witness :
    fips_rsa_builtin_keygen calm_env 5 fresh_state 1024 65537 = some (1, fips_final) ∧
    100 ≤ Int.tdiv 1024 2 ∧
    ∃ p q, fips_final.rsa.p = some p ∧ fips_final.rsa.q = some q ∧
      (2 : Int) ^ (Int.tdiv 1024 2 - 100).toNat < |p - q| ∧
      (2 : Int) ^ (Int.tdiv 1024 2 - 100).toNat ≤ |p - q| :=
  ⟨fips_run, C13_factors_far_apart calm_env 5 fresh_state 1024 65537 fips_final fips_run⟩

/-- C14: on every successful return of `fips_rsa_builtin_keygen`, whether or
not a too small `d` sent it back to `retry`, both factors are at least the
precomputed minimum `0xB504F334 * 2^(pbits-32)`, and that minimum is no
smaller than `0.7072 * 2^(pbits-1)`. -/
theorem C14_factors_above_minimum (env : Env) (fuel : Nat) (s : St) (bits e_value : Int)
    (s1 : St) (h : fips_rsa_builtin_keygen env fuel s bits e_value = some (1, s1)) :
    (∃ p q, s1.rsa.p = some p ∧ s1.rsa.q = some q ∧
      0xB504F334 * 2 ^ (Int.tdiv bits 2 - 32).toNat ≤ p ∧
      0xB504F334 * 2 ^ (Int.tdiv bits 2 - 32).toNat ≤ q) ∧
    (7072 : Int) * 2 ^ (Int.tdiv bits 2 - 1).toNat ≤
      10000 * (0xB504F334 * 2 ^ (Int.tdiv bits 2 - 32).toNat) := by
  obtain ⟨h100, -, ⟨p, q, hp, hq, hBp, hBq, -⟩, -⟩ := fips_keygen_shape env fuel s bits e_value s1 h
  refine ⟨⟨p, q, hp, hq, hBp, hBq⟩, ?_⟩
  have hk : (Int.tdiv bits 2 - 1).toNat = (Int.tdiv bits 2 - 32).toNat + 31 := by omega
  rw [hk, pow_add]
  have hpos : (0 : Int) < 2 ^ (Int.tdiv bits 2 - 32).toNat := by positivity
  nlinarith

/-- Witness for C14: the successful fresh run in `calm_env`. -/
theorem C14_witness :
    fips_rsa_builtin_keygen calm_env 5 fresh_state 1024 65537 = some (1, fips_final) ∧
    (∃ p q, fips_final.rsa.p = some p ∧ fips_final.rsa.q = some q ∧
      0xB504F334 * 2 ^ (Int.tdiv 1024 2 - 32).toNat ≤ p ∧
      0xB504F334 * 2 ^ (Int.tdiv 1024 2 - 32).toNat ≤ q) ∧
    (7072 : Int) * 2 ^ (Int.tdiv 1024 2 - 1).toNat ≤
      10000 * (0xB504F334 * 2 ^ (Int.tdiv 1024 2 - 32).toNat) :=
  ⟨fips_run, C14_factors_above_minimum calm_env 5 fresh_state 1024 65537 fips_final fips_run⟩

theorem modulus_in_range (pbits p q : Int) (a b : Nat) (h100 : 100 ≤ pbits)
    (hp : p = BN_rand_val a pbits 0 1) (hq : q = BN_rand_val b pbits 0 1)
    (hBp : min_prime pbits ≤ p) (hBq : min_prime pbits ≤ q) :
    (2 : Int) ^ (2 * pbits - 1).toNat ≤ p * q ∧ p * q < 2 ^ (2 * pbits).toNat := by
  obtain ⟨x, hx, -, hxu, -⟩ := BN_rand_val_shape a pbits (by omega)
  obtain ⟨y, hy, -, hyu, -⟩ := BN_rand_val_shape b pbits (by omega)
  rw [hx] at hp
  rw [hy] at hq
  have hB0 : 0 ≤ min_prime pbits := by have := (min_prime_facts pbits).1; omega
  constructor
  · have h1 : min_prime pbits * min_prime pbits ≤ p * q :=
      mul_le_mul hBp hBq hB0 (by omega)
    have hk : (2 * pbits - 1).toNat = 63 + 2 * (pbits - 32).toNat := by omega
    have h2 : (2 : Int) ^ (2 * pbits - 1).toNat ≤ min_prime pbits * min_prime pbits := by
      unfold min_prime
      rw [hk, pow_add, pow_mul']
      have hpos : (0 : Int) < 2 ^ (pbits - 32).toNat := by positivity
      nlinarith [sq_nonneg ((2 : Int) ^ (pbits - 32).toNat)]
    exact le_trans h2 h1
  · have hk : (2 * pbits).toNat = pbits.toNat + pbits.toNat := by omega
    rw [hk, pow_add, hp, hq]
    have hx2 : (x : Int) < 2 ^ pbits.toNat := by exact_mod_cast hxu
    have hy2 : (y : Int) < 2 ^ pbits.toNat := by exact_mod_cast hyu
    have hx0 : (0 : Int) ≤ x := Int.ofNat_nonneg x
    have hy0 : (0 : Int) ≤ y := Int.ofNat_nonneg y
    exact mul_lt_mul'' hx2 hy2 hx0 hy0

/-- C15: for every even `bits` accepted by `fips_rsa_builtin_keygen`, every
successful fresh generation yields a modulus of exactly `bits` bits:
`2^(bits-1) ≤ n < 2^bits`. -/
theorem C15_modulus_has_requested_length (env : Env) (fuel : Nat) (s : St)
    (bits e_value : Int) (s1 : St) (heven : bits % 2 = 0) (hf : Fresh s.rsa)
    (h : fips_rsa_builtin_keygen env fuel s bits e_value = some (1, s1)) :
    ∃ n, s1.rsa.n = some n ∧ (2 : Int) ^ (bits - 1).toNat ≤ n ∧ n < 2 ^ bits.toNat ∧
      BN_num_bits n = bits := by
  obtain ⟨h100, -, ⟨p, q, hp, hq, hBp, hBq, -⟩, hd⟩ :=
    fips_keygen_shape env fuel s bits e_value s1 h
  obtain ⟨a, b, hpa, hqb⟩ := hd hf
  have ep : p = BN_rand_val a (Int.tdiv bits 2) 0 1 := by
    rw [hp] at hpa; exact Option.some.inj hpa
  have eq : q = BN_rand_val b (Int.tdiv bits 2) 0 1 := by
    rw [hq] at hqb; exact Option.some.inj hqb
  have hbits : bits = 2 * Int.tdiv bits 2 := by
    have : Int.tdiv bits 2 = bits / 2 := by
      rcases Int.lt_or_le bits 0 with hneg | hpos
      · have h2 : Int.tdiv bits 2 = -(Int.tdiv (-bits) 2) := by rw [Int.neg_tdiv, neg_neg]
        have h3 : Int.tdiv (-bits) 2 = -bits / 2 := Int.tdiv_eq_ediv (by omega) (by norm_num)
        rw [h3] at h2
        omega
      · exact Int.tdiv_eq_ediv hpos (by norm_num)
    omega
  obtain ⟨r1, r2⟩ := modulus_in_range (Int.tdiv bits 2) p q a b h100 ep eq hBp hBq
  rw [← hbits] at r1 r2
  rcases fips_keygen_success env fuel s bits e_value s1 h with ⟨-, hk, -⟩ | ⟨hn, -⟩
  swap
  · exact absurd hf hn
  obtain ⟨n, e, d, p', q', dmp1, dmq1, iqmp, k1, k2, k3, k4, k5, k6, k7, k8, k9, -⟩ := hk
  have e1 : p' = p := by rw [hp] at k4; exact (Option.some.inj k4).symm
  have e2 : q' = q := by rw [hq] at k5; exact (Option.some.inj k5).symm
  subst e1 e2
  rw [← k9] at r1 r2
  refine ⟨n, k1, r1, r2, ?_⟩
  have hn0 : 0 ≤ n := le_trans (by positivity) r1
  obtain ⟨m, hm⟩ := Int.eq_ofNat_of_zero_le hn0
  rw [hm] at r1 r2 ⊢
  unfold BN_num_bits
  rw [Int.natAbs_ofNat]
  have hb1 : (bits - 1).toNat + 1 = bits.toNat := by omega
  have r1' : 2 ^ (bits - 1).toNat ≤ m := by exact_mod_cast r1
  have r2' : m < 2 ^ bits.toNat := by exact_mod_cast r2
  rw [bit_length_of_range (bits - 1).toNat m m (Nat.le_refl _) r1' (by rw [hb1]; exact r2'), hb1]
  exact Int.toNat_of_nonneg (by omega)

/-- Witness for C15: the successful fresh run in `calm_env`. -/
theorem C15_witness :
    (1024 : Int) % 2 = 0 ∧ Fresh fresh_state.rsa ∧
    fips_rsa_builtin_keygen calm_env 5 fresh_state 1024 65537 = some (1, fips_final) ∧
    ∃ n, fips_final.rsa.n = some n ∧ (2 : Int) ^ ((1024 : Int) - 1).toNat ≤ n ∧
      n < 2 ^ (1024 : Int).toNat ∧ BN_num_bits n = 1024 :=
  ⟨by decide, fresh_state_fresh, fips_run,
    C15_modulus_has_requested_length calm_env 5 fresh_state 1024 65537 fips_final (by decide)
      fresh_state_fresh fips_run⟩

theorem eq_next_of_value {α : Type} (r : Res α) (a : α) (s : St)
    (h : r.value = some (a, s)) : r = Res.next a s := by
  cases r with
  | next b t =>
    simp only [Res.value, Option.some.injEq, Prod.mk.injEq] at h
    rw [h.1, h.2]
  | jump ok t => simp [Res.value] at h
  | spin => simp [Res.value] at h

theorem two_pow_le_twice_min_prime (pbits : Int) (h32 : 32 ≤ pbits) :
    (2 : Int) ^ pbits.toNat ≤ 2 * min_prime pbits - 2 ∧ min_prime pbits < 2 ^ pbits.toNat := by
  unfold min_prime
  have hk : pbits.toNat = (pbits - 32).toNat + 32 := by omega
  rw [hk, pow_add]
  have hpos : (1 : Int) ≤ 2 ^ (pbits - 32).toNat := one_le_pow₀ (by norm_num)
  constructor <;> nlinarith

theorem lam_fips_ge_two_pow (pbits P Q : Int) (h32 : 32 ≤ pbits) (hBP : min_prime pbits ≤ P)
    (hBQ : min_prime pbits ≤ Q) (hlt : Q < P) : (2 : Int) ^ pbits.toNat ≤ lam_fips P Q := by
  have hB := (min_prime_facts pbits).1
  obtain ⟨h2B, -⟩ := two_pow_le_twice_min_prime pbits h32
  rw [lam_fips_eq_lcm P Q (by omega) (by omega)]
  have h1 : (P - 1) ∣ (Int.lcm (P - 1) (Q - 1) : Int) := Int.dvd_lcm_left
  have h2 : (Q - 1) ∣ (Int.lcm (P - 1) (Q - 1) : Int) := Int.dvd_lcm_right
  have h3 : Int.lcm (P - 1) (Q - 1) ≠ 0 := Int.lcm_ne_zero (by omega) (by omega)
  have hL0 : (0 : Int) < (Int.lcm (P - 1) (Q - 1) : Int) := by omega
  generalize (Int.lcm (P - 1) (Q - 1) : Int) = L at h1 h2 hL0 ⊢
  obtain ⟨m, hm⟩ := h1
  obtain ⟨k, hk⟩ := h2
  have hm1 : 1 ≤ m := by
    by_contra hcon
    have : m ≤ 0 := by omega
    have : (P - 1) * m ≤ 0 := mul_nonpos_of_nonneg_of_nonpos (by omega) this
    omega
  have hk1 : 1 ≤ k := by
    by_contra hcon
    have : k ≤ 0 := by omega
    have : (Q - 1) * k ≤ 0 := mul_nonpos_of_nonneg_of_nonpos (by omega) this
    omega
  rcases (show m = 1 ∨ 2 ≤ m by omega) with h | h
  · rcases (show k = 1 ∨ 2 ≤ k by omega) with h' | h'
    · rw [h, mul_one] at hm
      rw [h', mul_one] at hk
      omega
    · have : 2 * (Q - 1) ≤ (Q - 1) * k := by nlinarith
      omega
  · have : 2 * (P - 1) ≤ (P - 1) * m := by nlinarith
    omega

theorem fips_ploop_stuck (env : Env) (pbits : Int) (hpb : 1 ≤ pbits) :
    ∀ (fuel : Nat) (i n : Int) (r : Regs) (s : St), (2 : Int) ^ pbits.toNat ≤ r.r0 →
      (fips_ploop env false pbits fuel i n r s).sat (fun _ _ => False)
        (fun ok s1 => ok = -1 ∧ s1.ntest = s.ntest ∧ s1.ncb = s.ncb) ∧
      ((∀ k, env.fail k = false) → fips_ploop env false pbits fuel i n r s = Res.spin) := by
  intro fuel
  induction fuel with
  | zero => intro i n r s _; simp [fips_ploop]
  | succ k ih =>
    intro i n r s hr
    have hlt : BN_rand_val (env.rand s.ndraw) pbits 0 1 < r.r0 := by
      obtain ⟨x, hx, -, hxu, -⟩ := BN_rand_val_shape (env.rand s.ndraw) pbits hpb
      rw [hx]
      have : (x : Int) < 2 ^ pbits.toNat := by exact_mod_cast hxu
      omega
    have hguard : ¬ (pbits < 0 ∨ (pbits = 0 ∧ ((0 : Int) ≠ -1 ∨ (1 : Int) ≠ 0)) ∨
        (pbits = 1 ∧ (0 : Int) < 0)) := by omega
    simp only [fips_ploop, bind_apply, BN_rand_apply, get_st_apply, andThen_ite, andThen_next,
      andThen_jump, M_ite_apply, pure_apply, goto_err_apply, Bool.not_false, if_true, if_neg hguard,
      val, Option.getD_some, if_pos hlt, Bool.false_eq_true, if_false]
    constructor
    · refine sat_ite (fun _ => ⟨rfl, rfl, rfl⟩) (fun _ => ?_)
      exact (ih i n r _ hr).1
    · intro hf
      rw [if_neg (by simp [hf])]
      exact (ih i n r _ hr).2 hf

theorem fips_generate_stuck (env : Env) (pbits : Int) (lfuel : Nat) (hpb : 1 ≤ pbits)
    (fuel : Nat) (n : Int) (r : Regs) (s : St) (hr : (2 : Int) ^ pbits.toNat ≤ r.r0) :
    (fips_generate env false pbits lfuel fuel n r s).sat (fun _ _ => False)
        (fun ok s1 => ok = -1 ∧ s1.ntest = s.ntest ∧ s1.ncb = s.ncb) ∧
      ((∀ k, env.fail k = false) → fips_generate env false pbits lfuel fuel n r s = Res.spin) := by
  cases fuel with
  | zero => simp [fips_generate]
  | succ k =>
    obtain ⟨h1, h2⟩ := fips_ploop_stuck env pbits hpb lfuel 0 n r s hr
    simp only [fips_generate, bind_apply, M_ite_apply, andThen_ite, if_pos (show 0 < 5 * pbits by omega)]
    constructor
    · exact sat_andThen h1 (fun _ _ h => absurd h id) (fun _ _ h => h)
    · intro hf
      rw [h2 hf]
      rfl

theorem after_derive_run :
    fips_derive_d calm_env search_regs found_state = Res.next after_derive.1 after_derive.2 :=
  eq_next_of_value _ _ _ (by decide!)

/-- C16, counterexample: for 1024 bits (`5 * pbits = 2560`) the run in
`slow_env` draws 2562 candidates for `p` in a single pass, 2561 of them
rejected for being below the minimum without being tested or counted, and
then succeeds. -/
theorem C16_counterexample :
    (fips_rsa_builtin_keygen slow_env 3000 fresh_state 1024 65537).map
        (fun r => (r.1, r.2.ndraw, r.2.ntest, r.2.ncb)) = some (1, 2563, 2, 2) ∧
    (fips_rsa_builtin_keygen slow_env 3000 fresh_state 1024 65537).map
        (fun r => ((r.2.trace.reverse.take 2562).all is_draw,
          (r.2.trace.reverse.drop 2562).map is_draw)) =
      some (true, [false, false, true, false, false, false]) ∧
    5 * Int.tdiv 1024 2 = 2560 := by
  refine ⟨?_, ?_, ?_⟩
  · decide!
  · decide!
  · decide

theorem exhaustion_run :
    (fips_rsa_builtin_keygen composite_env 3000 fresh_state 1024 65537).map
      (fun r => (r.1, r.2.ndraw, r.2.ntest, r.2.ncb, r.2.errs)) =
      some (0, 2560, 2560, 2561, [generic_error Func.FIPS_RSA_BUILTIN_KEYGEN]) := by
  decide!

theorem exhausted_p_run :
    fips_ploop composite_env false 4 30 0 0 toy_regs search_state =
      Res.next exhausted_p.1 exhausted_p.2 :=
  eq_next_of_value _ _ _ (by decide!)

theorem found_p_run :
    fips_ploop one_prime_env false 4 30 0 0 toy_regs search_state =
      Res.next found_p.1 found_p.2 :=
  eq_next_of_value _ _ _ (by decide!)

theorem exhausted_q_run :
    fips_qloop one_prime_env false 4 30 0 found_p.1.2.1 found_p.1.2.2 found_p_called =
      Res.next exhausted_q.1 exhausted_q.2 :=
  eq_next_of_value _ _ _ (by decide!)

theorem loop_more_of_next {α : Type} {r : Res α} {Q : α → St → Prop} {E : Int → St → Prop}
    (h : r.sat Q E) (a : α) (s : St) (hr : r = Res.next a s) : Q a s := by
  rw [hr] at h
  exact h

/-- C16, amended: the budget of `5 * pbits` counts only the candidates that
reach the coprimality test.  Each loop of `fips_rsa_builtin_keygen`, entered
with `i = 0`, falls through with `0 ≤ i ≤ 5 * pbits`, having invoked the
callback exactly `i` times (once per counted failure, the counter `n`
advancing with it); candidates below the minimum, or too close to `p`, are
redrawn without being counted.  When a loop ends with `i = 5 * pbits` the
function goes to `err` with `ok = -1`; and every return of 0 after a draw
carries the generic `ERR_LIB_BN` entry, not one of the entries for an invalid
`bits` or `e`. -/
theorem C16_only_tested_candidates_counted (env : Env) (test : Bool) (pbits : Int)
    (lfuel fuel : Nat) (n : Int) (r : Regs) (s : St) (e : Int) (he : s.rsa.e = some e)
    (hpos : 0 < 5 * pbits) :
    (∀ a s1, fips_ploop env test pbits lfuel 0 n r s = Res.next a s1 →
      0 ≤ a.1 ∧ a.1 ≤ 5 * pbits ∧ (s1.ncb : Int) = s.ncb + a.1 ∧ a.2.1 = n + a.1 ∧
      (5 * pbits ≤ a.1 →
        ∃ s2, fips_generate env test pbits lfuel (fuel + 1) n r s = Res.jump (-1) s2)) ∧
    (∀ a s1, fips_qloop env test pbits lfuel 0 n r s = Res.next a s1 →
      0 ≤ a.1 ∧ a.1 ≤ 5 * pbits ∧ (s1.ncb : Int) = s.ncb + a.1 ∧ a.2.1 = n + a.1) ∧
    (∀ a1 s1 a2 s2, fips_ploop env test pbits lfuel 0 n r s = Res.next a1 s1 →
      a1.1 < 5 * pbits → env.cb s1.ncb 3 0 = true →
      fips_qloop env test pbits lfuel 0 a1.2.1 a1.2.2
        { s1 with ncb := s1.ncb + 1, trace := Event.callback 3 0 true :: s1.trace } =
          Res.next a2 s2 →
      5 * pbits ≤ a2.1 →
      ∃ s3, fips_generate env test pbits lfuel (fuel + 1) n r s = Res.jump (-1) s3) ∧
    (∀ bits e_value s0 s1, fips_rsa_builtin_keygen env fuel s0 bits e_value = some (0, s1) →
      s0.ndraw < s1.ndraw →
      s1.errs.head? = some (generic_error Func.FIPS_RSA_BUILTIN_KEYGEN)) := by
  refine ⟨fun a s1 h => ?_, fun a s1 h => ?_, fun a1 s1 a2 s2 h1 hi1 hcb h2 hi2 => ?_,
    fun bits e_value s0 s1 h hd => ?_⟩
  · obtain ⟨-, c2, c3, c4, c5⟩ := loop_more_of_next
      (fips_ploop_more env test pbits e (fun _ => True) (fun _ => trivial) lfuel 0 n r s he
        (fun _ => trivial)) a s1 h
    refine ⟨c2, c3 hpos, by rw [c4]; omega, by rw [c5]; omega, fun hex => ?_⟩
    simp only [fips_generate, bind_apply, M_ite_apply, andThen_ite, if_pos hpos, h, andThen_next,
      BN_GENCB_call_apply, ite_apply, goto_err_apply]
    by_cases hc : (!env.cb s1.ncb 3 0) = true
    · rw [if_pos hc]
      exact ⟨_, rfl⟩
    · rw [if_neg hc, if_pos hex]
      exact ⟨_, rfl⟩
  · obtain ⟨-, c2, c3, c4, c5⟩ := loop_more_of_next
      (fips_qloop_more env test pbits e (fun _ => True) (fun _ => trivial) lfuel 0 n r s he
        (fun _ => trivial)) a s1 h
    exact ⟨c2, c3 hpos, by rw [c4]; omega, by rw [c5]; omega⟩
  · simp only [fips_generate, bind_apply, M_ite_apply, andThen_ite, if_pos hpos, h1, andThen_next,
      BN_GENCB_call_apply, ite_apply, goto_err_apply, hcb, Bool.not_true, Bool.false_eq_true,
      if_false, if_neg (not_le.mpr hi1), h2]
    by_cases hc : (!env.cb s2.ncb 3 1) = true
    · rw [if_pos hc]
      exact ⟨_, rfl⟩
    · rw [if_neg hc, if_pos hi2]
      exact ⟨_, rfl⟩
  · unfold fips_rsa_builtin_keygen at h
    have hx := fips_body_exits env fuel bits e_value s0
    rcases finish_cases _ _ _ _ h with ⟨h1, -⟩ | ⟨s2, -, -, hs1⟩ | ⟨ok, hok, hr, hret⟩
    · omega
    · rw [hs1]
      rfl
    · rw [hr] at hx
      obtain ⟨-, ⟨g, -⟩, -⟩ := hx.1 hret.symm
      omega

/-- Witness for C16 (amended): searches for 4-bit candidates with minimum 9
in which every test (`composite_env`), or every test after the first
(`one_prime_env`), answers "composite"; the aborted run of `abort_env`; and
the full run for 1024 bits in `composite_env`, which ends after 2560 tests. -/
theorem C16_witness :
    search_state.rsa.e = some 65537 ∧ (0 : Int) < 5 * 4 ∧
    fips_ploop composite_env false 4 30 0 0 toy_regs search_state =
      Res.next exhausted_p.1 exhausted_p.2 ∧
    (0 ≤ exhausted_p.1.1 ∧ exhausted_p.1.1 ≤ 5 * 4 ∧
      (exhausted_p.2.ncb : Int) = search_state.ncb + exhausted_p.1.1 ∧
      exhausted_p.1.2.1 = 0 + exhausted_p.1.1 ∧
      ((5 : Int) * 4 ≤ exhausted_p.1.1 →
        ∃ s2, fips_generate composite_env false 4 30 (7 + 1) 0 toy_regs search_state =
          Res.jump (-1) s2)) ∧
    (5 : Int) * 4 ≤ exhausted_p.1.1 ∧
    fips_ploop one_prime_env false 4 30 0 0 toy_regs search_state =
      Res.next found_p.1 found_p.2 ∧
    found_p.1.1 < 5 * 4 ∧ one_prime_env.cb found_p.2.ncb 3 0 = true ∧
    fips_qloop one_prime_env false 4 30 0 found_p.1.2.1 found_p.1.2.2 found_p_called =
      Res.next exhausted_q.1 exhausted_q.2 ∧
    (5 : Int) * 4 ≤ exhausted_q.1.1 ∧
    (∃ s3, fips_generate one_prime_env false 4 30 (7 + 1) 0 toy_regs search_state =
      Res.jump (-1) s3) ∧
    fips_rsa_builtin_keygen abort_env 5 fresh_state 1024 65537 = some (0, fips_abort_final) ∧
    fresh_state.ndraw < fips_abort_final.ndraw ∧
    fips_abort_final.errs.head? = some (generic_error Func.FIPS_RSA_BUILTIN_KEYGEN) ∧
    (fips_rsa_builtin_keygen composite_env 3000 fresh_state 1024 65537).map
      (fun r => (r.1, r.2.ndraw, r.2.ntest, r.2.ncb, r.2.errs)) =
      some (0, 2560, 2560, 2561, [generic_error Func.FIPS_RSA_BUILTIN_KEYGEN]) :=
  ⟨rfl, by decide, exhausted_p_run,
    (C16_only_tested_candidates_counted composite_env false 4 30 7 0 toy_regs search_state 65537
      rfl (by decide)).1 exhausted_p.1 exhausted_p.2 exhausted_p_run,
    by decide!, found_p_run, by decide!, rfl, exhausted_q_run, by decide!,
    (C16_only_tested_candidates_counted one_prime_env false 4 30 7 0 toy_regs search_state 65537
      rfl (by decide)).2.2.1 found_p.1 found_p.2 exhausted_q.1 exhausted_q.2 found_p_run
      (by decide!) rfl exhausted_q_run (by decide!),
    fips_abort_run, by decide!,
    (C16_only_tested_candidates_counted abort_env false 4 30 5 0 toy_regs search_state 65537
      rfl (by decide)).2.2.2 1024 65537 fresh_state fips_abort_final fips_abort_run
      (by decide!),
    exhaustion_run⟩

/-- C17, counterexample: for 1024 bits and `e = 2^255 + 1` the first pass
finds `small_d_p` and `small_d_q`, both above the precomputed minimum, and a
`d` of 510 bits, so the code goes back to `retry`.  In the second pass the
same two values are drawn again and again, 27 times, and none is tested or
counted: each is below `r0`, which now holds `lcm(p-1, q-1)`, a number of
more than 512 bits.  The pass ends only because the 61st library call
fails.  With `e = 65537` the same two values give a key in one pass. -/
theorem C17_counterexample :
    (fips_rsa_builtin_keygen retry_env 100 fresh_state 1024 small_d_e).map
        (fun r => (r.1, r.2.ndraw, r.2.ntest, r.2.ncb, r.2.rsa.d.map BN_num_bits)) =
      some (0, 29, 2, 2, some 510) ∧
    (fips_rsa_builtin_keygen retry_env 100 fresh_state 1024 small_d_e).map
        (fun r => (r.2.trace.take 27, (r.2.trace.drop 27).map is_draw)) =
      some ((List.range 27).map (fun k =>
          Event.draw 512 (if k % 2 = 0 then (small_d_p : Int) else (small_d_q : Int))),
        [false, false, true, false, false, true]) ∧
    min_prime 512 ≤ (small_d_p : Int) ∧ min_prime 512 ≤ (small_d_q : Int) ∧
    (2 : Int) ^ 512 < (Int.lcm ((small_d_p : Int) - 1) ((small_d_q : Int) - 1) : Int) ∧
    (fips_rsa_builtin_keygen retry_env 100 fresh_state 1024 65537).map
        (fun r => (r.1, r.2.ndraw, r.2.ntest)) = some (1, 2, 2) := by
  refine ⟨?_, ?_, ?_, ?_, ?_, ?_⟩
  · decide!
  · decide!
  · decide!
  · decide!
  · decide!
  · decide!

/-- C17: what a pass after `goto retry` compares its candidates with.  When
`fips_derive_d` has run on factors `p ≠ q` that are both at least the
precomputed minimum `min_prime pbits`, the temporary `r0` holds
`lcm(p-1, q-1)`, which is at least `2^pbits` and so above every candidate of
`pbits` bits, while `r3` still holds the minimum gap.  A search started with
these temporaries (`fips_generate`, as `goto retry` does) never finds a
prime: it can only leave through `err` with `ok = -1`, without a single
primality test or callback, and when no library call fails it does not end,
whatever the fuel. -/
theorem C17_retry_compares_candidates_with_lcm (env : Env) (pbits : Int) (lfuel fuel : Nat)
    (n : Int) (r : Regs) (s : St) (e p q : Int) (r1 : Regs) (s1 : St) (h32 : 32 ≤ pbits)
    (he : s.rsa.e = some e) (hp : s.rsa.p = some p) (hq : s.rsa.q = some q)
    (hBp : min_prime pbits ≤ p) (hBq : min_prime pbits ≤ q) (hne : p ≠ q)
    (hd : fips_derive_d env r s = Res.next r1 s1) :
    r1.r0 = (Int.lcm (p - 1) (q - 1) : Int) ∧ r1.r3 = r.r3 ∧
      min_prime pbits < 2 ^ pbits.toNat ∧ (2 : Int) ^ pbits.toNat ≤ r1.r0 ∧
      (fips_generate env false pbits lfuel fuel n r1 s1).sat (fun _ _ => False)
        (fun ok s2 => ok = -1 ∧ s2.ntest = s1.ntest ∧ s2.ncb = s1.ncb) ∧
      ((∀ k, env.fail k = false) →
        fips_generate env false pbits lfuel fuel n r1 s1 = Res.spin) := by
  have hs := fips_derive_d_spec env e p q r s he hp hq
  rw [hd] at hs
  obtain ⟨P, Q, ⟨e1, e2⟩, hP, hQ, e3, -, -, e6, -⟩ := hs
  have hB := (min_prime_facts pbits).1
  have h1 := hP.symm.trans e1
  have h2 := hQ.symm.trans e2
  simp only [Option.some.injEq] at h1 h2
  have key : r1.r0 = (Int.lcm (p - 1) (q - 1) : Int) ∧ (2 : Int) ^ pbits.toNat ≤ r1.r0 := by
    rw [e6]
    by_cases hlt : p < q
    · rw [if_pos hlt] at h1 h2
      subst h1 h2
      refine ⟨?_, lam_fips_ge_two_pow pbits P Q h32 hBq hBp hlt⟩
      rw [lam_fips_eq_lcm P Q (by omega) (by omega), Int.lcm_comm]
    · rw [if_neg hlt] at h1 h2
      subst h1 h2
      refine ⟨lam_fips_eq_lcm P Q (by omega) (by omega),
        lam_fips_ge_two_pow pbits P Q h32 hBp hBq (by omega)⟩
  obtain ⟨g1, g2⟩ := fips_generate_stuck env pbits lfuel (by omega) fuel n r1 s1 key.2
  exact ⟨key.1, e3, (two_pow_le_twice_min_prime pbits h32).2, key.2, g1, g2⟩

/-- Witness for C17: `fips_derive_d` on the key that holds `small_d_p`,
`small_d_q` and `small_d_e`, in `calm_env`. -/
theorem C17_witness :
    (32 : Int) ≤ 512 ∧ found_state.rsa.e = some small_d_e ∧
    found_state.rsa.p = some (small_d_p : Int) ∧ found_state.rsa.q = some (small_d_q : Int) ∧
    min_prime 512 ≤ (small_d_p : Int) ∧ min_prime 512 ≤ (small_d_q : Int) ∧
    (small_d_p : Int) ≠ (small_d_q : Int) ∧
    fips_derive_d calm_env search_regs found_state = Res.next after_derive.1 after_derive.2 ∧
    BN_num_bits (val after_derive.2.rsa.d) < 512 ∧
    (after_derive.1.r0 = (Int.lcm ((small_d_p : Int) - 1) ((small_d_q : Int) - 1) : Int) ∧
      after_derive.1.r3 = search_regs.r3 ∧
      min_prime 512 < 2 ^ (512 : Int).toNat ∧ (2 : Int) ^ (512 : Int).toNat ≤ after_derive.1.r0 ∧
      (fips_generate calm_env false 512 9 9 0 after_derive.1 after_derive.2).sat
        (fun _ _ => False)
        (fun ok s2 => ok = -1 ∧ s2.ntest = after_derive.2.ntest ∧
          s2.ncb = after_derive.2.ncb) ∧
      ((∀ k, calm_env.fail k = false) →
        fips_generate calm_env false 512 9 9 0 after_derive.1 after_derive.2 = Res.spin)) :=
  ⟨by decide, rfl, rfl, rfl, by decide!, by decide!, by decide!, after_derive_run, by decide!,
    C17_retry_compares_candidates_with_lcm calm_env 512 9 9 0 search_regs found_state small_d_e
      small_d_p small_d_q after_derive.1 after_derive.2 (by decide) rfl rfl rfl (by decide!)
      (by decide!) (by decide!) after_derive_run⟩

theorem even_e_run :
    rsa_builtin_keygen late_abort_env 9 fresh_state 16 6 = some (0, even_e_final) := by
  decide!

theorem calm_env_odd (k : Nat) (b : Int) : calm_env.gen_prime k b % 2 = 1 := by
  show (if k = 0 then 241 else 251) % 2 = 1
  split <;> rfl

theorem pair_general_run : derive_general calm_env pair_state = Res.next () pair_general :=
  eq_next_of_value _ _ _ (by decide!)

theorem pair_fips_d_run :
    fips_derive_d calm_env toy_regs pair_state = Res.next pair_fips_d.1 pair_fips_d.2 :=
  eq_next_of_value _ _ _ (by decide!)

theorem pair_fips_run : fips_crt calm_env pair_fips_d.1 pair_fips_d.2 = Res.next () pair_fips :=
  eq_next_of_value _ _ _ (by decide!)

theorem calm_size_checks : size_checks_pass calm_env fresh_state 1024 :=
  ⟨rfl, by decide, by decide⟩

/-- Witness for C11: `e = 3` and `e = 65537` for 1024 bits on a fresh state in
`calm_env`. -/
theorem C11_witness :
    size_checks_pass calm_env fresh_state 1024 ∧ bad_exponent 3 ∧
    (∀ k, calm_env.fail k = false) ∧
    (∃ s1, fips_rsa_builtin_keygen calm_env 5 fresh_state 1024 3 = some (0, s1) ∧
      s1.errs = bad_e_error :: fresh_state.errs ∧ Untouched fresh_state s1 ∧
      s1.rsa.e = some (val fresh_state.rsa.e)) ∧
    ¬ bad_exponent 65537 ∧
    fips_rsa_builtin_keygen calm_env 5 fresh_state 1024 65537 = some (1, fips_final) ∧
    ¬ ((1 : Int) = 0 ∧ fips_final.errs.head? = some bad_e_error) :=
  ⟨calm_size_checks, Or.inl (by decide), fun _ => rfl,
    (C11_bad_exponent_rejected_before_search calm_env 5 fresh_state 1024 3
      calm_size_checks).1 (Or.inl (by decide)) (fun _ => rfl),
    by unfold bad_exponent; decide!, fips_run,
    (C11_bad_exponent_rejected_before_search calm_env 5 fresh_state 1024 65537
      calm_size_checks).2.2 (by unfold bad_exponent; decide!) 1 fips_final fips_run⟩

/-- Witness for C19: the two derivations on the key that holds 251, 241 and
`e = 7`; here `d_general = 17143` and `d_fips = 5143`. -/
theorem C19_witness :
    pair_state.rsa.e = some 7 ∧ pair_state.rsa.p = some 251 ∧ pair_state.rsa.q = some 241 ∧
    (2 : Int) ≤ 241 ∧ (241 : Int) < 251 ∧
    (∃ s1 r1 s1' s2', derive_general calm_env pair_state = Res.next () s1 ∧
      fips_derive_d calm_env toy_regs pair_state = Res.next r1 s1' ∧
      fips_crt calm_env r1 s1' = Res.next () s2') ∧
    derive_general calm_env pair_state = Res.next () pair_general ∧
    fips_derive_d calm_env toy_regs pair_state = Res.next pair_fips_d.1 pair_fips_d.2 ∧
    fips_crt calm_env pair_fips_d.1 pair_fips_d.2 = Res.next () pair_fips ∧
    pair_general.rsa.d = some 17143 ∧ pair_fips.rsa.d = some 5143 ∧
    (pair_general.rsa.n = pair_fips.rsa.n ∧ pair_general.rsa.p = pair_fips.rsa.p ∧
      pair_general.rsa.q = pair_fips.rsa.q ∧ pair_general.rsa.dmp1 = pair_fips.rsa.dmp1 ∧
      pair_general.rsa.dmq1 = pair_fips.rsa.dmq1 ∧ pair_general.rsa.iqmp = pair_fips.rsa.iqmp ∧
      ∃ dg df, pair_general.rsa.d = some dg ∧ pair_fips.rsa.d = some df ∧
        df = dg % (Int.lcm ((251 : Int) - 1) ((241 : Int) - 1) : Int) ∧
        (df = dg ↔ dg < (Int.lcm ((251 : Int) - 1) ((241 : Int) - 1) : Int))) :=
  ⟨rfl, rfl, rfl, by decide, by decide,
    (C19_derivations_agree calm_env calm_env pair_state pair_state toy_regs 7 251 241
      rfl rfl rfl rfl rfl rfl (by decide) (by decide)).1 (fun _ => rfl) (fun _ => rfl)
      (fun _ => accepting_oracle_ok) (by decide) (by decide) (by decide),
    pair_general_run, pair_fips_d_run, pair_fips_run, by decide!, by decide!,
    (C19_derivations_agree calm_env calm_env pair_state pair_state toy_regs 7 251 241
      rfl rfl rfl rfl rfl rfl (by decide) (by decide)).2 pair_general pair_fips_d.1
      pair_fips_d.2 pair_fips pair_general_run pair_fips_d_run pair_fips_run⟩

/-- Witness for C20: `e = 6` for 16 bits; in `late_abort_env` four candidates
are drawn before the callback aborts, in `calm_env` the search does not
end. -/
theorem C20_witness :
    (6 : Int) % 2 = 0 ∧ (∀ k b, late_abort_env.gen_prime k b % 2 = 1) ∧ ¬ (16 : Int) < 16 ∧
    rsa_builtin_keygen late_abort_env 9 fresh_state 16 6 = some (0, even_e_final) ∧
    even_e_final.ndraw = 4 ∧ even_e_final.ncb = 4 ∧
    ((0 : Int) = 0 ∧
      even_e_final.errs.head? = some (generic_error Func.RSA_BUILTIN_KEYGEN)) ∧
    (∀ s1, rsa_builtin_keygen calm_env 9 fresh_state 16 6 ≠ some (1, s1)) ∧
    rsa_builtin_keygen calm_env 9 fresh_state 16 6 = none :=
  ⟨by decide, calm_env_odd, by decide, even_e_run, by decide!, by decide!,
    (C20_even_exponent_never_succeeds late_abort_env 9 fresh_state 16 6 (by decide) calm_env_odd
      (by decide)).2.1 0 even_e_final even_e_run,
    (C20_even_exponent_never_succeeds calm_env 9 fresh_state 16 6 (by decide) calm_env_odd
      (by decide)).1,
    (C20_even_exponent_never_succeeds calm_env 9 fresh_state 16 6 (by decide) calm_env_odd
      (by decide)).2.2 (by decide) (fun _ => rfl) (fun _ _ _ => rfl)⟩

/-! ## Termination under an aborting callback, and the candidate filter -/

@[simp]
theorem ends_next {α : Type} (a : α) (s : St) (Q : α → St → Prop) (E : Int → St → Prop) :
    (Res.next a s).ends Q E ↔ Q a s := Iff.rfl

@[simp]
theorem ends_jump {α : Type} (ok : Int) (s : St) (Q : α → St → Prop) (E : Int → St → Prop) :
    (Res.jump ok s : Res α).ends Q E ↔ E ok s := Iff.rfl

@[simp]
theorem ends_spin {α : Type} (Q : α → St → Prop) (E : Int → St → Prop) :
    (Res.spin : Res α).ends Q E ↔ False := Iff.rfl

theorem ends_andThen {α β : Type} {r : Res α} {f : α → St → Res β}
    {Q1 : α → St → Prop} {Q : β → St → Prop} {E1 E : Int → St → Prop}
    (h1 : r.ends Q1 E1) (h2 : ∀ a s1, Q1 a s1 → (f a s1).ends Q E)
    (h3 : ∀ ok s1, E1 ok s1 → E ok s1) : (r.andThen f).ends Q E := by
  cases r with
  | next a s1 => exact h2 a s1 h1
  | jump ok s1 => exact h3 ok s1 h1
  | spin => exact h1

theorem ends_mono {α : Type} {r : Res α} {Q1 Q : α → St → Prop} {E1 E : Int → St → Prop}
    (h1 : r.ends Q1 E1) (h2 : ∀ a s1, Q1 a s1 → Q a s1) (h3 : ∀ ok s1, E1 ok s1 → E ok s1) :
    r.ends Q E := by
  cases r with
  | next a s1 => exact h2 a s1 h1
  | jump ok s1 => exact h3 ok s1 h1
  | spin => exact h1

theorem ends_ite {α : Type} {c : Prop} [Decidable c] {x y : Res α} {Q : α → St → Prop}
    {E : Int → St → Prop} (h1 : c → x.ends Q E) (h2 : ¬ c → y.ends Q E) :
    (if c then x else y).ends Q E := by
  split
  · exact h1 ‹_›
  · exact h2 ‹_›

/-- A run that ends satisfies what `Res.sat` promises for it. -/
theorem ends_of_sat {α : Type} {r : Res α} {Q Q1 : α → St → Prop} {E E1 : Int → St → Prop}
    (h1 : r.sat Q E) (h2 : r.ends Q1 E1) : r.ends (fun a s => Q a s ∧ Q1 a s)
      (fun ok s => E ok s ∧ E1 ok s) := by
  cases r with
  | next a s1 => exact ⟨h1, h2⟩
  | jump ok s1 => exact ⟨h1, h2⟩
  | spin => exact h2

/-- The context set-up always ends; it fails only when a library call fails. -/
theorem ctx_setup_ends (env : Env) (s : St) :
    (ctx_setup env s).ends (fun _ s1 => Quiet s s1)
      (fun ok s1 => ok = -1 ∧ Quiet s s1 ∧ ¬ ∀ k, env.fail k = false) := by
  by_cases hf : ∀ k, env.fail k = false
  · rw [ctx_setup_run env hf s]
    exact ⟨rfl, rfl, rfl, rfl, rfl, rfl⟩
  · have h1 := ctx_setup_spec env s
    have h2 : (ctx_setup env s).ends (fun _ _ => True) (fun _ _ => True) := by
      simp only [ctx_setup, bind_apply, lib_apply, lib_call_apply, andThen_ite, andThen_next,
        andThen_jump, M_ite_apply, pure_apply, goto_err_apply]
      repeat' refine ends_ite (fun _ => ?_) (fun _ => ?_)
      all_goals trivial
    exact ends_mono (ends_of_sat h1 h2) (fun _ _ h => h.1.1) (fun _ _ h => ⟨h.1.1, h.1.2.1, hf⟩)

theorem ensure_halts (env : Env) (get : RSA → Option Int) (set : RSA → RSA) (s : St) :
    (ensure env get set s).ends (fun _ _ => True) (fun _ _ => True) := by
  simp only [ensure, bind_apply, get_st_apply, andThen_next, M_ite_apply, lib_apply,
    andThen_ite, andThen_jump, set_rsa_apply, pure_apply]
  repeat' refine ends_ite (fun _ => ?_) (fun _ => ?_)
  all_goals trivial

/-- The eight allocations always end; they fail only when a library call
fails. -/
theorem alloc_components_ends (env : Env) (s : St) :
    (alloc_components env s).ends (fun _ s1 => Quiet s s1 ∧ Allocated s.rsa s1.rsa)
      (fun ok s1 => ok = -1 ∧ Quiet s s1 ∧ ¬ ∀ k, env.fail k = false) := by
  by_cases hf : ∀ k, env.fail k = false
  · obtain ⟨s1, h1, hq, ha⟩ := alloc_components_run env hf s
    rw [h1]
    exact ⟨hq, ha⟩
  · have h1 := alloc_components_spec env s
    have h2 : (alloc_components env s).ends (fun _ _ => True) (fun _ _ => True) := by
      unfold alloc_components
      simp only [bind_apply]
      refine ends_andThen (ensure_halts env _ _ s) (fun _ s1 _ => ?_) (fun _ _ h => h)
      refine ends_andThen (ensure_halts env _ _ s1) (fun _ s2 _ => ?_) (fun _ _ h => h)
      refine ends_andThen (ensure_halts env _ _ s2) (fun _ s3 _ => ?_) (fun _ _ h => h)
      refine ends_andThen (ensure_halts env _ _ s3) (fun _ s4 _ => ?_) (fun _ _ h => h)
      refine ends_andThen (ensure_halts env _ _ s4) (fun _ s5 _ => ?_) (fun _ _ h => h)
      refine ends_andThen (ensure_halts env _ _ s5) (fun _ s6 _ => ?_) (fun _ _ h => h)
      refine ends_andThen (ensure_halts env _ _ s6) (fun _ s7 _ => ?_) (fun _ _ h => h)
      exact ensure_halts env _ _ s7
    exact ends_mono (ends_of_sat h1 h2) (fun _ _ h => h.1) (fun _ _ h => ⟨h.1.1, h.1.2, hf⟩)

/-- With a callback that aborts at its next invocation, the first loop of
`rsa_builtin_keygen` ends in its first iteration: it draws at most one
candidate, and either accepts it without calling back or goes to `err`;
when no library call fails and `e` is not zero, a rejected candidate is
followed by the one aborting invocation. -/
theorem gen_p_loop_aborts (env : Env) (bitsp : Int) (k : Nat) (n : Int) (s : St)
    (ha : cb_aborts env s) :
    (gen_p_loop env bitsp (k + 1) n s).ends
      (fun _ s1 => s1.ncb = s.ncb ∧ s1.ndraw = s.ndraw + 1)
      (fun ok s1 => ok = -1 ∧ (s1.ncb = s.ncb ∨ Cancelled s s1) ∧
        ((∀ j, env.fail j = false) → val s.rsa.e ≠ 0 →
          Cancelled s s1 ∧ s1.ndraw = s.ndraw + 1)) := by
  have hcb : env.cb s.ncb 2 n = false := ha 2 n
  simp only [gen_p_loop, bind_apply, BN_generate_prime_ex_apply, lib_apply, get_st_apply,
    BN_mod_inverse_apply, andThen_ite, andThen_next, andThen_jump, BN_GENCB_call_apply,
    M_ite_apply, pop_to_mark_apply, goto_err_apply, pure_apply, hcb, Bool.false_eq_true,
    if_false]
  split_ifs
  all_goals simp_all [Cancelled, is_no_inverse]
  all_goals (intro hf; simp_all)

/-- With a callback that aborts at its next invocation, `rsa_builtin_keygen`
past its size check goes to `err` with `ok = -1` within one iteration of its
first loop, having invoked the callback at most once; when no library call
fails and `e` is not zero, it has drawn one candidate and invoked the
callback once. -/
theorem keygen_body_aborts (env : Env) (k : Nat) (bits e_value : Int) (hbits : ¬ bits < 16)
    (s : St) (ha : cb_aborts env s) :
    (rsa_builtin_keygen_body env (k + 1) bits e_value s).ends (fun _ _ => False)
      (fun ok s1 => ok = -1 ∧ (s1.ncb = s.ncb ∨ Cancelled s s1) ∧
        ((∀ j, env.fail j = false) → e_value ≠ 0 →
          Cancelled s s1 ∧ s1.ndraw = s.ndraw + 1)) := by
  simp only [rsa_builtin_keygen_body, if_neg hbits, bind_apply]
  refine ends_andThen (ctx_setup_ends env s) ?_ ?_
  swap
  · rintro ok s1 ⟨h0, hq, hf⟩
    exact ⟨h0, Or.inl hq.2.2.2.2.1, fun h => absurd h hf⟩
  intro _ s1 q1
  refine ends_andThen (alloc_components_ends env s1) ?_ ?_
  swap
  · rintro ok s2 ⟨h0, hq, hf⟩
    have hq := q1.trans_quiet hq
    exact ⟨h0, Or.inl hq.2.2.2.2.1, fun h => absurd h hf⟩
  rintro _ s2 ⟨q2, _⟩
  obtain ⟨-, -, qd, -, qc, -⟩ := q1.trans_quiet q2
  simp only [bind_apply, lib_apply, andThen_ite, andThen_jump, andThen_next, set_rsa_apply]
  refine ends_ite (fun hfail => ?_) (fun _ => ?_)
  · exact ⟨rfl, Or.inl qc, fun hf => by rw [hf] at hfail; exact absurd hfail (by decide)⟩
  refine ends_andThen (gen_p_loop_aborts env _ k 0 _ ((cb_aborts_congr env ?_).mpr ha)) ?_ ?_
  · exact qc
  · rintro n s3 ⟨h1, h2⟩
    have h1 : s3.ncb = s2.ncb := h1
    have h2 : s3.ndraw = s2.ndraw + 1 := h2
    have hcb : env.cb s3.ncb 3 0 = false := by
      rw [h1, qc]
      exact ha 3 0
    simp only [bind_apply, BN_GENCB_call_apply, andThen_next, M_ite_apply, goto_err_apply, hcb,
      Bool.not_false, if_true, ends_jump]
    have hc : ∀ t : St, t.ncb = s.ncb + 1 →
        (∃ a b, t.trace.head? = some (Event.callback a b false)) → Cancelled s t :=
      fun t g1 g2 => ⟨g1, g2⟩
    have hn : s3.ncb + 1 = s.ncb + 1 := by omega
    have hd : s3.ndraw = s.ndraw + 1 := by omega
    exact ⟨trivial, Or.inr (hc _ hn ⟨3, 0, rfl⟩), fun _ _ => ⟨hc _ hn ⟨3, 0, rfl⟩, hd⟩⟩
  · rintro ok s3 ⟨h0, h1, h2⟩
    refine ⟨h0, ?_, fun hf he => ?_⟩
    · rcases h1 with h1 | h1
      · exact Or.inl (by have h1 : s3.ncb = s2.ncb := h1; omega)
      · exact Or.inr (@Cancelled_congr s _ s3 qc h1)
    · obtain ⟨g1, g2⟩ := h2 hf he
      exact ⟨@Cancelled_congr s _ s3 qc g1,
        by have g2 : s3.ndraw = s2.ndraw + 1 := g2; omega⟩

/-- The candidate check always ends, without calling back or drawing. -/
theorem fips_candidate_ends (env : Env) (test : Bool) (pbits : Int) (x : Int) (r : Regs)
    (s : St) :
    (fips_candidate env test pbits x r s).ends
      (fun _ s1 => s1.ncb = s.ncb ∧ s1.ndraw = s.ndraw)
      (fun ok s1 => ok = -1 ∧ s1.ncb = s.ncb ∧ s1.ndraw = s.ndraw) := by
  simp only [fips_candidate, bind_apply, lib_apply, get_st_apply,
    BN_mod_inverse_apply, andThen_ite, andThen_next, andThen_jump, BN_is_prime_apply,
    M_ite_apply, pop_to_mark_apply, goto_err_apply, pure_apply]
  repeat' refine ends_ite (fun _ => ?_) (fun _ => ?_)
  all_goals simp only [ends_jump, ends_next]
  all_goals simp

/-- What the first loop of the compliance generator does after the draw, when
the callback aborts at its next invocation: the comparison with the minimum,
the candidate check and the one invocation of the callback. -/
theorem fips_ploop_tail_aborts (env : Env) (test : Bool) (pbits : Int) (k : Nat)
    (i n : Int) (r : Regs) (s s2 : St) (ha : cb_aborts env s) (hc : s2.ncb = s.ncb)
    (hrec : test = false → val s2.rsa.p < r.r0 →
      (fips_ploop env test pbits k i n r s2).ends (fun _ s1 => s1.ncb = s.ncb)
        (fun ok s1 => ok = -1 ∧ (s1.ncb = s.ncb ∨ Cancelled s s1))) :
    (if val s2.rsa.p < r.r0 then
        (if test = true then Res.jump (-1) s2 else fips_ploop env test pbits k i n r s2)
      else (fips_candidate env test pbits (val s2.rsa.p) r s2).andThen fun d =>
        if d.1 = true then (pure (i, n, d.2) : M (Int × Int × Regs))
        else (BN_GENCB_call env 2 n >>= fun c =>
          if (!c) = true then goto_err (-1)
          else if i + 1 < 5 * pbits then fips_ploop env test pbits k (i + 1) (n + 1) d.2
          else pure (i + 1, n + 1, d.2))).ends
      (fun _ s1 => s1.ncb = s.ncb)
      (fun ok s1 => ok = -1 ∧ (s1.ncb = s.ncb ∨ Cancelled s s1)) := by
  refine ends_ite (fun hlt => ?_) (fun _ => ?_)
  · refine ends_ite (fun _ => ?_) (fun ht => ?_)
    · exact ⟨rfl, Or.inl hc⟩
    · exact hrec (by simpa using ht) hlt
  · refine ends_andThen (fips_candidate_ends env test pbits _ r s2) ?_ ?_
    swap
    · rintro ok s3 ⟨g0, g1, -⟩
      exact ⟨g0, Or.inl (g1.trans hc)⟩
    rintro ⟨brk, r3⟩ s3 ⟨g1, -⟩
    have hc3 : s3.ncb = s.ncb := g1.trans hc
    have hcb : env.cb s3.ncb 2 n = false := by
      rw [hc3]
      exact ha 2 n
    simp only [bind_apply, BN_GENCB_call_apply, andThen_next, M_ite_apply, ite_apply, pure_apply,
      goto_err_apply, hcb, Bool.not_false, if_true]
    refine ends_ite (fun _ => hc3) (fun _ => ?_)
    exact ⟨rfl, Or.inr ⟨by show s3.ncb + 1 = s.ncb + 1; omega, 2, n, rfl⟩⟩

/-- With a callback that aborts at its next invocation, the first loop of
the compliance generator ends as soon as a candidate reaches the minimum:
`j` redraws below the minimum take `j` units of fuel, and the candidate that
follows is either accepted without a callback or followed by the aborting
invocation. -/
theorem fips_ploop_aborts (env : Env) (test : Bool) (pbits : Int) :
    ∀ (j fuel : Nat) (i n : Int) (r : Regs) (s : St), j < fuel → cb_aborts env s →
      (test = false → r.r0 ≤ BN_rand_val (env.rand (s.ndraw + j)) pbits 0 1) →
      (fips_ploop env test pbits fuel i n r s).ends (fun _ s1 => s1.ncb = s.ncb)
        (fun ok s1 => ok = -1 ∧ (s1.ncb = s.ncb ∨ Cancelled s s1)) := by
  intro j
  induction j with
  | zero =>
    intro fuel i n r s hj ha hmin
    obtain ⟨k, rfl⟩ : ∃ k, fuel = k + 1 := ⟨fuel - 1, by omega⟩
    simp only [fips_ploop, bind_apply, BN_rand_apply, get_st_apply, andThen_ite, andThen_next,
      andThen_jump, M_ite_apply, pure_apply, goto_err_apply]
    refine ends_ite (fun hnt => ?_) (fun hnt => ?_)
    · refine ends_ite (fun _ => ⟨rfl, Or.inl rfl⟩) (fun _ => ?_)
      refine ends_ite (fun _ => ⟨rfl, Or.inl rfl⟩) (fun _ => ?_)
      refine fips_ploop_tail_aborts env test pbits k i n r s
        { s with nops := s.nops + 1, rsa := { s.rsa with p := some (BN_rand_val (env.rand s.ndraw) pbits 0 1) }, ndraw := s.ndraw + 1, trace := Event.draw pbits (BN_rand_val (env.rand s.ndraw) pbits 0 1) :: s.trace }
        ha rfl ?_
      intro ht hlt
      have h1 := hmin ht
      have h2 : BN_rand_val (env.rand s.ndraw) pbits 0 1 < r.r0 := hlt
      rw [Nat.add_zero] at h1
      omega
    · refine fips_ploop_tail_aborts env test pbits k i n r s s ha rfl ?_
      intro ht _
      rw [ht] at hnt
      exact absurd rfl hnt
  | succ j ih =>
    intro fuel i n r s hj ha hmin
    obtain ⟨k, rfl⟩ : ∃ k, fuel = k + 1 := ⟨fuel - 1, by omega⟩
    simp only [fips_ploop, bind_apply, BN_rand_apply, get_st_apply, andThen_ite, andThen_next,
      andThen_jump, M_ite_apply, pure_apply, goto_err_apply]
    refine ends_ite (fun hnt => ?_) (fun hnt => ?_)
    · refine ends_ite (fun _ => ⟨rfl, Or.inl rfl⟩) (fun _ => ?_)
      refine ends_ite (fun _ => ⟨rfl, Or.inl rfl⟩) (fun _ => ?_)
      refine fips_ploop_tail_aborts env test pbits k i n r s
        { s with nops := s.nops + 1, rsa := { s.rsa with p := some (BN_rand_val (env.rand s.ndraw) pbits 0 1) }, ndraw := s.ndraw + 1, trace := Event.draw pbits (BN_rand_val (env.rand s.ndraw) pbits 0 1) :: s.trace }
        ha rfl ?_
      intro ht _
      refine ends_mono (ih k i n r _ (by omega) ((cb_aborts_congr env rfl).mpr ha) ?_)
        (fun _ _ h => h) (fun _ _ h => ⟨h.1, ?_⟩)
      · intro _
        have h1 := hmin ht
        have h2 : s.ndraw + 1 + j = s.ndraw + (j + 1) := by omega
        show r.r0 ≤ BN_rand_val (env.rand (s.ndraw + 1 + j)) pbits 0 1
        rw [h2]
        exact h1
      · rcases h.2 with h3 | h3
        · exact Or.inl h3
        · exact Or.inr (@Cancelled_congr s _ _ rfl h3)
    · refine fips_ploop_tail_aborts env test pbits k i n r s s ha rfl ?_
      intro ht _
      rw [ht] at hnt
      exact absurd rfl hnt

/-- With a callback that aborts at its next invocation, the code from `retry`
goes to `err` with `ok = -1` before the second loop is entered, provided a
candidate of the first loop reaches the minimum within the fuel. -/
theorem fips_generate_aborts (env : Env) (test : Bool) (pbits : Int) (lfuel k : Nat)
    (n : Int) (r : Regs) (s : St) (ha : cb_aborts env s) (j : Nat) (hj : j < lfuel)
    (hmin : test = false → r.r0 ≤ BN_rand_val (env.rand (s.ndraw + j)) pbits 0 1) :
    (fips_generate env test pbits lfuel (k + 1) n r s).ends (fun _ _ => False)
      (fun ok s1 => ok = -1 ∧ (s1.ncb = s.ncb ∨ Cancelled s s1)) := by
  simp only [fips_generate, bind_apply, M_ite_apply, andThen_ite]
  refine ends_ite (fun _ => ?_) (fun _ => ?_)
  swap
  · have hcb : env.cb s.ncb 3 0 = false := ha 3 0
    simp only [pure_apply, andThen_next, bind_apply, BN_GENCB_call_apply, M_ite_apply,
      ite_apply, goto_err_apply, hcb, Bool.not_false, if_true]
    exact ⟨rfl, Or.inr ⟨rfl, 3, 0, rfl⟩⟩
  refine ends_andThen (fips_ploop_aborts env test pbits j lfuel 0 n r s hj ha hmin) ?_
    (fun _ _ h => h)
  rintro ⟨i1, n1, r1⟩ s1 hc
  have hc : s1.ncb = s.ncb := hc
  have hcb : env.cb s1.ncb 3 0 = false := by
    rw [hc]
    exact ha 3 0
  simp only [bind_apply, BN_GENCB_call_apply, andThen_next, M_ite_apply, ite_apply,
    goto_err_apply, hcb, Bool.not_false, if_true]
  exact ⟨rfl, Or.inr ⟨by show s1.ncb + 1 = s.ncb + 1; omega, 3, 0, rfl⟩⟩

/-- With a callback that aborts at its next invocation,
`fips_rsa_builtin_keygen` ends at `err`: with `ok = 0` at one of the checks on
its arguments, or with `ok = -1`, having invoked the callback at most once. -/
theorem fips_body_aborts (env : Env) (fuel : Nat) (bits e_value : Int) (s : St)
    (ha : cb_aborts env s) (j : Nat) (hj : j < fuel)
    (hmin : min_prime (Int.tdiv bits 2) ≤
      BN_rand_val (env.rand (s.ndraw + j)) (Int.tdiv bits 2) 0 1) :
    (fips_rsa_builtin_keygen_body env fuel bits e_value s).ends (fun _ _ => False)
      (fun ok s1 => (ok = -1 ∧ (s1.ncb = s.ncb ∨ Cancelled s s1)) ∨
        (ok = 0 ∧ s1.ncb = s.ncb)) := by
  obtain ⟨k, rfl⟩ : ∃ k, fuel = k + 1 := ⟨fuel - 1, by omega⟩
  simp only [fips_rsa_builtin_keygen_body, bind_apply, get_st_apply, andThen_next, M_ite_apply,
    put_error_apply, goto_err_apply]
  refine ends_ite (fun _ => Or.inr ⟨rfl, rfl⟩) (fun _ => ?_)
  refine ends_ite (fun _ => Or.inr ⟨rfl, rfl⟩) (fun _ => ?_)
  refine ends_ite (fun _ => Or.inr ⟨rfl, rfl⟩) (fun _ => ?_)
  refine ends_andThen (ctx_setup_ends env s) ?_ ?_
  swap
  · rintro ok s1 ⟨h0, hq, -⟩
    exact Or.inl ⟨h0, Or.inl hq.2.2.2.2.1⟩
  intro _ s1 q1
  refine ends_andThen (alloc_components_ends env s1) ?_ ?_
  swap
  · rintro ok s2 ⟨h0, hq, -⟩
    exact Or.inl ⟨h0, Or.inl (q1.trans_quiet hq).2.2.2.2.1⟩
  rintro _ s2 ⟨q2, -⟩
  obtain ⟨-, -, qd, -, qc, -⟩ := q1.trans_quiet q2
  simp only [bind_apply, lib_apply, andThen_ite, andThen_jump, andThen_next, put_error_apply,
    M_ite_apply, ite_apply, goto_err_apply, BN_lshift_apply, lib_call_apply, set_rsa_apply,
    pure_apply, get_st_apply]
  have jm : ∀ s3 : St, s3.ncb = s2.ncb → (-1 : Int) = -1 ∧ (s3.ncb = s.ncb ∨ Cancelled s s3) :=
    fun s3 h => ⟨rfl, Or.inl (h.trans qc)⟩
  have gen : ∀ (t : Bool) (s3 : St), s3.ncb = s2.ncb → s3.ndraw = s2.ndraw →
      (fips_generate env t (Int.tdiv bits 2) (k + 1) (k + 1) 0
        ⟨3037000500 * 2 ^ (Int.tdiv bits 2 - 32).toNat, 0, 0,
          1 * 2 ^ (Int.tdiv bits 2 - 100).toNat⟩ s3).ends (fun _ _ => False)
        (fun ok s1 => (ok = -1 ∧ (s1.ncb = s.ncb ∨ Cancelled s s1)) ∨
          (ok = 0 ∧ s1.ncb = s.ncb)) := by
    intro t s3 h1 h2
    have h3 : s3.ncb = s.ncb := h1.trans qc
    refine ends_mono (fips_generate_aborts env t _ (k + 1) k 0 _ s3
      ((cb_aborts_congr env h3).mpr ha) j hj ?_) (fun _ _ h => h) ?_
    · intro _
      have h4 : s3.ndraw + j = s.ndraw + j := by omega
      rw [h4]
      exact hmin
    · rintro ok s4 ⟨g0, g1⟩
      refine Or.inl ⟨g0, ?_⟩
      rcases g1 with g1 | g1
      · exact Or.inl (g1.trans h3)
      · exact Or.inr (Cancelled_congr h3 g1)
  refine ends_ite (fun _ => Or.inl (jm _ rfl)) (fun _ => ?_)
  refine ends_ite (fun _ => Or.inr ⟨rfl, qc⟩) (fun _ => ?_)
  refine ends_ite (fun _ => Or.inl (jm _ rfl)) (fun _ => ?_)
  refine ends_ite (fun _ => Or.inl (jm _ rfl)) (fun _ => ?_)
  refine ends_ite (fun _ => Or.inl (jm _ rfl)) (fun _ => ?_)
  refine ends_ite (fun _ => Or.inl (jm _ rfl)) (fun _ => ?_)
  refine ends_ite (fun _ => Or.inl (jm _ rfl)) (fun _ => ?_)
  refine ends_ite (fun _ => Or.inl (jm _ rfl)) (fun _ => ?_)
  refine ends_ite (fun _ => ?_) (fun _ => ?_)
  · exact gen _ _ rfl rfl
  · exact gen _ _ rfl rfl

/-- With a callback that aborts at its next invocation, no library failure,
`e ≠ 0`, a first candidate that reaches the minimum and a primality test that
does not report an error, the first loop of the compliance generator draws
one candidate and either accepts it or invokes the callback once. -/
theorem fips_ploop_first (env : Env) (pbits : Int) (k : Nat) (i n : Int) (r : Regs) (s : St)
    (ha : cb_aborts env s) (hf : ∀ j, env.fail j = false) (he : val s.rsa.e ≠ 0)
    (hpb : 1 ≤ pbits) (hmin : r.r0 ≤ BN_rand_val (env.rand s.ndraw) pbits 0 1)
    (hpr : ∀ x c, env.is_prime s.ntest x c ≠ -1) :
    (fips_ploop env false pbits (k + 1) i n r s).ends
      (fun _ s1 => s1.ncb = s.ncb ∧ s1.ndraw = s.ndraw + 1)
      (fun ok s1 => ok = -1 ∧ Cancelled s s1 ∧ s1.ndraw = s.ndraw + 1) := by
  have hguard : ¬ (pbits < 0 ∨ (pbits = 0 ∧ ((0 : Int) ≠ -1 ∨ (1 : Int) ≠ 0)) ∨
      (pbits = 1 ∧ (0 : Int) < 0)) := by omega
  have hcb : env.cb s.ncb 2 n = false := ha 2 n
  simp only [fips_ploop, fips_candidate, bind_apply, BN_rand_apply, get_st_apply, andThen_ite,
    andThen_next, andThen_jump, M_ite_apply, ite_apply, pure_apply, goto_err_apply,
    Bool.not_false, if_true, if_neg hguard, val, Option.getD_some, if_neg (not_lt.mpr hmin),
    Bool.false_eq_true, if_false, lib_apply, hf, BN_mod_inverse_apply, BN_is_prime_apply,
    BN_GENCB_call_apply, pop_to_mark_apply, hcb]
  split_ifs
  all_goals simp_all [Cancelled, is_no_inverse, val]

/-- Under the conditions of `fips_ploop_first`, the code from `retry` goes to
`err` with `ok = -1` after one draw and one invocation of the callback. -/
theorem fips_generate_first (env : Env) (pbits : Int) (l k : Nat) (n : Int) (r : Regs)
    (s : St) (ha : cb_aborts env s) (hf : ∀ j, env.fail j = false) (he : val s.rsa.e ≠ 0)
    (hpb : 1 ≤ pbits) (hmin : r.r0 ≤ BN_rand_val (env.rand s.ndraw) pbits 0 1)
    (hpr : ∀ x c, env.is_prime s.ntest x c ≠ -1) :
    (fips_generate env false pbits (l + 1) (k + 1) n r s).ends (fun _ _ => False)
      (fun ok s1 => ok = -1 ∧ Cancelled s s1 ∧ s1.ndraw = s.ndraw + 1) := by
  simp only [fips_generate, bind_apply, M_ite_apply, andThen_ite,
    if_pos (show 0 < 5 * pbits by omega)]
  refine ends_andThen (fips_ploop_first env pbits l 0 n r s ha hf he hpb hmin hpr) ?_
    (fun _ _ h => h)
  rintro ⟨i1, n1, r1⟩ s1 ⟨hc, hd⟩
  have hc : s1.ncb = s.ncb := hc
  have hd : s1.ndraw = s.ndraw + 1 := hd
  have hcb : env.cb s1.ncb 3 0 = false := by
    rw [hc]
    exact ha 3 0
  simp only [bind_apply, BN_GENCB_call_apply, andThen_next, M_ite_apply, ite_apply,
    goto_err_apply, hcb, Bool.not_false, if_true]
  exact ⟨rfl, ⟨by show s1.ncb + 1 = s.ncb + 1; omega, 3, 0, rfl⟩, hd⟩

/-- With a callback that aborts at its next invocation, `fips_rsa_builtin_keygen`
on a fresh key, with arguments that pass its checks, no library failure, a
first candidate that reaches the minimum and a primality test that does not
report an error, goes to `err` with `ok = -1` after one draw and one
invocation of the callback. -/
theorem fips_body_first (env : Env) (k : Nat) (bits e_value : Int) (s : St)
    (ha : cb_aborts env s) (hf : ∀ j, env.fail j = false)
    (hc : size_checks_pass env s bits) (he : ¬ bad_exponent e_value) (hfr : Fresh s.rsa)
    (hpb : 0 < Int.tdiv bits 2)
    (hmin : min_prime (Int.tdiv bits 2) ≤ BN_rand_val (env.rand s.ndraw) (Int.tdiv bits 2) 0 1)
    (hpr : ∀ x c, env.is_prime s.ntest x c ≠ -1) :
    (fips_rsa_builtin_keygen_body env (k + 1) bits e_value s).ends (fun _ _ => False)
      (fun ok s1 => ok = -1 ∧ Cancelled s s1 ∧ s1.ndraw = s.ndraw + 1) := by
  obtain ⟨h1, h2, h3⟩ := hc
  have he' : ¬ (e_value < 65537 ∨ BN_num_bits e_value > 256) := he
  have he0 : e_value ≠ 0 := by omega
  have hp256 : 256 ≤ Int.tdiv bits 2 := by omega
  obtain ⟨s1, hs1, hq, hal⟩ := alloc_components_run env hf
    { s with nops := s.nops + 1 + 1 + 1 + 1 + 1 }
  have h1' : ¬ (s.selftest_failed = true) := by simp [h1]
  obtain ⟨-, -, qd, qt, qc, -⟩ := hq
  obtain ⟨-, -, -, a4, a5, -⟩ := hal
  have a4 : s1.rsa.p = some (val s.rsa.p) := a4
  have a5 : s1.rsa.q = some (val s.rsa.q) := a5
  have ht : (decide (val s1.rsa.p ≠ 0) && decide (val s1.rsa.q ≠ 0)) = false := by
    have hv : ∀ x : Int, val (some x) = x := fun _ => rfl
    rw [a4, a5, hv, hv]
    unfold Fresh at hfr
    rcases hfr with h | h <;> simp [h]
  simp only [fips_rsa_builtin_keygen_body, bind_apply, get_st_apply, andThen_next, M_ite_apply,
    put_error_apply, goto_err_apply, if_neg h1', if_neg h2, if_neg (not_not.mpr h3),
    ctx_setup_run env hf, hs1, lib_apply, hf, if_neg he', Bool.false_eq_true, if_false,
    BN_lshift_apply, lib_call_apply, set_rsa_apply, pure_apply, ite_apply,
    if_neg (show ¬ Int.tdiv bits 2 - 32 < 0 by omega),
    if_neg (show ¬ Int.tdiv bits 2 - 100 < 0 by omega), Bool.not_false, if_true, ht]
  refine ends_mono (fips_generate_first env _ k k 0 _ _ ((cb_aborts_congr env ?_).mpr ha) hf ?_
    (by omega) ?_ ?_) (fun _ _ h => h) ?_
  · exact qc
  · exact he0
  · show min_prime (Int.tdiv bits 2) ≤ BN_rand_val (env.rand s1.ndraw) (Int.tdiv bits 2) 0 1
    have qd : s1.ndraw = s.ndraw := qd
    rw [qd]
    exact hmin
  · intro x c
    show env.is_prime s1.ntest x c ≠ -1
    have qt : s1.ntest = s.ntest := qt
    rw [qt]
    exact hpr x c
  · rintro ok s2 ⟨g0, g1, g2⟩
    have qd : s1.ndraw = s.ndraw := qd
    have g2 : s2.ndraw = s1.ndraw + 1 := g2
    exact ⟨g0, @Cancelled_congr s _ s2 qc g1, by omega⟩

/-- A body that ends at `err` with `ok = -1` makes the function return 0 with
the generic entry queued on top. -/
theorem finish_of_ends (f : Func) (r : Res Unit) (P : St → Prop)
    (h : r.ends (fun _ _ => False) (fun ok s1 => ok = -1 ∧ P s1)) :
    ∃ s2, P s2 ∧ finish f r = some (0, { s2 with errs := generic_error f :: s2.errs }) := by
  cases r with
  | next a s1 => exact absurd h id
  | jump ok s1 =>
    obtain ⟨h0, h1⟩ := h
    subst h0
    exact ⟨s1, h1, rfl⟩
  | spin => exact absurd h id

/-- C8, counterexample: a callback abort at its first invocation is reported
by both generators with return value 0 and the one generic error entry, and
the failure of the first library call is reported with the same return value
and the same entry on top of the error queue. -/
theorem C8_counterexample :
    (rsa_builtin_keygen abort_env 5 fresh_state 16 7).map (fun r => (r.1, r.2.errs, r.2.ncb)) =
      some (0, [generic_error Func.RSA_BUILTIN_KEYGEN], 1) ∧
    (rsa_builtin_keygen failing_env 5 fresh_state 16 7).map
        (fun r => (r.1, r.2.errs.head?, r.2.ncb)) =
      some (0, some (generic_error Func.RSA_BUILTIN_KEYGEN), 0) ∧
    (fips_rsa_builtin_keygen abort_env 5 fresh_state 1024 65537).map
        (fun r => (r.1, r.2.errs, r.2.ncb)) =
      some (0, [generic_error Func.FIPS_RSA_BUILTIN_KEYGEN], 1) ∧
    (fips_rsa_builtin_keygen failing_env 5 fresh_state 1024 65537).map
        (fun r => (r.1, r.2.errs.head?, r.2.ncb)) =
      some (0, some (generic_error Func.FIPS_RSA_BUILTIN_KEYGEN), 0) := by
  refine ⟨?_, ?_, ?_, ?_⟩
  · decide!
  · decide!
  · decide!
  · decide!

/-- C8, amended: when the callback answers "abort" at its first invocation,
each generator stops and returns 0.  `rsa_builtin_keygen` with at least one
unit of fuel and `bits ≥ 16` returns 0 with the generic `ERR_LIB_BN` entry on
top of the error queue, having invoked the callback at most once, that
invocation being the last event of the run; when moreover no library call
fails and `e ≠ 0`, it has drawn exactly one candidate and invoked the
callback exactly once.  `fips_rsa_builtin_keygen` returns 0 as soon as a
candidate reaches the minimum within the fuel, having invoked the callback at
most once, and after that invocation the generic entry is on top; on a fresh
key, with arguments that pass its checks, no library failure, a first
candidate that reaches the minimum and a primality test that reports no
error, it has drawn exactly one candidate and invoked the callback exactly
once.  Whatever
the fuel, a return after an invocation of the callback is a return of 0 with
the generic entry on top.  The same return value and top entry report a
failed library call: every return of 0 by `rsa_builtin_keygen` for
`bits ≥ 16` has the generic entry on top, and a failure of the first library
call makes either generator return 0 with it, the callback not invoked; so
no outcome is reserved for cancellation. -/
theorem C8_abort_reported_as_generic_error (env : Env) (fuel : Nat) (s : St)
    (bits e_value : Int) :
    (cb_aborts env s → 1 ≤ fuel → ¬ bits < 16 →
      ∃ s1, rsa_builtin_keygen env fuel s bits e_value = some (0, s1) ∧
        s1.errs.head? = some (generic_error Func.RSA_BUILTIN_KEYGEN) ∧
        (s1.ncb = s.ncb ∨ Cancelled s s1)) ∧
    (cb_aborts env s → 1 ≤ fuel → ¬ bits < 16 → (∀ k, env.fail k = false) → e_value ≠ 0 →
      ∃ s1, rsa_builtin_keygen env fuel s bits e_value = some (0, s1) ∧
        s1.errs.head? = some (generic_error Func.RSA_BUILTIN_KEYGEN) ∧
        Cancelled s s1 ∧ s1.ndraw = s.ndraw + 1) ∧
    (cb_aborts env s →
      (∃ j, j < fuel ∧ min_prime (Int.tdiv bits 2) ≤
        BN_rand_val (env.rand (s.ndraw + j)) (Int.tdiv bits 2) 0 1) →
      ∃ s1, fips_rsa_builtin_keygen env fuel s bits e_value = some (0, s1) ∧
        (s1.ncb = s.ncb ∨ (Cancelled s s1 ∧
          s1.errs.head? = some (generic_error Func.FIPS_RSA_BUILTIN_KEYGEN)))) ∧
    (cb_aborts env s → 1 ≤ fuel → (∀ k, env.fail k = false) → size_checks_pass env s bits →
      ¬ bad_exponent e_value → Fresh s.rsa → 0 < Int.tdiv bits 2 →
      min_prime (Int.tdiv bits 2) ≤ BN_rand_val (env.rand s.ndraw) (Int.tdiv bits 2) 0 1 →
      (∀ x c, env.is_prime s.ntest x c ≠ -1) →
      ∃ s1, fips_rsa_builtin_keygen env fuel s bits e_value = some (0, s1) ∧
        s1.errs.head? = some (generic_error Func.FIPS_RSA_BUILTIN_KEYGEN) ∧
        Cancelled s s1 ∧ s1.ndraw = s.ndraw + 1) ∧
    (∀ ret s1, cb_aborts env s → rsa_builtin_keygen env fuel s bits e_value = some (ret, s1) →
      s.ncb < s1.ncb →
      ret = 0 ∧ Cancelled s s1 ∧
        s1.errs.head? = some (generic_error Func.RSA_BUILTIN_KEYGEN)) ∧
    (∀ ret s1, cb_aborts env s →
      fips_rsa_builtin_keygen env fuel s bits e_value = some (ret, s1) → s.ncb < s1.ncb →
      ret = 0 ∧ Cancelled s s1 ∧
        s1.errs.head? = some (generic_error Func.FIPS_RSA_BUILTIN_KEYGEN)) ∧
    (∀ s1, ¬ bits < 16 → rsa_builtin_keygen env fuel s bits e_value = some (0, s1) →
      s1.errs.head? = some (generic_error Func.RSA_BUILTIN_KEYGEN)) ∧
    (env.fail s.nops = true → ¬ bits < 16 →
      ∃ s1, rsa_builtin_keygen env fuel s bits e_value = some (0, s1) ∧ s1.ncb = s.ncb ∧
        s1.errs.head? = some (generic_error Func.RSA_BUILTIN_KEYGEN)) ∧
    (env.fail s.nops = true → size_checks_pass env s bits →
      ∃ s1, fips_rsa_builtin_keygen env fuel s bits e_value = some (0, s1) ∧ s1.ncb = s.ncb ∧
        s1.errs.head? = some (generic_error Func.FIPS_RSA_BUILTIN_KEYGEN)) := by
  refine ⟨?_, ?_, ?_, ?_, ?_, ?_, ?_, ?_, ?_⟩
  · intro ha hfuel hbits
    obtain ⟨k, rfl⟩ : ∃ k, fuel = k + 1 := ⟨fuel - 1, by omega⟩
    obtain ⟨s2, h1, h2⟩ := finish_of_ends Func.RSA_BUILTIN_KEYGEN _ _
      (ends_mono (keygen_body_aborts env k bits e_value hbits s ha) (fun _ _ h => h)
        (fun _ _ h => ⟨h.1, h.2.1⟩))
    refine ⟨_, h2, rfl, ?_⟩
    rcases h1 with h1 | h1
    · exact Or.inl h1
    · exact Or.inr h1
  · intro ha hfuel hbits hf he
    obtain ⟨k, rfl⟩ : ∃ k, fuel = k + 1 := ⟨fuel - 1, by omega⟩
    obtain ⟨s2, h1, h2⟩ := finish_of_ends Func.RSA_BUILTIN_KEYGEN _ _
      (ends_mono (keygen_body_aborts env k bits e_value hbits s ha) (fun _ _ h => h)
        (fun _ _ h => ⟨h.1, h.2.2 hf he⟩))
    exact ⟨_, h2, rfl, h1.1, h1.2⟩
  · rintro ha ⟨j, hj, hmin⟩
    have h := fips_body_aborts env fuel bits e_value s ha j hj hmin
    unfold fips_rsa_builtin_keygen
    cases hr : fips_rsa_builtin_keygen_body env fuel bits e_value s with
    | next a s2 =>
      rw [hr] at h
      exact absurd h id
    | jump ok s2 =>
      rw [hr] at h
      rcases h with ⟨h0, h1⟩ | ⟨h0, h1⟩
      · subst h0
        refine ⟨{ s2 with errs := generic_error Func.FIPS_RSA_BUILTIN_KEYGEN :: s2.errs }, rfl, ?_⟩
        rcases h1 with h1 | h1
        · exact Or.inl h1
        · exact Or.inr ⟨h1, rfl⟩
      · subst h0
        exact ⟨s2, rfl, Or.inl h1⟩
    | spin =>
      rw [hr] at h
      exact absurd h id
  · intro ha hfuel hf hc he hfr hpb hmin hpr
    obtain ⟨k, rfl⟩ : ∃ k, fuel = k + 1 := ⟨fuel - 1, by omega⟩
    obtain ⟨s2, h1, h2⟩ := finish_of_ends Func.FIPS_RSA_BUILTIN_KEYGEN _ _
      (fips_body_first env k bits e_value s ha hf hc he hfr hpb hmin hpr)
    exact ⟨_, h2, rfl, h1.1, h1.2⟩
  · intro ret s1 ha h hc
    unfold rsa_builtin_keygen at h
    by_cases hbits : bits < 16
    · simp only [rsa_builtin_keygen_body, if_pos hbits, bind_apply, put_error_apply,
        andThen_next, goto_err_apply, finish] at h
      simp only [show ¬ ((0 : Int) = -1) by decide, if_false, Option.some.injEq,
        Prod.mk.injEq] at h
      rw [← h.2] at hc
      exact absurd hc (Nat.lt_irrefl _)
    have hs := rsa_builtin_keygen_body_spec env fuel bits e_value (fun _ => True)
      (fun _ _ _ => trivial) hbits s
    rcases finish_cases _ _ _ _ h with ⟨-, hr⟩ | ⟨s2, hr, h0, hs1⟩ | ⟨ok, hok, hr, -⟩
    · rw [hr] at hs
      exact absurd ha hs.2
    · rw [hr] at hs
      obtain ⟨-, -, g2⟩ := hs
      rw [hs1] at hc ⊢
      rcases g2 ha with g | g
      · have hc : s.ncb < s2.ncb := hc
        omega
      · exact ⟨h0, g, rfl⟩
    · rw [hr] at hs
      exact absurd hs.1 hok
  · intro ret s1 ha h hc
    unfold fips_rsa_builtin_keygen at h
    have hs := fips_body_spec env fuel bits e_value s
    rcases finish_cases _ _ _ _ h with ⟨-, hr⟩ | ⟨s2, hr, h0, hs1⟩ | ⟨ok, hok, hr, -⟩
    · rw [hr] at hs
      exact absurd ha hs.2.2
    · rw [hr] at hs
      obtain ⟨-, -, g2⟩ := hs
      rw [hs1] at hc ⊢
      rcases g2 ha with g | g
      · have hc : s.ncb < s2.ncb := hc
        omega
      · exact ⟨h0, g, rfl⟩
    · rw [hr] at hs
      obtain ⟨g0, -, g2⟩ := hs
      rcases g2 ha with g | ⟨g1, a, b, g3⟩
      · omega
      · rcases g0 with g0 | ⟨-, -, g4, -⟩ | ⟨-, -, -, g4⟩
        · exact absurd g0 hok
        · omega
        · rw [g3] at g4
          simp at g4
  · intro s1 hbits h
    unfold rsa_builtin_keygen at h
    have hs := rsa_builtin_keygen_body_spec env fuel bits e_value (fun _ => True)
      (fun _ _ _ => trivial) hbits s
    rcases finish_cases _ _ _ _ h with ⟨h1, -⟩ | ⟨s2, hr, h0, hs1⟩ | ⟨ok, hok, hr, -⟩
    · omega
    · rw [hs1]
      rfl
    · rw [hr] at hs
      exact absurd hs.1 hok
  · intro hfail hbits
    unfold rsa_builtin_keygen
    simp only [rsa_builtin_keygen_body, if_neg hbits, bind_apply, ctx_setup, lib_apply, hfail,
      if_true, andThen_jump, finish]
    exact ⟨_, rfl, rfl, rfl⟩
  · rintro hfail ⟨h1, h2, h3⟩
    unfold fips_rsa_builtin_keygen
    have h1' : ¬ (s.selftest_failed = true) := by simp [h1]
    simp only [fips_rsa_builtin_keygen_body, bind_apply, get_st_apply, andThen_next,
      M_ite_apply, put_error_apply, goto_err_apply, if_neg h1', if_neg h2,
      if_neg (not_not.mpr h3), ctx_setup, lib_apply, hfail, if_true, andThen_jump, finish]
    exact ⟨_, rfl, rfl, rfl⟩

/-- Witness for C8 (amended): the aborted runs in `abort_env`, where the
first 512-bit candidate reaches the minimum, and the runs in `failing_env`,
where the first library call fails. -/
theorem C8_witness :
    cb_aborts abort_env fresh_state ∧ 1 ≤ 5 ∧ ¬ (16 : Int) < 16 ∧
    (∃ s1, rsa_builtin_keygen abort_env 5 fresh_state 16 7 = some (0, s1) ∧
      s1.errs.head? = some (generic_error Func.RSA_BUILTIN_KEYGEN) ∧
      (s1.ncb = fresh_state.ncb ∨ Cancelled fresh_state s1)) ∧
    (∀ k, abort_env.fail k = false) ∧ (7 : Int) ≠ 0 ∧
    (∃ s1, rsa_builtin_keygen abort_env 5 fresh_state 16 7 = some (0, s1) ∧
      s1.errs.head? = some (generic_error Func.RSA_BUILTIN_KEYGEN) ∧
      Cancelled fresh_state s1 ∧ s1.ndraw = fresh_state.ndraw + 1) ∧
    (∃ j, j < 5 ∧ min_prime (Int.tdiv 1024 2) ≤
      BN_rand_val (abort_env.rand (fresh_state.ndraw + j)) (Int.tdiv 1024 2) 0 1) ∧
    (∃ s1, fips_rsa_builtin_keygen abort_env 5 fresh_state 1024 65537 = some (0, s1) ∧
      (s1.ncb = fresh_state.ncb ∨ (Cancelled fresh_state s1 ∧
        s1.errs.head? = some (generic_error Func.FIPS_RSA_BUILTIN_KEYGEN)))) ∧
    size_checks_pass abort_env fresh_state 1024 ∧ ¬ bad_exponent 65537 ∧
    Fresh fresh_state.rsa ∧ 0 < Int.tdiv 1024 2 ∧
    min_prime (Int.tdiv 1024 2) ≤
      BN_rand_val (abort_env.rand fresh_state.ndraw) (Int.tdiv 1024 2) 0 1 ∧
    (∀ x c, abort_env.is_prime fresh_state.ntest x c ≠ -1) ∧
    (∃ s1, fips_rsa_builtin_keygen abort_env 5 fresh_state 1024 65537 = some (0, s1) ∧
      s1.errs.head? = some (generic_error Func.FIPS_RSA_BUILTIN_KEYGEN) ∧
      Cancelled fresh_state s1 ∧ s1.ndraw = fresh_state.ndraw + 1) ∧
    rsa_builtin_keygen abort_env 5 fresh_state 16 7 = some (0, general_abort_final) ∧
    fresh_state.ncb < general_abort_final.ncb ∧
    ((0 : Int) = 0 ∧ Cancelled fresh_state general_abort_final ∧
      general_abort_final.errs.head? = some (generic_error Func.RSA_BUILTIN_KEYGEN)) ∧
    fips_rsa_builtin_keygen abort_env 5 fresh_state 1024 65537 = some (0, fips_abort_final) ∧
    fresh_state.ncb < fips_abort_final.ncb ∧
    ((0 : Int) = 0 ∧ Cancelled fresh_state fips_abort_final ∧
      fips_abort_final.errs.head? = some (generic_error Func.FIPS_RSA_BUILTIN_KEYGEN)) ∧
    general_abort_final.errs.head? = some (generic_error Func.RSA_BUILTIN_KEYGEN) ∧
    failing_env.fail fresh_state.nops = true ∧
    (∃ s1, rsa_builtin_keygen failing_env 5 fresh_state 16 7 = some (0, s1) ∧
      s1.ncb = fresh_state.ncb ∧
      s1.errs.head? = some (generic_error Func.RSA_BUILTIN_KEYGEN)) ∧
    size_checks_pass failing_env fresh_state 1024 ∧
    (∃ s1, fips_rsa_builtin_keygen failing_env 5 fresh_state 1024 65537 = some (0, s1) ∧
      s1.ncb = fresh_state.ncb ∧
      s1.errs.head? = some (generic_error Func.FIPS_RSA_BUILTIN_KEYGEN)) :=
  ⟨abort_env_aborts, by decide, by decide,
    (C8_abort_reported_as_generic_error abort_env 5 fresh_state 16 7).1
      abort_env_aborts (by decide) (by decide),
    fun _ => rfl, by decide,
    (C8_abort_reported_as_generic_error abort_env 5 fresh_state 16 7).2.1
      abort_env_aborts (by decide) (by decide) (fun _ => rfl) (by decide),
    ⟨0, by decide, by decide!⟩,
    (C8_abort_reported_as_generic_error abort_env 5 fresh_state 1024 65537).2.2.1
      abort_env_aborts ⟨0, by decide, by decide!⟩,
    ⟨rfl, by decide, by decide⟩, by unfold bad_exponent; decide!,
    fresh_state_fresh, by decide, by decide!, fun _ _ => by show (1 : Int) ≠ -1; decide,
    (C8_abort_reported_as_generic_error abort_env 5 fresh_state 1024 65537).2.2.2.1
      abort_env_aborts (by decide) (fun _ => rfl) ⟨rfl, by decide, by decide⟩
      (by unfold bad_exponent; decide!) fresh_state_fresh (by decide) (by decide!)
      (fun _ _ => by show (1 : Int) ≠ -1; decide),
    general_abort_run, by decide!,
    (C8_abort_reported_as_generic_error abort_env 5 fresh_state 16 7).2.2.2.2.1
      0 general_abort_final abort_env_aborts general_abort_run (by decide!),
    fips_abort_run, by decide!,
    (C8_abort_reported_as_generic_error abort_env 5 fresh_state 1024 65537).2.2.2.2.2.1
      0 fips_abort_final abort_env_aborts fips_abort_run (by decide!),
    (C8_abort_reported_as_generic_error abort_env 5 fresh_state 16 7).2.2.2.2.2.2.1
      general_abort_final (by decide) general_abort_run,
    rfl,
    (C8_abort_reported_as_generic_error failing_env 5 fresh_state 16 7).2.2.2.2.2.2.2.1
      rfl (by decide),
    ⟨rfl, by decide, by decide⟩,
    (C8_abort_reported_as_generic_error failing_env 5 fresh_state 1024 65537).2.2.2.2.2.2.2.2
      rfl ⟨rfl, by decide, by decide⟩⟩

theorem gen_found_p_run :
    gen_p_loop calm_env 8 5 0 gen_state = Res.next gen_found_p.1 gen_found_p.2 :=
  eq_next_of_value _ _ _ (by decide!)

theorem gen_found_q_run :
    gen_q_loop calm_env 8 5 5 gen_found_p.1 gen_found_p.2 =
      Res.next gen_found_q.1 gen_found_q.2 :=
  eq_next_of_value _ _ _ (by decide!)

theorem checked_candidate_run :
    fips_candidate calm_env false 512 (3 * 2 ^ 510 + 761) search_regs search_state =
      Res.next (true, checked_candidate.1.2) checked_candidate.2 :=
  eq_next_of_value _ _ _ (by decide!)

theorem toy_found_q_run :
    fips_qloop calm_env false 4 30 0 0 toy_regs toy_p_state =
      Res.next toy_found_q.1 toy_found_q.2 :=
  eq_next_of_value _ _ _ (by decide!)

theorem fips_candidate_tested (env : Env) (test : Bool) (pbits : Int) (x e : Int) (r : Regs)
    (s : St) (he : s.rsa.e = some e) :
    (fips_candidate env test pbits x r s).sat
      (fun _ s1 => s.ntest < s1.ntest → Int.gcd (x - 1) e = 1)
      (fun _ s1 => s.ntest < s1.ntest → Int.gcd (x - 1) e = 1) := by
  simp only [fips_candidate, bind_apply, lib_apply, get_st_apply,
    BN_mod_inverse_apply, andThen_ite, andThen_next, andThen_jump, BN_is_prime_apply,
    M_ite_apply, pop_to_mark_apply, goto_err_apply, pure_apply, val, he, Option.getD_some]
  repeat' refine sat_ite (fun _ => ?_) (fun _ => ?_)
  all_goals simp only [sat_jump, sat_next]
  all_goals first
    | (intro h; exact absurd h (Nat.lt_irrefl _))
    | (intro _; assumption)

/-- C4: on every successful return of `rsa_builtin_keygen`, and of
`fips_rsa_builtin_keygen` on a fresh key, `gcd(e, p-1) = 1` and
`gcd(e, q-1) = 1`; and a candidate is accepted only when the inverse of
`candidate - 1` modulo `e` exists: each search loop of `rsa_builtin_keygen`
(`gen_p_loop`, `gen_q_loop`) and of `fips_rsa_builtin_keygen` (`fips_ploop`,
`fips_qloop`) leaves a prime in the key only if that inverse exists, and the
candidate check of the compliance generator (`fips_candidate`) answers
"accepted", or even reaches the primality test, only if it exists. -/
theorem C4_exponent_coprime_to_factors (env : Env) (fuel : Nat) (s : St)
    (bits e_value : Int) (s1 : St) :
    (rsa_builtin_keygen env fuel s bits e_value = some (1, s1) →
      ∃ e p q, s1.rsa.e = some e ∧ s1.rsa.p = some p ∧ s1.rsa.q = some q ∧
        Int.gcd e (p - 1) = 1 ∧ Int.gcd e (q - 1) = 1) ∧
    (Fresh s.rsa → fips_rsa_builtin_keygen env fuel s bits e_value = some (1, s1) →
      ∃ e p q, s1.rsa.e = some e ∧ s1.rsa.p = some p ∧ s1.rsa.q = some q ∧
        Int.gcd e (p - 1) = 1 ∧ Int.gcd e (q - 1) = 1) ∧
    (∀ (bitsp : Int) (lfuel : Nat) (n e : Int) (s0 : St) (n1 : Int) (s2 : St),
      s0.rsa.e = some e → gen_p_loop env bitsp lfuel n s0 = Res.next n1 s2 →
      ∃ p, s2.rsa.p = some p ∧ Int.gcd (p - 1) e = 1) ∧
    (∀ (bitsq : Int) (dfuel lfuel : Nat) (n e p : Int) (s0 : St) (n1 : Int) (s2 : St),
      s0.rsa.e = some e → s0.rsa.p = some p →
      gen_q_loop env bitsq dfuel lfuel n s0 = Res.next n1 s2 →
      ∃ q, s2.rsa.q = some q ∧ Int.gcd (q - 1) e = 1) ∧
    (∀ (test : Bool) (pbits x e : Int) (r : Regs) (s0 : St) (brk : Bool) (r1 : Regs) (s2 : St),
      s0.rsa.e = some e → fips_candidate env test pbits x r s0 = Res.next (brk, r1) s2 →
      (brk = true ∨ s0.ntest < s2.ntest) → Int.gcd (x - 1) e = 1) ∧
    (∀ (test : Bool) (pbits : Int) (lfuel : Nat) (i n e : Int) (r : Regs) (s0 : St)
        (a : Int × Int × Regs) (s2 : St),
      s0.rsa.e = some e → (∃ p, s0.rsa.p = some p) →
      fips_ploop env test pbits lfuel i n r s0 = Res.next a s2 → a.1 < 5 * pbits →
      ∃ p, s2.rsa.p = some p ∧ Int.gcd (p - 1) e = 1) ∧
    (∀ (test : Bool) (pbits : Int) (lfuel : Nat) (i n e p : Int) (r : Regs) (s0 : St)
        (a : Int × Int × Regs) (s2 : St),
      s0.rsa.e = some e → s0.rsa.p = some p → (∃ q, s0.rsa.q = some q) →
      fips_qloop env test pbits lfuel i n r s0 = Res.next a s2 → a.1 < 5 * pbits →
      ∃ q, s2.rsa.q = some q ∧ Int.gcd (q - 1) e = 1) := by
  refine ⟨?_, ?_, ?_, ?_, ?_, ?_, ?_⟩
  · intro h
    obtain ⟨⟨n, e, d, p, q, dmp1, dmq1, iqmp, h1, h2, h3, h4, h5, h6, h7, h8, h9, h10, h11, h12,
      h13, h14, h15, h16, h17, h18, h19, h20, h21⟩, -⟩ :=
      rsa_builtin_keygen_success env fuel s bits e_value s1 h
    exact ⟨e, p, q, h2, h4, h5, h20, h21⟩
  · intro hf h
    rcases fips_keygen_success env fuel s bits e_value s1 h with
      ⟨-, ⟨n, e, d, p, q, dmp1, dmq1, iqmp, h1, h2, h3, h4, h5, h6, h7, h8, h9, h10, h11, h12,
        h13, h14, h15, h16, h17, h18, h19, h20, h21⟩, -⟩ | ⟨hn, -⟩
    · exact ⟨e, p, q, h2, h4, h5, h20, h21⟩
    · exact absurd hf hn
  · intro bitsp lfuel n e s0 n1 s2 he h
    have hs := gen_p_loop_spec env bitsp e (fun _ => True) (fun _ => trivial) lfuel n s0 he
    rw [h] at hs
    obtain ⟨-, -, ⟨p, hp, hg, -⟩, -⟩ := hs
    exact ⟨p, hp, hg⟩
  · intro bitsq dfuel lfuel n e p s0 n1 s2 he hp h
    have hs := gen_q_loop_spec env bitsq dfuel e p (fun _ => True) (fun _ => trivial) lfuel n s0
      he hp
    rw [h] at hs
    obtain ⟨-, -, ⟨q, hq, hg, -⟩, -⟩ := hs
    exact ⟨q, hq, hg⟩
  · intro test pbits x e r s0 brk r1 s2 he h hb
    have hs := fips_candidate_spec env test pbits x e r s0 he
    have ht := fips_candidate_tested env test pbits x e r s0 he
    rw [h] at hs ht
    rcases hb with hb | hb
    · exact hs.2.2.2.2.2 hb
    · exact ht hb
  · intro test pbits lfuel i n e r s0 a s2 he hp h hi
    have hs := fips_ploop_spec env test pbits e lfuel i n r s0 he hp
    rw [h] at hs
    obtain ⟨-, -, -, -, -, -, g7, -⟩ := hs
    obtain ⟨p, hp2, -, hg⟩ := g7 hi
    exact ⟨p, hp2, hg⟩
  · intro test pbits lfuel i n e p r s0 a s2 he hp hq h hi
    have hs := fips_qloop_spec env test pbits e p lfuel i n r s0 he hp hq
    rw [h] at hs
    obtain ⟨-, -, -, -, -, g7, -⟩ := hs
    obtain ⟨q, hq2, -, -, hg⟩ := g7 hi
    exact ⟨q, hq2, hg⟩

/-- Witness for C4: both generators succeed on a fresh key in `calm_env`; the
two loops of `rsa_builtin_keygen` accept 241 and 251 for `e = 7`; the
candidate check accepts `3 * 2^510 + 761` for `e = 65537`; the loops of the
compliance generator accept the 4-bit candidates 9 and 15. -/
theorem C4_witness :
    rsa_builtin_keygen calm_env 5 fresh_state 16 7 = some (1, general_final) ∧
    (∃ e p q, general_final.rsa.e = some e ∧ general_final.rsa.p = some p ∧
      general_final.rsa.q = some q ∧ Int.gcd e (p - 1) = 1 ∧ Int.gcd e (q - 1) = 1) ∧
    Fresh fresh_state.rsa ∧
    fips_rsa_builtin_keygen calm_env 5 fresh_state 1024 65537 = some (1, fips_final) ∧
    (∃ e p q, fips_final.rsa.e = some e ∧ fips_final.rsa.p = some p ∧
      fips_final.rsa.q = some q ∧ Int.gcd e (p - 1) = 1 ∧ Int.gcd e (q - 1) = 1) ∧
    gen_state.rsa.e = some 7 ∧
    gen_p_loop calm_env 8 5 0 gen_state = Res.next gen_found_p.1 gen_found_p.2 ∧
    (∃ p, gen_found_p.2.rsa.p = some p ∧ Int.gcd (p - 1) 7 = 1) ∧
    gen_found_p.2.rsa.e = some 7 ∧ gen_found_p.2.rsa.p = some 241 ∧
    gen_q_loop calm_env 8 5 5 gen_found_p.1 gen_found_p.2 =
      Res.next gen_found_q.1 gen_found_q.2 ∧
    (∃ q, gen_found_q.2.rsa.q = some q ∧ Int.gcd (q - 1) 7 = 1) ∧
    search_state.rsa.e = some 65537 ∧
    fips_candidate calm_env false 512 (3 * 2 ^ 510 + 761) search_regs search_state =
      Res.next (true, checked_candidate.1.2) checked_candidate.2 ∧
    Int.gcd ((3 * 2 ^ 510 + 761 : Int) - 1) 65537 = 1 ∧
    (∃ p, search_state.rsa.p = some p) ∧
    fips_ploop one_prime_env false 4 30 0 0 toy_regs search_state =
      Res.next found_p.1 found_p.2 ∧
    found_p.1.1 < 5 * 4 ∧
    (∃ p, found_p.2.rsa.p = some p ∧ Int.gcd (p - 1) 65537 = 1) ∧
    toy_p_state.rsa.e = some 65537 ∧ toy_p_state.rsa.p = some 9 ∧
    (∃ q, toy_p_state.rsa.q = some q) ∧
    fips_qloop calm_env false 4 30 0 0 toy_regs toy_p_state =
      Res.next toy_found_q.1 toy_found_q.2 ∧
    toy_found_q.1.1 < 5 * 4 ∧
    (∃ q, toy_found_q.2.rsa.q = some q ∧ Int.gcd (q - 1) 65537 = 1) :=
  ⟨general_run,
    (C4_exponent_coprime_to_factors calm_env 5 fresh_state 16 7 general_final).1 general_run,
    fresh_state_fresh, fips_run,
    (C4_exponent_coprime_to_factors calm_env 5 fresh_state 1024 65537 fips_final).2.1
      fresh_state_fresh fips_run,
    rfl, gen_found_p_run,
    (C4_exponent_coprime_to_factors calm_env 5 fresh_state 16 7 general_final).2.2.1
      8 5 0 7 gen_state gen_found_p.1 gen_found_p.2 rfl gen_found_p_run,
    by decide!, by decide!, gen_found_q_run,
    (C4_exponent_coprime_to_factors calm_env 5 fresh_state 16 7 general_final).2.2.2.1
      8 5 5 gen_found_p.1 7 241 gen_found_p.2 gen_found_q.1 gen_found_q.2 (by decide!)
      (by decide!) gen_found_q_run,
    rfl, checked_candidate_run,
    (C4_exponent_coprime_to_factors calm_env 5 fresh_state 1024 65537 fips_final).2.2.2.2.1
      false 512 (3 * 2 ^ 510 + 761) 65537 search_regs search_state true checked_candidate.1.2
      checked_candidate.2 rfl checked_candidate_run (Or.inl rfl),
    ⟨0, rfl⟩, found_p_run, by decide!,
    (C4_exponent_coprime_to_factors one_prime_env 5 fresh_state 1024 65537
      fips_final).2.2.2.2.2.1 false 4 30 0 0 65537 toy_regs search_state found_p.1 found_p.2 rfl
      ⟨0, rfl⟩ found_p_run (by decide!),
    rfl, rfl, ⟨0, rfl⟩, toy_found_q_run, by decide!,
    (C4_exponent_coprime_to_factors calm_env 5 fresh_state 1024 65537
      fips_final).2.2.2.2.2.2 false 4 30 0 0 65537 9 toy_regs toy_p_state toy_found_q.1
      toy_found_q.2 rfl rfl ⟨0, rfl⟩ toy_found_q_run (by decide!)⟩

end RsaGen
